import Mathlib

/-!
# Wisdom Warfare: the live quiz session core of `backend/server2.js`

A shallow embedding of the quiz state, the question sequencer (`nextQuestion`
and its window-close timer), user resolution (`resolveUserId`), the real-time
`submitAnswer` handler, the REST endpoint `POST /submit-answer`, the global
leaderboard query, the game-code helpers, the catalog (`loadQuestions`,
`POST /questions`) and the CSV bulk import (`handleCsvUploadBuffer`), followed
by the properties proved of them.

Conventions of the embedding

* The five module-level variables `questions`, `currentIndex`,
  `acceptingAnswers`, `firstAnswered`, `answeredUsers` form the record
  `Session`; every function that assigns to them takes and returns a `Session`.
* The MySQL tables form the record `Store`; a transaction runs on a working
  copy that replaces the store on commit and is dropped on rollback.
* `io.emit` / `socket.emit` calls are collected, in program order, in a list of
  `Emit` values.
* An `async` handler runs without interruption between two `await`s, so it is
  cut at its `await`s into atomic pieces; the event model `step` interleaves
  those pieces with the sequencer timer.
-/

namespace WisdomWarfare

/-! ## JavaScript values and coercions -/

/-- Values a JSON field of a socket payload can hold, as far as the handler
inspects them: absent, `null`, a boolean, an integral number or a string
(objects, arrays and fractional numbers are left out). -/
inductive JsVal where
  | undefined
  | null
  | bool (b : Bool)
  | num (n : Int)
  | str (s : String)
  deriving DecidableEq, Repr

/-- Truthiness of a value, as tested by `!x`. -/
def jsTruthy : JsVal → Bool
  | .undefined => false
  | .null => false
  | .bool b => b
  | .num n => n != 0
  | .str s => s != ""

/-- White space stripped by `Number(string)` (the code points of
`StrWhiteSpaceChar`). -/
def jsIsWhiteSpace (c : Char) : Bool :=
  let n := c.toNat
  n == 9 || n == 10 || n == 11 || n == 12 || n == 13 || n == 32 || n == 160 ||
  n == 5760 || (8192 ≤ n && n ≤ 8202) || n == 8232 || n == 8233 || n == 8239 ||
  n == 8287 || n == 12288 || n == 65279

/-- Strip leading and trailing white space. -/
def jsTrimChars (cs : List Char) : List Char :=
  ((cs.dropWhile jsIsWhiteSpace).reverse.dropWhile jsIsWhiteSpace).reverse

/-- A decimal digit. -/
def isDecDigit (c : Char) : Bool :=
  48 ≤ c.toNat && c.toNat ≤ 57

/-- The value of a digit `0-9`, `a-f`, `A-F`. -/
def digitValue (c : Char) : Option Nat :=
  let n := c.toNat
  if 48 ≤ n && n ≤ 57 then some (n - 48)
  else if 97 ≤ n && n ≤ 102 then some (n - 87)
  else if 65 ≤ n && n ≤ 70 then some (n - 55)
  else none

/-- The value of a run of digits in the given base, `none` if another
character occurs. -/
def radixDigits (base : Nat) : List Char → Nat → Option Nat
  | [], acc => some acc
  | c :: cs, acc =>
    match digitValue c with
    | some d => if d < base then radixDigits base cs (acc * base + d) else none
    | none => none

/-- The exponent part of a decimal literal: nothing, or `e`/`E`, an optional
sign and at least one digit. -/
def exponentPart : List Char → Option Int
  | [] => some 0
  | e :: t =>
    if e = 'e' ∨ e = 'E' then
      match t with
      | [] => none
      | '+' :: ds => if ds.isEmpty then none else (radixDigits 10 ds 0).map Int.ofNat
      | '-' :: ds =>
        if ds.isEmpty then none else (radixDigits 10 ds 0).map (fun n => - Int.ofNat n)
      | ds => (radixDigits 10 ds 0).map Int.ofNat
    else none

/-- An unsigned decimal literal (digits, optional fraction, optional exponent)
that denotes a natural number; `none` when the text is no such literal or its
value is not integral. -/
def integralDecimal (cs : List Char) : Option Nat :=
  let ip := cs.takeWhile isDecDigit
  let r1 := cs.dropWhile isDecDigit
  let fp := match r1 with
    | '.' :: t => t.takeWhile isDecDigit
    | _ => []
  let r2 := match r1 with
    | '.' :: t => t.dropWhile isDecDigit
    | _ => r1
  if ip.isEmpty && fp.isEmpty then none
  else
    match exponentPart r2, radixDigits 10 (ip ++ fp) 0 with
    | some e, some m =>
      let shift : Int := e - (fp.length : Int)
      if 0 ≤ shift then some (m * 10 ^ shift.toNat)
      else if m % 10 ^ (-shift).toNat = 0 then some (m / 10 ^ (-shift).toNat)
      else none
    | _, _ => none

/-- `Number(s)` for a string, as far as `resolveUserId` can tell the results
apart: white space is trimmed; the empty string is `0`; a `0x`, `0o` or `0b`
literal or an optionally signed decimal literal that denotes an integer is that
integer; everything else (`NaN`, an infinity, a non-integral value) is `none`.
A non-integral number equals no `user_id`, so `resolveUserId` treats it like
`NaN`. Values are exact: a numeral that the engine rounds to a double (more
than 53 significant bits, or beyond the range of doubles) is read here as
written. `resolveUserIdOf` takes the result of `Number()` from the engine
instead. -/
def jsStringToNumber (s : String) : Option Int :=
  match jsTrimChars s.data with
  | [] => some 0
  | '+' :: rest => (integralDecimal rest).map Int.ofNat
  | '-' :: rest => (integralDecimal rest).map (fun n => - Int.ofNat n)
  | '0' :: x :: d :: ds =>
    if x = 'x' ∨ x = 'X' then (radixDigits 16 (d :: ds) 0).map Int.ofNat
    else if x = 'o' ∨ x = 'O' then (radixDigits 8 (d :: ds) 0).map Int.ofNat
    else if x = 'b' ∨ x = 'B' then (radixDigits 2 (d :: ds) 0).map Int.ofNat
    else (integralDecimal ('0' :: x :: d :: ds)).map Int.ofNat
  | cs => (integralDecimal cs).map Int.ofNat

/-- `Number(x)`; `none` stands for `NaN` (see `jsStringToNumber`). -/
def jsNumber : JsVal → Option Int
  | .undefined => none
  | .null => some 0
  | .bool b => some (if b then 1 else 0)
  | .num n => some n
  | .str s => jsStringToNumber s

/-- `String(x)`; a number is printed with all its digits (the engine prints
exponent form from `1e21` on). -/
def jsString : JsVal → String
  | .undefined => "undefined"
  | .null => "null"
  | .bool b => if b then "true" else "false"
  | .num n => toString n
  | .str s => s

/-! ## Data model -/

/-- A row of the `questions` table, as loaded into the catalog. -/
structure Question where
  id : Nat
  text : String
  option_a : String
  option_b : String
  option_c : String
  option_d : String
  correct : String
  difficulty : Option String
  deriving DecidableEq, Repr

/-- The module-level quiz state (`server2.js` lines 37-41). `answeredUsers` is
the JS `Set` in insertion order, without duplicates. -/
structure Session where
  questions : List Question
  currentIndex : Int
  acceptingAnswers : Bool
  firstAnswered : Bool
  answeredUsers : List Nat
  deriving DecidableEq, Repr

/-- The value of `questions[currentIndex]`; `none` is `undefined`. -/
def questionAt (qs : List Question) (i : Int) : Option Question :=
  if i < 0 then none else qs.get? i.toNat

/-- The four option texts of the broadcast payload. -/
structure Options where
  A : String
  B : String
  C : String
  D : String
  deriving DecidableEq, Repr

/-- The object sent with the `newQuestion` event (lines 138-143). -/
structure QuestionPayload where
  id : Nat
  text : String
  options : Options
  difficulty : String
  deriving DecidableEq, Repr

/-- The value of `q.difficulty || "Medium"`. -/
def difficultyOrMedium : Option String → String
  | none => "Medium"
  | some d => if d = "" then "Medium" else d

/-- The payload object literal of lines 138-143. -/
def newQuestionPayload (q : Question) : QuestionPayload :=
  { id := q.id
    text := q.text
    options := { A := q.option_a, B := q.option_b, C := q.option_c, D := q.option_d }
    difficulty := difficultyOrMedium q.difficulty }

/-- A row of the `users` table. -/
structure User where
  user_id : Nat
  uid : Option String
  display_name : Option String
  username : Option String
  email : Option String
  deriving DecidableEq, Repr

/-- A row of the `performance` table. -/
structure PerfRow where
  user_id : Nat
  score : Int
  attempts : Nat
  correct : Nat
  accuracy : Rat
  last_update : Nat
  deriving DecidableEq, Repr

/-- A row of the `answers` table, one per call of `POST /submit-answer`. -/
structure AnswerRow where
  user_id : Nat
  game_name : Option String
  question_id : JsVal
  selected_answer : JsVal
  correct_answer : String
  is_correct : Bool
  deriving DecidableEq, Repr

/-- A row of the `scores` table, keyed by `(user_id, game_name)`. -/
structure ScoreRow where
  user_id : Nat
  game_name : String
  score : Int
  attempts : Nat
  correct : Nat
  accuracy : Rat
  last_update : Nat
  deriving DecidableEq, Repr

/-- A row of the `game_sessions` table. -/
structure GameSession where
  game_id : Nat
  game_name : String
  teacher_user_id : Nat
  game_code : Option String
  deriving DecidableEq, Repr

/-- The tables: `users` and `performance` are used by the real-time path, the
others by the REST endpoints. -/
structure Store where
  users : List User
  performance : List PerfRow
  questions : List Question := []
  answers : List AnswerRow := []
  scores : List ScoreRow := []
  game_sessions : List GameSession := []
  deriving DecidableEq, Repr

/-- A row returned by `fetchGlobalLeaderboard`. -/
structure LeaderboardRow where
  user_id : Nat
  uid : Option String
  display_name : Option String
  score : Int
  last_update : Option Nat
  deriving DecidableEq, Repr

/-- An emitted socket event: `gameOver`, `newQuestion` and
`leaderboard:global` are broadcast with `io.emit`, `answerResult` is sent to
the submitting socket with `socket.emit`. -/
inductive Emit where
  | gameOver (message : String)
  | newQuestion (payload : QuestionPayload)
  | answerResult (message : String)
  | leaderboardGlobal (rows : List LeaderboardRow)
  deriving DecidableEq, Repr

/-! ## The quiz loop: `nextQuestion` (lines 124-151) -/

/-- The statements of `nextQuestion`, in program order. -/
inductive Stmt where
  | incIndex
  | clearAnswered
  | resetFirst
  | emitGameOver
  | openWindow
  | emitNewQuestion (payload : QuestionPayload)
  | scheduleWindowClose
  | throwTypeError
  deriving DecidableEq, Repr

/-- One executed statement and the session state right after it. -/
structure TraceStep where
  stmt : Stmt
  after : Session
  deriving DecidableEq, Repr

/-- The text of the `gameOver` message (line 130), as it stands in the file. -/
def gameOverMessage : String :=
  "ðŸŽ‰ Game Over! Thanks for playing."

/-- Statement-by-statement execution of `nextQuestion`: `currentIndex++`,
`answeredUsers.clear()`, `firstAnswered = false`; then either the `gameOver`
broadcast and `return`, or `acceptingAnswers = true`, the `newQuestion`
broadcast and `setTimeout`. Reading `q.id` of an `undefined` entry throws. -/
def nextQuestionTrace (s : Session) : List TraceStep :=
  let s1 : Session := { s with currentIndex := s.currentIndex + 1 }
  let s2 : Session := { s1 with answeredUsers := [] }
  let s3 : Session := { s2 with firstAnswered := false }
  let reset : List TraceStep := [⟨.incIndex, s1⟩, ⟨.clearAnswered, s2⟩, ⟨.resetFirst, s3⟩]
  if s3.currentIndex ≥ (s3.questions.length : Int) then
    reset ++ [⟨.emitGameOver, s3⟩]
  else
    let s4 : Session := { s3 with acceptingAnswers := true }
    match questionAt s3.questions s3.currentIndex with
    | none => reset ++ [⟨.openWindow, s4⟩, ⟨.throwTypeError, s4⟩]
    | some q =>
      reset ++ [⟨.openWindow, s4⟩, ⟨.emitNewQuestion (newQuestionPayload q), s4⟩,
        ⟨.scheduleWindowClose, s4⟩]

/-- The event a statement broadcasts, if any. -/
def Stmt.emit? : Stmt → Option Emit
  | .emitGameOver => some (.gameOver gameOverMessage)
  | .emitNewQuestion p => some (.newQuestion p)
  | _ => none

/-- What one call of `nextQuestion` leaves behind. -/
structure AdvanceResult where
  sess : Session
  emits : List Emit
  timerScheduled : Bool
  threw : Bool
  deriving DecidableEq, Repr

/-- The session after the last executed statement of a trace. -/
def lastSession (s : Session) : List TraceStep → Session
  | [] => s
  | t :: ts => lastSession t.after ts

/-- The function `nextQuestion`: final state, broadcasts, whether the
window-close timer was set, and whether the call ended in an exception. -/
def nextQuestion (s : Session) : AdvanceResult :=
  let tr := nextQuestionTrace s
  { sess := lastSession s tr
    emits := tr.filterMap (fun t => t.stmt.emit?)
    timerScheduled := tr.any (fun t => t.stmt == .scheduleWindowClose)
    threw := tr.any (fun t => t.stmt == .throwTypeError) }

/-! ## User resolution: `resolveUserId` (lines 156-176) -/

/-- The function `resolveUserId` on the values of `JsVal`, as the handlers
call it, with both queries succeeding and the conversions `jsNumber` and
`jsString`: a falsy input other than the number `0` gives `null`; a finite
positive `Number(uidOrId)` that is the `user_id` of a row is returned;
otherwise the `user_id` of the first row whose `uid` equals `String(uidOrId)`;
otherwise `null`. It is `resolveUserIdOf`, the function on every argument, at
`uidInputOf` (`resolveUserId_eq_of`). -/
def resolveUserId (users : List User) (uidOrId : JsVal) : Option Nat :=
  if !jsTruthy uidOrId && uidOrId != JsVal.num 0 then none
  else
    let byId : Option Nat :=
      match jsNumber uidOrId with
      | some asNumber =>
        if 0 < asNumber && users.any (fun u => (u.user_id : Int) == asNumber) then
          some asNumber.toNat
        else none
      | none => none
    match byId with
    | some n => some n
    | none =>
      match users.find? (fun u => u.uid == some (jsString uidOrId)) with
      | some u => some u.user_id
      | none => none

/-- A JavaScript number as `Number.isFinite` and `>` see it: `NaN` and the two
infinities are not finite; a finite number is the rational it denotes. -/
inductive JsNum where
  | notFinite
  | finite (value : Rat)
  deriving DecidableEq, Repr

/-- The argument of `resolveUserId` as the function reads it, for any
JavaScript value. The guard of line 157, `!uidOrId && uidOrId !== 0`, holds
exactly of the falsy values other than the number zero (`null`, `undefined`,
`''`, `false`, `NaN`): `empty`. The number zero passes the guard, with
`Number(0)` zero and `String(0)` the text `0`: `zero`. Every other value is
truthy and is read through `Number(uidOrId)` and `String(uidOrId)` only, whose
results are taken from the engine as they are: `value`. -/
inductive UidInput where
  | empty
  | zero
  | value (asNumber : JsNum) (asString : String)
  deriving DecidableEq, Repr

/-- The query `SELECT user_id FROM users WHERE user_id = ? LIMIT 1` returns a
row: the `user_id` of the first row whose id equals the bound number. -/
def findUserById (users : List User) (v : Rat) : Option Nat :=
  (users.find? (fun u => (u.user_id : Rat) == v)).map (fun u => u.user_id)

/-- The query `SELECT user_id FROM users WHERE uid = ? LIMIT 1`: the `user_id`
of the first row whose `uid` is the bound text. -/
def findUserByUid (users : List User) (s : String) : Option Nat :=
  (users.find? (fun u => u.uid == some s)).map (fun u => u.user_id)

/-- The function `resolveUserId` (lines 156-176) on any argument, with both
queries succeeding: `null` behind the guard; for a finite positive
`Number(uidOrId)` that is the `user_id` of a row, that number; otherwise the
`user_id` of the first row whose `uid` equals `String(uidOrId)`; otherwise
`null`. -/
def resolveUserIdOf (users : List User) : UidInput → Option Nat
  | .empty => none
  | .zero => findUserByUid users "0"
  | .value asNumber asString =>
    match asNumber with
    | .notFinite => findUserByUid users asString
    | .finite v =>
      if 0 < v then
        match findUserById users v with
        | some n => some n
        | none => findUserByUid users asString
      else findUserByUid users asString

/-- How the values of `JsVal` are read by `resolveUserId`, with the conversions
`jsNumber` and `jsString` of this embedding. -/
def uidInputOf : JsVal → UidInput
  | .undefined => .empty
  | .null => .empty
  | .bool b => if b then .value (.finite 1) "true" else .empty
  | .num n => if n = 0 then .zero else .value (.finite (n : Rat)) (jsString (.num n))
  | .str s =>
    if s = "" then .empty
    else
      .value
        (match jsStringToNumber s with
          | some n => .finite (n : Rat)
          | none => .notFinite)
        s

/-! ## Store operations of the real-time path -/

/-- The score shown for a user: `COALESCE(p.score, 0)` of the user's row. -/
def scoreOf (st : Store) (u : Nat) : Int :=
  match st.performance.find? (fun r => r.user_id == u) with
  | some r => r.score
  | none => 0

/-- The statement `INSERT INTO performance (user_id, score) VALUES (?, ?) ON
DUPLICATE KEY UPDATE score = score + VALUES(score), last_update =
CURRENT_TIMESTAMP` (lines 235-240). A new row takes the column defaults: `0`
for `attempts`, `correct` and `accuracy`, the current time for `last_update`. -/
def upsertPerformanceScore (st : Store) (u : Nat) (points : Int) (now : Nat) : Store :=
  if st.performance.any (fun r => r.user_id == u) then
    { st with performance := st.performance.map (fun r =>
        if r.user_id == u then { r with score := r.score + points, last_update := now } else r) }
  else
    { st with performance := st.performance ++
        [{ user_id := u, score := points, attempts := 0, correct := 0, accuracy := 0,
           last_update := now }] }

/-- The value of `COALESCE(u.display_name, u.username, u.email)`. -/
def coalesceName (u : User) : Option String :=
  match u.display_name with
  | some n => some n
  | none =>
    match u.username with
    | some n => some n
    | none => u.email

/-- The rows of `users u LEFT JOIN performance p ON u.user_id = p.user_id`
with the select list of `fetchGlobalLeaderboard`. -/
def leaderboardJoin (st : Store) : List LeaderboardRow :=
  st.users.flatMap (fun u =>
    match st.performance.filter (fun r => r.user_id == u.user_id) with
    | [] => [{ user_id := u.user_id, uid := u.uid, display_name := coalesceName u,
               score := 0, last_update := none }]
    | rs => rs.map (fun r =>
        { user_id := u.user_id, uid := u.uid, display_name := coalesceName u,
          score := r.score, last_update := some r.last_update }))

/-- Ascending order of `p.last_update`, `NULL` first. -/
def lastUpdateLe : Option Nat → Option Nat → Bool
  | none, _ => true
  | some _, none => false
  | some a, some b => a ≤ b

/-- The order `ORDER BY score DESC, p.last_update ASC`. -/
def leaderboardBefore (a b : LeaderboardRow) : Prop :=
  a.score > b.score ∨ (a.score = b.score ∧ lastUpdateLe a.last_update b.last_update = true)

instance : DecidableRel leaderboardBefore := fun a b => by
  unfold leaderboardBefore
  exact inferInstance

/-- The function `fetchGlobalLeaderboard` (lines 57-68): the joined rows in
leaderboard order, cut to `limit` rows. -/
def fetchGlobalLeaderboard (st : Store) (limit : Nat) : List LeaderboardRow :=
  ((leaderboardJoin st).insertionSort leaderboardBefore).take limit

/-- A call of `fetchGlobalLeaderboard` with or without an argument: the
parameter default `limit = 10` stands in for a missing one. -/
def fetchGlobalLeaderboardCall (st : Store) (limit : Option Nat) : List LeaderboardRow :=
  fetchGlobalLeaderboard st (limit.getD 10)

instance : IsTotal LeaderboardRow leaderboardBefore where
  total a b := by
    unfold leaderboardBefore
    rcases lt_trichotomy a.score b.score with h | h | h
    · exact Or.inr (Or.inl h)
    · have ht : lastUpdateLe a.last_update b.last_update = true ∨
          lastUpdateLe b.last_update a.last_update = true := by
        cases a.last_update <;> cases b.last_update <;> simp [lastUpdateLe]
        omega
      rcases ht with t | t
      · exact Or.inl (Or.inr ⟨h, t⟩)
      · exact Or.inr (Or.inr ⟨h.symm, t⟩)
    · exact Or.inl (Or.inl h)

instance : IsTrans LeaderboardRow leaderboardBefore where
  trans a b c := by
    unfold leaderboardBefore
    intro hab hbc
    rcases hab with hab | ⟨hab, tab⟩ <;> rcases hbc with hbc | ⟨hbc, tbc⟩
    · exact Or.inl (by omega)
    · exact Or.inl (by omega)
    · exact Or.inl (by omega)
    · refine Or.inr ⟨by omega, ?_⟩
      revert tab tbc
      cases a.last_update <;> cases b.last_update <;> cases c.last_update <;>
        simp [lastUpdateLe]
      omega

/-! ## The real-time handler: `socket.on("submitAnswer", ...)` (lines 202-250) -/

/-- The payload `{ user_id, answer }` of a `submitAnswer` event. -/
structure Submission where
  user_id : JsVal
  answer : JsVal
  deriving DecidableEq, Repr

/-- What the store does while one handler runs: the value of
`CURRENT_TIMESTAMP`, whether the `INSERT` of lines 235-240 is rejected, and
whether the leaderboard query of `broadcastGlobalLeaderboard` is rejected. -/
structure Env where
  now : Nat
  insertFails : Bool
  leaderboardFails : Bool
  deriving DecidableEq, Repr

/-- What one run of the handler leaves behind. -/
structure SubmitResult where
  sess : Session
  store : Store
  emits : List Emit
  deriving DecidableEq, Repr

/-- Rejection (a), line 205. -/
def noActiveMsg : String := "No active question."

/-- Rejection (b), line 209. -/
def missingUserMsg : String := "Missing user_id."

/-- Rejection (c), line 214. -/
def unknownUserMsg : String := "Unknown user."

/-- Rejection (d), line 218, with the characters of the file (the third one
is U+00A0). -/
def alreadyAnsweredMsg : String := "âš\u00a0 You already answered this question!"

/-- The template literal of line 230. -/
def firstCorrectMsg (points : Nat) : String :=
  "âœ… First Correct! +" ++ toString points ++ " points"

/-- The template literal of line 232. -/
def correctMsg (points : Nat) : String :=
  "âœ… Correct! +" ++ toString points ++ " points"

/-- The result of line 244. -/
def wrongMsg : String := "âŒ Wrong!"

/-- The result sent from the `catch` block, line 248. -/
def serverErrorMsg : String := "Server error processing answer."

/-- The synchronous head of the handler, up to `await resolveUserId(user_id)`
(lines 204-211): the rejection it sends, or `none` when it goes on to resolve
the user. -/
def submitCheck (s : Session) (user_id : JsVal) : Option String :=
  if !s.acceptingAnswers || (questionAt s.questions s.currentIndex).isNone then
    some noActiveMsg
  else if !jsTruthy user_id then
    some missingUserMsg
  else none

/-- The handler from the point where `await resolveUserId(user_id)` has
returned `resolved` (lines 213-249), run on the session and store found at
that moment. Reading `.correct` of an `undefined` entry, or a rejected
`INSERT`, ends in the `catch` block; `broadcastGlobalLeaderboard` catches its
own failure. -/
def submitResume (s : Session) (st : Store) (env : Env) (resolved : Option Nat)
    (answer : JsVal) : SubmitResult :=
  match resolved with
  | none => { sess := s, store := st, emits := [.answerResult unknownUserMsg] }
  | some r =>
    if r = 0 then
      { sess := s, store := st, emits := [.answerResult unknownUserMsg] }
    else if s.answeredUsers.contains r then
      { sess := s, store := st, emits := [.answerResult alreadyAnsweredMsg] }
    else
      let s1 : Session := { s with answeredUsers := s.answeredUsers ++ [r] }
      match questionAt s1.questions s1.currentIndex with
      | none => { sess := s1, store := st, emits := [.answerResult serverErrorMsg] }
      | some q =>
        if answer = .str q.correct then
          let points : Nat := if s1.firstAnswered then 10 else 10 + 5
          let s2 : Session := if s1.firstAnswered then s1 else { s1 with firstAnswered := true }
          let ack : Emit :=
            if s1.firstAnswered then .answerResult (correctMsg points)
            else .answerResult (firstCorrectMsg points)
          if env.insertFails then
            { sess := s2, store := st, emits := [ack, .answerResult serverErrorMsg] }
          else
            let st2 := upsertPerformanceScore st r points env.now
            { sess := s2, store := st2,
              emits := ack ::
                (if env.leaderboardFails then []
                 else [.leaderboardGlobal (fetchGlobalLeaderboard st2 20)]) }
        else
          { sess := s1, store := st, emits := [.answerResult wrongMsg] }

/-- The whole handler run without interruption at its `await`s. -/
def submitAnswer (s : Session) (st : Store) (env : Env) (sub : Submission) : SubmitResult :=
  match submitCheck s sub.user_id with
  | some msg => { sess := s, store := st, emits := [.answerResult msg] }
  | none => submitResume s st env (resolveUserId st.users sub.user_id) sub.answer

/-! ## The server as an event system -/

/-- The pending `setTimeout` of the sequencer: none, the start-up timer of
`server.listen` (lines 866-871), or the window-close timer of `nextQuestion`
(lines 147-150). -/
inductive Timer where
  | off
  | startup
  | windowClose
  deriving DecidableEq, Repr

/-- The server: quiz state, store, pending sequencer timer, the handlers
suspended at `await resolveUserId`, and every event emitted so far. -/
structure Sys where
  sess : Session
  store : Store
  timer : Timer
  pending : List Submission
  out : List Emit
  deriving DecidableEq, Repr

/-- What can happen next: the pending timer fires; `loadQuestions` assigns a
new catalog; a `submitAnswer` event arrives and its handler runs to its first
`await`; the `i`-th suspended handler resumes; or a handler runs start to end
with nothing in between. -/
inductive Event where
  | timer
  | reload (rows : List Question)
  | arrive (sub : Submission)
  | resume (i : Nat) (env : Env)
  | submit (sub : Submission) (env : Env)
  deriving DecidableEq, Repr

/-- The state when `server.listen` has loaded the catalog and set the
start-up timer. -/
def initSys (catalog : List Question) (st : Store) : Sys :=
  { sess := { questions := catalog, currentIndex := -1, acceptingAnswers := false,
              firstAnswered := false, answeredUsers := [] }
    store := st
    timer := .startup
    pending := []
    out := [] }

/-- Run `nextQuestion` from a timer callback: a call that returns without
`setTimeout`, or throws, leaves no timer pending. -/
def runAdvance (sys : Sys) : Sys :=
  let r := nextQuestion sys.sess
  { sys with
    sess := r.sess
    out := sys.out ++ r.emits
    timer := if r.timerScheduled then .windowClose else .off }

/-- The pending timer fires: the start-up callback calls `nextQuestion`; the
window-close callback sets `acceptingAnswers = false` and calls
`nextQuestion`. -/
def fireTimer (sys : Sys) : Sys :=
  match sys.timer with
  | .off => sys
  | .startup => runAdvance sys
  | .windowClose =>
    runAdvance { sys with sess := { sys.sess with acceptingAnswers := false } }

/-- One event. -/
def step (sys : Sys) : Event → Sys
  | .timer => fireTimer sys
  | .reload rows => { sys with sess := { sys.sess with questions := rows } }
  | .arrive sub =>
    match submitCheck sys.sess sub.user_id with
    | some msg => { sys with out := sys.out ++ [.answerResult msg] }
    | none => { sys with pending := sys.pending ++ [sub] }
  | .resume i env =>
    match sys.pending.get? i with
    | none => sys
    | some sub =>
      let r := submitResume sys.sess sys.store env
        (resolveUserId sys.store.users sub.user_id) sub.answer
      { sys with
        sess := r.sess
        store := r.store
        pending := sys.pending.eraseIdx i
        out := sys.out ++ r.emits }
  | .submit sub env =>
    let r := submitAnswer sys.sess sys.store env sub
    { sys with sess := r.sess, store := r.store, out := sys.out ++ r.emits }

/-- A sequence of events. -/
def runEvents (sys : Sys) (evs : List Event) : Sys :=
  evs.foldl step sys

/-- The broadcast trace the sequencer is expected to produce after `k` timer
firings on a catalog: the first `k` questions in order, then `gameOver` once
the catalog is exhausted. -/
def expectedBroadcasts (catalog : List Question) (k : Nat) : List Emit :=
  (catalog.take k).map (fun q => Emit.newQuestion (newQuestionPayload q)) ++
    (if catalog.length < k then [Emit.gameOver gameOverMessage] else [])

/-! ## The REST path: `POST /submit-answer` (lines 404-508) -/

/-- The request body `{ user_id, question_id, selected, game_name }`; an absent
field is `undefined`. -/
structure SubmitRequest where
  user_id : JsVal
  question_id : JsVal
  selected : JsVal
  game_name : JsVal
  deriving DecidableEq, Repr

/-- The arithmetic behind the accuracy columns, which is not part of the
source: `jsPercent correct attempts` is the double the engine computes for
`(perf.correct / perf.attempts) * 100` on line 482, `sqlPercent correct
attempts` is the value the store assigns to `scores.accuracy` for
`(correct / attempts) * 100`, and `toColumn v` is the value
`performance.accuracy` holds after the double `v` is bound to it. Doubles and
decimals are rationals. -/
structure Arith where
  jsPercent : Nat → Nat → Rat
  sqlPercent : Nat → Nat → Rat
  toColumn : Rat → Rat

/-- An arithmetic without rounding, for the sample data: it agrees with the
engine and the store where the ratio is a whole number of percent, as for the
totals of the samples. -/
def exactArith : Arith :=
  { jsPercent := fun correct attempts => (correct : Rat) / (attempts : Rat) * 100
    sqlPercent := fun correct attempts => (correct : Rat) / (attempts : Rat) * 100
    toColumn := fun v => v }

/-- What the store does during one request: the value of `CURRENT_TIMESTAMP`,
the first statement of the transaction that is rejected, if any, and the
arithmetic of the engine and the store (exact when none is given). The
statements are numbered in program order: 0 `beginTransaction`, 1 `SELECT ...
FROM questions`, 2 `INSERT INTO answers`, 3 `INSERT INTO scores ... ON
DUPLICATE KEY UPDATE`, 4 `UPDATE scores SET accuracy`, 5 `SELECT ... FROM
game_sessions`, 6 `INSERT INTO performance ... ON DUPLICATE KEY UPDATE`,
7 `SELECT ... FROM performance`, 8 `UPDATE performance SET accuracy`,
9 `commit`. -/
structure RestEnv where
  now : Nat
  failAt : Option Nat
  arith : Arith := exactArith

/-- The response: status 400, the two 404s, status 500, or the success body
`{ ok, is_correct, points_awarded, total_score, attempts, correct, accuracy }`. -/
inductive RestResponse where
  | badRequest
  | userNotFound
  | questionNotFound
  | serverError
  | ok (is_correct : Bool) (points_awarded : Nat) (total_score : Int) (attempts : Nat)
      (correct : Nat) (accuracy : Rat)
  deriving DecidableEq, Repr

/-- The committed store and the response of one request. The leaderboard
broadcasts, which only read, are left out. -/
structure RestResult where
  store : Store
  response : RestResponse
  deriving DecidableEq, Repr

/-- The comparison `id = ?` of an integer key with a bound parameter: a number
is compared by value, a string by the number it spells (the conversion the
store applies to a string that is not a plain numeral is not modelled). -/
def sqlIntEq (id : Nat) (v : JsVal) : Bool :=
  match v with
  | .undefined => false
  | .null => false
  | v => jsNumber v == some (id : Int)

/-- The value of `(correct / attempts) * 100` under the given arithmetic, or
`0` without attempts: the `CASE WHEN attempts > 0 ... ELSE 0` of the `UPDATE`
of `scores` and the conditional `perf.attempts ? ... : 0` of line 482. -/
def accuracyOf (percent : Nat → Nat → Rat) (correct attempts : Nat) : Rat :=
  if attempts = 0 then 0 else percent correct attempts

/-- The statement `INSERT INTO scores (user_id, game_name, score, attempts,
correct) VALUES (?, ?, ?, 1, ?) ON DUPLICATE KEY UPDATE ...` (lines 437-446). -/
def upsertScores (st : Store) (u : Nat) (game : String) (points : Int) (isCorrect : Nat)
    (now : Nat) : Store :=
  if st.scores.any (fun r => r.user_id == u && r.game_name == game) then
    { st with scores := st.scores.map (fun r =>
        if r.user_id == u && r.game_name == game then
          { r with score := r.score + points, attempts := r.attempts + 1,
                   correct := r.correct + isCorrect, last_update := now }
        else r) }
  else
    { st with scores := st.scores ++
        [{ user_id := u, game_name := game, score := points, attempts := 1,
           correct := isCorrect, accuracy := 0, last_update := now }] }

/-- The statement `UPDATE scores SET accuracy = CASE ... END WHERE user_id = ?
AND game_name = ?` (lines 448-453). -/
def setScoresAccuracy (st : Store) (percent : Nat → Nat → Rat) (u : Nat) (game : String) :
    Store :=
  { st with scores := st.scores.map (fun r =>
      if r.user_id == u && r.game_name == game then
        { r with accuracy := accuracyOf percent r.correct r.attempts }
      else r) }

/-- The statement `INSERT INTO performance (user_id, score, attempts, correct)
VALUES (?, ?, 1, ?) ON DUPLICATE KEY UPDATE ...` (lines 466-475). -/
def upsertPerformance (st : Store) (u : Nat) (points : Int) (isCorrect : Nat) (now : Nat) :
    Store :=
  if st.performance.any (fun r => r.user_id == u) then
    { st with performance := st.performance.map (fun r =>
        if r.user_id == u then
          { r with score := r.score + points, attempts := r.attempts + 1,
                   correct := r.correct + isCorrect, last_update := now }
        else r) }
  else
    { st with performance := st.performance ++
        [{ user_id := u, score := points, attempts := 1, correct := isCorrect, accuracy := 0,
           last_update := now }] }

/-- The statement `UPDATE performance SET accuracy = ? WHERE user_id = ?`
(lines 484-487). -/
def setPerformanceAccuracy (st : Store) (u : Nat) (accuracy : Rat) : Store :=
  { st with performance := st.performance.map (fun r =>
      if r.user_id == u then { r with accuracy := accuracy } else r) }

/-- Statement `i` of the transaction: `none` when the store rejects it and the
`await` throws. -/
def txStatement (env : RestEnv) (i : Nat) : Option Unit :=
  if env.failAt = some i then none else some ()

/-- The value `isCorrect` of line 426, as a truth value: the selected value is
strictly equal to the stored `correct` text. -/
def restIsCorrect (req : SubmitRequest) (q : Question) : Bool :=
  req.selected == JsVal.str q.correct

/-- The value `points` of line 427. -/
def restPoints (req : SubmitRequest) (q : Question) : Nat :=
  if restIsCorrect req q then 10 else 0

/-- The value `isCorrect` of line 426, as the number `1` or `0` bound to the
`correct` column. -/
def restHit (req : SubmitRequest) (q : Question) : Nat :=
  if restIsCorrect req q then 1 else 0

/-- The row written by `INSERT INTO answers` (lines 429-434). -/
def restAnswerRow (req : SubmitRequest) (u : Nat) (q : Question) : AnswerRow :=
  { user_id := u
    game_name := if jsTruthy req.game_name then some (jsString req.game_name) else none
    question_id := req.question_id
    selected_answer := req.selected
    correct_answer := q.correct
    is_correct := restIsCorrect req q }

/-- The `try` block of the endpoint (lines 411-500) for the resolved user `u`,
run on a working copy of the store: `none` when a statement throws, otherwise
the store to commit and the response. The early `return` for a missing
question rolls back, so it hands back the store as it was. -/
def restTransaction (st : Store) (env : RestEnv) (req : SubmitRequest) (u : Nat) :
    Option RestResult := do
  txStatement env 0
  txStatement env 1
  match st.questions.find? (fun q => sqlIntEq q.id req.question_id) with
  | none => pure { store := st, response := .questionNotFound }
  | some q =>
    let isCorrect : Bool := restIsCorrect req q
    let points : Nat := restPoints req q
    txStatement env 2
    let w1 : Store := { st with answers := st.answers ++ [restAnswerRow req u q] }
    let w2 ←
      if jsTruthy req.game_name then do
        txStatement env 3
        let a := upsertScores w1 u (jsString req.game_name) points (restHit req q) env.now
        txStatement env 4
        let b := setScoresAccuracy a env.arith.sqlPercent u (jsString req.game_name)
        txStatement env 5
        pure b
      else pure w1
    txStatement env 6
    let w3 := upsertPerformance w2 u points (restHit req q) env.now
    txStatement env 7
    match w3.performance.find? (fun r => r.user_id == u) with
    | none => none
    | some perf =>
      let accuracy := accuracyOf env.arith.jsPercent perf.correct perf.attempts
      txStatement env 8
      let w4 := setPerformanceAccuracy w3 u (env.arith.toColumn accuracy)
      txStatement env 9
      pure { store := w4
             response := .ok isCorrect points perf.score perf.attempts perf.correct accuracy }

/-- The endpoint `POST /submit-answer`: the field check (400), the user
resolution (404), then the transaction; an exception inside it is caught,
rolled back and answered with 500. -/
def restSubmitAnswer (st : Store) (env : RestEnv) (req : SubmitRequest) : RestResult :=
  if !jsTruthy req.user_id || !jsTruthy req.question_id || req.selected == JsVal.undefined then
    { store := st, response := .badRequest }
  else
    match resolveUserId st.users req.user_id with
    | none => { store := st, response := .userNotFound }
    | some u =>
      if u = 0 then { store := st, response := .userNotFound }
      else
        match restTransaction st env req u with
        | none => { store := st, response := .serverError }
        | some r => r

/-- The user's row of the `performance` table, as `SELECT ... WHERE user_id = ?`
returns it first. -/
def perfRowOf (st : Store) (u : Nat) : Option PerfRow :=
  st.performance.find? (fun r => r.user_id == u)

/-- The user's row of the `scores` table for a game. -/
def scoreRowOf (st : Store) (u : Nat) (game : String) : Option ScoreRow :=
  st.scores.find? (fun r => r.user_id == u && r.game_name == game)

/-- The stored global totals `(score, attempts, correct)` of a user, zero
without a row. -/
def perfTotals (st : Store) (u : Nat) : Int × Nat × Nat :=
  match perfRowOf st u with
  | some r => (r.score, r.attempts, r.correct)
  | none => (0, 0, 0)

/-- The stored per-game totals `(score, attempts, correct)` of a user, zero
without a row. -/
def scoreTotals (st : Store) (u : Nat) (game : String) : Int × Nat × Nat :=
  match scoreRowOf st u game with
  | some r => (r.score, r.attempts, r.correct)
  | none => (0, 0, 0)

/-- The working copy of the store after the `scores` statements of a request
whose statements all succeed. -/
def restScoresStage (st : Store) (env : RestEnv) (req : SubmitRequest) (u : Nat)
    (q : Question) : Store :=
  if jsTruthy req.game_name then
    setScoresAccuracy
      (upsertScores { st with answers := st.answers ++ [restAnswerRow req u q] } u
        (jsString req.game_name) (restPoints req q) (restHit req q) env.now)
      env.arith.sqlPercent u (jsString req.game_name)
  else { st with answers := st.answers ++ [restAnswerRow req u q] }

/-- The working copy after the `performance` upsert of such a request. -/
def restPerformanceStage (st : Store) (env : RestEnv) (req : SubmitRequest) (u : Nat)
    (q : Question) : Store :=
  upsertPerformance (restScoresStage st env req u q) u (restPoints req q) (restHit req q)
    env.now

/-- Whether a response is the success body. -/
def RestResponse.isOk : RestResponse → Bool
  | .ok _ _ _ _ _ _ => true
  | _ => false

/-- The `performance` row expected after a counted answer: the old totals plus
`(points, 1, hit)` with the stored accuracy of the new totals, or a fresh
row. -/
def bumpedPerf (arith : Arith) (old : Option PerfRow) (u : Nat) (points : Int)
    (hit now : Nat) : PerfRow :=
  match old with
  | some r =>
    { r with score := r.score + points, attempts := r.attempts + 1, correct := r.correct + hit,
             accuracy := arith.toColumn (arith.jsPercent (r.correct + hit) (r.attempts + 1)),
             last_update := now }
  | none =>
    { user_id := u, score := points, attempts := 1, correct := hit,
      accuracy := arith.toColumn (arith.jsPercent hit 1), last_update := now }

/-- The `scores` row expected after a counted answer. -/
def bumpedScore (arith : Arith) (old : Option ScoreRow) (u : Nat) (game : String)
    (points : Int) (hit now : Nat) : ScoreRow :=
  match old with
  | some r =>
    { r with score := r.score + points, attempts := r.attempts + 1, correct := r.correct + hit,
             accuracy := arith.sqlPercent (r.correct + hit) (r.attempts + 1),
             last_update := now }
  | none =>
    { user_id := u, game_name := game, score := points, attempts := 1, correct := hit,
      accuracy := arith.sqlPercent hit 1, last_update := now }

/-! ## Game codes (lines 181-194 and 709-717) -/

/-- Upper case of a letter `a`-`z`; any other character is kept. -/
def asciiUpper (c : Char) : Char :=
  if 97 ≤ c.toNat ∧ c.toNat ≤ 122 then Char.ofNat (c.toNat - 32) else c

/-- The method `toUpperCase()` where only the letters `a`-`z` matter: on the
base-36 digits of `genCandidateCode`, and in `mapCorrectValue`, where the
result is compared with the letters `A`-`D`, which no character outside
`a`-`d` and `A`-`D` has as upper case. The lookup of a game by its code does
not use it (see `CaseRules`). -/
def jsToUpperCase (s : String) : String :=
  String.mk (s.data.map asciiUpper)

/-- The method `trim()`. -/
def jsTrim (s : String) : String :=
  String.mk (jsTrimChars s.data)

/-- The method `slice(start, stop)` for `0 ≤ start ≤ stop`. -/
def jsSlice (s : String) (start stop : Nat) : String :=
  String.mk ((s.data.drop start).take (stop - start))

/-- The method `slice(-n)`: the last `n` characters, or the whole string when
it is shorter. -/
def jsSliceLast (s : String) (n : Nat) : String :=
  String.mk (s.data.drop (s.data.length - n))

/-- The digit `0`-`9`, `a`-`z` of a value below 36. -/
def base36Digit (d : Nat) : Char :=
  if d < 10 then Char.ofNat (48 + d) else Char.ofNat (87 + d)

/-- The digits of the base-36 expansion of `num / den`, for `num < den`, until
it terminates. -/
def base36Fraction (num den : Nat) : Nat → List Char
  | 0 => []
  | fuel + 1 =>
    if num = 0 then []
    else base36Digit (num * 36 / den) :: base36Fraction (num * 36 % den) den fuel

/-- The text `x.toString(36)` of a number `x = num / den` in `[0, 1)` whose
base-36 expansion terminates within the digits an engine prints: `0` for zero,
otherwise `0.` and the digits of the expansion. -/
def exactBase36 (num den : Nat) : String :=
  if num = 0 then "0" else String.mk ('0' :: '.' :: base36Fraction num den 12)

/-- The function `genCandidateCode` (lines 181-183), given the text of
`Math.random().toString(36)`. -/
def genCandidateCode (randomText : String) : String :=
  jsToUpperCase (jsSlice randomText 2 8)

/-- The query `SELECT 1 FROM game_sessions WHERE game_code = ? LIMIT 1` returns
a row (codes are compared as they are stored). -/
def codeExists (sessions : List GameSession) (code : String) : Bool :=
  sessions.any (fun g => g.game_code == some code)

/-- The code returned by `generateUniqueGameCode` and the number of uniqueness
queries it ran. -/
structure CodeResult where
  code : String
  queries : Nat
  deriving DecidableEq, Repr

/-- The fallback of line 193: `"WW" + Date.now().toString().slice(-4)`. -/
def fallbackCode (now : Nat) : String :=
  "WW" ++ jsSliceLast (toString now) 4

/-- The loop `while (tries < 20)` of `generateUniqueGameCode` with `remaining =
20 - tries` rounds to go; `random i` is the text of the `(i+1)`-th
`Math.random().toString(36)`. -/
def generateLoop (sessions : List GameSession) (random : Nat → String) (now : Nat) :
    Nat → Nat → CodeResult
  | 0, tries => { code := fallbackCode now, queries := tries }
  | remaining + 1, tries =>
    if codeExists sessions (genCandidateCode (random tries)) then
      generateLoop sessions random now remaining (tries + 1)
    else { code := genCandidateCode (random tries), queries := tries + 1 }

/-- The function `generateUniqueGameCode` (lines 184-194) on the table as the
connection sees it, at time `now`. -/
def generateUniqueGameCode (sessions : List GameSession) (random : Nat → String)
    (now : Nat) : CodeResult :=
  generateLoop sessions random now 20 0

/-- The row returned by `resolveGameByCode`, `none` for `null`, and the number
of queries it ran. -/
structure GameLookup where
  row : Option GameSession
  queries : Nat
  deriving DecidableEq, Repr

/-- The case conversions the lookup of a game code relies on, which are not
part of the source: `upper c` is the upper-case form of the character `c` under
`toUpperCase()` (one to three characters), `sqlUpper s` is the value of
`UPPER(s)` and `sqlEq a b` the outcome of `a = b` in the character set and
collation of `game_sessions.game_code`. -/
structure CaseRules where
  upper : Char → List Char
  sqlUpper : String → String
  sqlEq : String → String → Bool

/-- The method `toUpperCase()` under the given rules: every character is
replaced by its upper-case form. -/
def toUpperCaseBy (rules : CaseRules) (s : String) : String :=
  String.mk (s.data.flatMap rules.upper)

/-- The function `resolveGameByCode` (lines 709-717): the code is turned into
a string (`""` when falsy), trimmed and upper-cased; an empty result is `null`
at once, otherwise the first session whose `UPPER(game_code)` equals it in the
store. -/
def resolveGameByCode (rules : CaseRules) (sessions : List GameSession) (code : JsVal) :
    GameLookup :=
  let upper := toUpperCaseBy rules (jsTrim (if jsTruthy code then jsString code else ""))
  if upper = "" then { row := none, queries := 0 }
  else
    { row := sessions.find? (fun g =>
        match g.game_code with
        | some c => rules.sqlEq (rules.sqlUpper c) upper
        | none => false)
      queries := 1 }

/-- Two codes differ only in letter case or in leading and trailing white
space: with the surrounding white space removed they have the same length and
agree character by character up to case, that is, the characters at each
position have the same upper-case form. -/
def SameCodeUpToCase (rules : CaseRules) (c1 c2 : String) : Prop :=
  List.Forall₂ (fun c d => rules.upper c = rules.upper d) (jsTrimChars c1.data)
    (jsTrimChars c2.data)

/-- Sample case rules: the letters `a`-`z` and `é` have the upper case `A`-`Z`
and `É`, `ß` has the upper case `SS` in the engine and none in the store,
every other character is its own upper case, and the store compares texts
exactly. -/
def sampleCaseRules : CaseRules :=
  { upper := fun c => if c = 'é' then ['É'] else if c = 'ß' then ['S', 'S'] else [asciiUpper c]
    sqlUpper := fun s => String.mk (s.data.map (fun c => if c = 'é' then 'É' else asciiUpper c))
    sqlEq := fun a b => a == b }

/-! ## The catalog: `loadQuestions` (lines 43-52) and `POST /questions` (lines 361-388) -/

/-- The rows of `SELECT * FROM questions ORDER BY id`. -/
def selectQuestions (st : Store) : List Question :=
  st.questions.insertionSort (fun a b => a.id ≤ b.id)

/-- The function `loadQuestions`: the catalog becomes the rows of the table in
`id` order, or the empty array when the query throws (the `catch` block). -/
def loadQuestions (s : Session) (st : Store) (queryFails : Bool) : Session :=
  { s with questions := if queryFails then [] else selectQuestions st }

/-- The `AUTO_INCREMENT` value the table gives the next inserted row: one above
the largest `id` in it (the server never deletes a question). -/
def nextQuestionId (qs : List Question) : Nat :=
  (qs.map (fun q => q.id)).foldr max 0 + 1

/-- The text a string column holds for a truthy parameter of the `INSERT`: a
string as it is, a number in decimal, `true` as `1`. -/
def sqlText : JsVal → String
  | .str s => s
  | .num n => toString n
  | .bool b => if b then "1" else "0"
  | .null => ""
  | .undefined => ""

/-- The fields the handler reads from `req.body`; an absent field is
`undefined`. -/
structure QuestionBody where
  text : JsVal
  option_a : JsVal
  option_b : JsVal
  option_c : JsVal
  option_d : JsVal
  correct : JsVal
  difficulty : JsVal
  deriving DecidableEq, Repr

/-- The response of `POST /questions`: `200` with the new id, `400` with an
error text, or `500`. -/
inductive QuestionReply where
  | added (question_id : Nat)
  | badRequest (error : String)
  | serverError
  deriving DecidableEq, Repr

/-- What the store does during one `POST /questions`: whether the `INSERT` is
rejected and whether the query of the following `loadQuestions` is. -/
structure QuestionEnv where
  insertFails : Bool
  loadFails : Bool
  deriving DecidableEq, Repr

/-- What one `POST /questions` leaves behind. -/
structure PostResult where
  sess : Session
  store : Store
  reply : QuestionReply
  deriving DecidableEq, Repr

/-- The row written by the `INSERT` of lines 377-381, with
`difficulty || "Medium"` as last parameter. -/
def questionRowOf (id : Nat) (b : QuestionBody) : Question :=
  { id := id
    text := sqlText b.text
    option_a := sqlText b.option_a
    option_b := sqlText b.option_b
    option_c := sqlText b.option_c
    option_d := sqlText b.option_d
    correct := sqlText b.correct
    difficulty := some (sqlText (if jsTruthy b.difficulty then b.difficulty else .str "Medium")) }

/-- The handler of `POST /questions` (lines 361-388): the two validations, the
`INSERT`, `loadQuestions`, the response; a rejected `INSERT` ends in the
`catch` block. -/
def postQuestions (s : Session) (st : Store) (env : QuestionEnv) (b : QuestionBody) :
    PostResult :=
  if !jsTruthy b.text || !jsTruthy b.option_a || !jsTruthy b.option_b ||
      !jsTruthy b.option_c || !jsTruthy b.option_d || !jsTruthy b.correct then
    { sess := s, store := st,
      reply := .badRequest "text and all options and correct required" }
  else if !([b.option_a, b.option_b, b.option_c, b.option_d].contains b.correct) then
    { sess := s, store := st,
      reply := .badRequest "correct answer must match one of the options" }
  else if env.insertFails then
    { sess := s, store := st, reply := .serverError }
  else
    let st2 : Store :=
      { st with questions := st.questions ++ [questionRowOf (nextQuestionId st.questions) b] }
    { sess := loadQuestions s st2 env.loadFails, store := st2,
      reply := .added (nextQuestionId st.questions) }

/-! ## Bulk import: `handleCsvUploadBuffer` (lines 749-840) -/

/-- A row as `csv-parser` hands it over: the header and the cell text of each
column, in column order. -/
abbrev CsvRow := List (String × String)

/-- Lower case of a letter `A`-`Z` and of the Kelvin sign, the only characters
whose lower case is an ASCII letter; any other character is kept. -/
def asciiLower (c : Char) : Char :=
  if 65 ≤ c.toNat ∧ c.toNat ≤ 90 then Char.ofNat (c.toNat + 32)
  else if c.toNat = 8490 then 'k'
  else c

/-- The function `normalizeHeader`: trimmed, lower-cased, with every white
space character and every `_` and `-` removed. -/
def normalizeHeader (h : String) : String :=
  String.mk ((((jsTrimChars h.data).map asciiLower).filter (fun c => !jsIsWhiteSpace c)).filter
    (fun c => c != '_' && c != '-'))

/-- The function `normalizeRowKeys`: every key replaced by its normal form. -/
def normalizeRowKeys (row : CsvRow) : CsvRow :=
  row.map (fun p => (normalizeHeader p.1, p.2))

/-- The property `r.key` of a normalised row: the value assigned last under
that key, `none` for `undefined`. -/
def rowField (r : CsvRow) (key : String) : Option String :=
  (r.reverse.find? (fun p => p.1 == key)).map (fun p => p.2)

/-- The chain `x1 || x2 || ... || last` over properties of a row: the first
non-empty string among them, else `last`. -/
def jsOrChain (last : String) : List (Option String) → String
  | [] => last
  | none :: rest => jsOrChain last rest
  | some v :: rest => if v = "" then jsOrChain last rest else v

/-- The constant `raw` of `mapCorrectValue` (line 764):
`(normalizedRow.correct || normalizedRow.answer || normalizedRow.key || "")`,
trimmed. -/
def correctRaw (normalizedRow : CsvRow) : String :=
  jsTrim (jsOrChain "" [rowField normalizedRow "correct", rowField normalizedRow "answer",
    rowField normalizedRow "key"])

/-- The function `mapCorrectValue` (lines 763-769); `optionsObj[letter] || ""`
is the option text itself, a string. -/
def mapCorrectValue (normalizedRow : CsvRow) (optionsObj : Options) : String :=
  let raw := correctRaw normalizedRow
  if raw = "" then ""
  else
    let letter := jsToUpperCase raw
    if letter = "A" then optionsObj.A
    else if letter = "B" then optionsObj.B
    else if letter = "C" then optionsObj.C
    else if letter = "D" then optionsObj.D
    else raw

/-- The first non-empty of three texts, the empty text when all three are
empty: the reading of `correct`, `answer`, `key` in the description of
`mapCorrectValue`, an absent field counting as empty. -/
def firstNonEmpty (a b c : String) : String :=
  if a ≠ "" then a else if b ≠ "" then b else c

/-- The constants one iteration of the import loop computes from a row (lines
790-802). -/
structure ParsedRow where
  text : String
  option_a : String
  option_b : String
  option_c : String
  option_d : String
  correct : String
  difficulty : String
  deriving DecidableEq, Repr

/-- Lines 790-802 of the loop body: the normalised row, the aliases of each
field, the mapped correct value and the difficulty. -/
def parseRow (raw : CsvRow) : ParsedRow :=
  let r := normalizeRowKeys raw
  let text := jsOrChain "" [rowField r "question", rowField r "text", rowField r "prompt",
    rowField r "q", rowField r "ques"]
  let option_a := jsOrChain "" [rowField r "optiona", rowField r "option_a", rowField r "a",
    rowField r "answera", rowField r "choicea", rowField r "choicesa", rowField r "opa"]
  let option_b := jsOrChain "" [rowField r "optionb", rowField r "option_b", rowField r "b",
    rowField r "answerb", rowField r "choiceb", rowField r "choicesb", rowField r "opb"]
  let option_c := jsOrChain "" [rowField r "optionc", rowField r "option_c", rowField r "c",
    rowField r "answerc", rowField r "choicec", rowField r "choicesc", rowField r "opc"]
  let option_d := jsOrChain "" [rowField r "optiond", rowField r "option_d", rowField r "d",
    rowField r "answerd", rowField r "choiced", rowField r "choicesd", rowField r "opd"]
  { text := text
    option_a := option_a
    option_b := option_b
    option_c := option_c
    option_d := option_d
    correct := mapCorrectValue r { A := option_a, B := option_b, C := option_c, D := option_d }
    difficulty := jsOrChain "Medium" [rowField r "difficulty", rowField r "level"] }

/-- The three checks of lines 804-812: the reason a row is skipped for, `none`
when it goes on to the `INSERT`. -/
def skipReason (p : ParsedRow) : Option String :=
  if p.text = "" || p.option_a = "" || p.option_b = "" || p.option_c = "" ||
      p.option_d = "" then
    some "Missing question/options"
  else if p.correct = "" then some "Missing correct answer"
  else if !([p.option_a, p.option_b, p.option_c, p.option_d].contains p.correct) then
    some "Correct answer must match one of the options"
  else none

/-- An entry of the `errors` array. -/
structure RowError where
  row : Nat
  error : String
  raw : CsvRow
  deriving DecidableEq, Repr

/-- The value the import resolves with: `{ ok: false, error }` or
`{ ok: true, parsedRows, inserted, skipped, errors }`. -/
inductive CsvResult where
  | failed (error : String)
  | imported (parsedRows inserted skipped : Nat) (errors : List RowError)
  deriving DecidableEq, Repr

/-- What the store does during one import: the 0-based index of the row whose
`INSERT` it rejects (if that row gets as far), the message of the error thrown,
whether `commit` is rejected, and whether the query of `loadQuestions` is. -/
structure CsvEnv where
  failAt : Option Nat
  errMessage : String
  commitFails : Bool
  loadFails : Bool
  deriving DecidableEq, Repr

/-- The loop variables: the table as the transaction sees it, the counters and
the `errors` array. -/
structure ImportState where
  table : List Question
  inserted : Nat
  skipped : Nat
  errors : List RowError
  deriving DecidableEq, Repr

/-- The row written by the `INSERT` of lines 816-820. -/
def questionOfParsed (id : Nat) (p : ParsedRow) : Question :=
  { id := id, text := p.text, option_a := p.option_a, option_b := p.option_b,
    option_c := p.option_c, option_d := p.option_d, correct := p.correct,
    difficulty := some p.difficulty }

/-- One iteration of the loop for row `i` (0-based): skip with an error entry,
or insert; `none` when the `INSERT` throws. -/
def importRow (env : CsvEnv) (i : Nat) (raw : CsvRow) (acc : ImportState) :
    Option ImportState :=
  match skipReason (parseRow raw) with
  | some e =>
    some { acc with skipped := acc.skipped + 1,
                    errors := acc.errors ++ [{ row := i + 1, error := e, raw := raw }] }
  | none =>
    if env.failAt = some i then none
    else
      some { acc with
        table := acc.table ++ [questionOfParsed (nextQuestionId acc.table) (parseRow raw)],
        inserted := acc.inserted + 1 }

/-- The loop `for (let i = 0; i < rows.length; i++)` from row `i` on; `none`
when an `INSERT` throws. -/
def importLoop (env : CsvEnv) : Nat → List CsvRow → ImportState → Option ImportState
  | _, [], acc => some acc
  | i, raw :: rest, acc =>
    match importRow env i raw acc with
    | none => none
    | some acc2 => importLoop env (i + 1) rest acc2

/-- What one import leaves behind. -/
structure ImportResult where
  sess : Session
  store : Store
  result : CsvResult
  deriving DecidableEq, Repr

/-- The function `handleCsvUploadBuffer` (lines 771-840) on the rows parsed
from the buffer: an empty file is refused; otherwise the loop runs inside a
transaction, which is committed and followed by `loadQuestions`, or rolled back
when an `INSERT` or the `commit` throws. -/
def handleCsvUploadBuffer (s : Session) (st : Store) (env : CsvEnv) (rows : List CsvRow) :
    ImportResult :=
  if rows.length = 0 then
    { sess := s, store := st, result := .failed "CSV contains no rows" }
  else
    match importLoop env 0 rows
        { table := st.questions, inserted := 0, skipped := 0, errors := [] } with
    | none =>
      { sess := s, store := st,
        result := .failed (if env.errMessage = "" then "Insert failed" else env.errMessage) }
    | some acc =>
      if env.commitFails then
        { sess := s, store := st,
          result := .failed (if env.errMessage = "" then "Insert failed" else env.errMessage) }
      else
        { sess := loadQuestions s { st with questions := acc.table } env.loadFails
          store := { st with questions := acc.table }
          result := .imported rows.length acc.inserted acc.skipped acc.errors }

/-- A valid row, in the words of the import contract: question and four
options non-empty, mapped correct value non-empty and equal to one of the
options. -/
def RowValid (p : ParsedRow) : Prop :=
  p.text ≠ "" ∧ p.option_a ≠ "" ∧ p.option_b ≠ "" ∧ p.option_c ≠ "" ∧ p.option_d ≠ "" ∧
    p.correct ≠ "" ∧
    (p.correct = p.option_a ∨ p.correct = p.option_b ∨ p.correct = p.option_c ∨
      p.correct = p.option_d)

instance (p : ParsedRow) : Decidable (RowValid p) := by
  unfold RowValid
  exact inferInstance

/-- The valid rows of a file, in input order, as the loop reads them. -/
def validRows (rows : List CsvRow) : List ParsedRow :=
  (rows.map parseRow).filter (fun p => decide (RowValid p))

/-- The error entries expected for a file: one for each row that is skipped,
with the 1-based number of the row, the reason and the row. -/
def expectedErrors (rows : List CsvRow) : List RowError :=
  (rows.enumFrom 1).filterMap (fun x =>
    (skipReason (parseRow x.2)).map (fun e => { row := x.1, error := e, raw := x.2 }))

/-- The table after inserting the given rows one after the other, each under
the next free id. -/
def insertAll (table : List Question) : List ParsedRow → List Question
  | [] => table
  | p :: ps => insertAll (table ++ [questionOfParsed (nextQuestionId table) p]) ps

/-- The imported columns of a stored question. -/
def rowContent (q : Question) : ParsedRow :=
  { text := q.text, option_a := q.option_a, option_b := q.option_b, option_c := q.option_c,
    option_d := q.option_d, correct := q.correct, difficulty := q.difficulty.getD "" }

/-- The table holds its rows in ascending `id` order. -/
def SortedById (qs : List Question) : Prop :=
  qs.Pairwise (fun a b => a.id ≤ b.id)

instance (qs : List Question) : Decidable (SortedById qs) := by
  unfold SortedById
  exact inferInstance

/-! ## Sequences of submissions -/

/-- Real-time submissions of possibly different answer windows, processed one
after the other on the same store: each entry is the session state its handler
finds, the store environment and the payload. -/
def runScored (st : Store) : List (Session × Env × Submission) → Store
  | [] => st
  | x :: rest => runScored (submitAnswer x.1 st x.2.1 x.2.2).store rest


/-- One processed submission: the session and store the handler found, the
payload and store environment, and what the handler left behind. -/
structure SubmitRecord where
  before : Session
  storeBefore : Store
  sub : Submission
  env : Env
  res : SubmitResult
  deriving DecidableEq, Repr

/-- Submissions processed one after the other, with no timer firing and no
reload in between: each handler runs on the state the previous one left. -/
def runSubmits (s : Session) (st : Store) : List (Submission × Env) → List SubmitRecord
  | [] => []
  | x :: rest =>
    let r := submitAnswer s st x.2 x.1
    { before := s, storeBefore := st, sub := x.1, env := x.2, res := r } ::
      runSubmits r.sess r.store rest

/-- The submission was accepted as user `u`: the handler executed
`answeredUsers.add(resolved)` with `resolved = u`. -/
def SubmitRecord.acceptedAs (r : SubmitRecord) (u : Nat) : Prop :=
  r.res.sess.answeredUsers = r.before.answeredUsers ++ [u]

instance (r : SubmitRecord) (u : Nat) : Decidable (r.acceptedAs u) := by
  unfold SubmitRecord.acceptedAs
  exact inferInstance

/-- The submission carries an identity and `resolveUserId` maps it to `u`. -/
def SubmitRecord.resolvesTo (r : SubmitRecord) (u : Nat) : Prop :=
  jsTruthy r.sub.user_id = true ∧ resolveUserId r.storeBefore.users r.sub.user_id = some u

instance (r : SubmitRecord) (u : Nat) : Decidable (r.resolvesTo u) := by
  unfold SubmitRecord.resolvesTo
  exact inferInstance

/-- The submitted answer is strictly equal to the `correct` text of the
question under the cursor. -/
def SubmitRecord.correctAnswer (r : SubmitRecord) : Prop :=
  (questionAt r.before.questions r.before.currentIndex).map (fun q => JsVal.str q.correct) =
    some r.sub.answer

instance (r : SubmitRecord) : Decidable r.correctAnswer := by
  unfold SubmitRecord.correctAnswer
  exact inferInstance

/-- The submission was accepted (as some user) with a correct answer. -/
def SubmitRecord.acceptedCorrect (r : SubmitRecord) : Prop :=
  r.res.sess.answeredUsers.length = r.before.answeredUsers.length + 1 ∧ r.correctAnswer

instance (r : SubmitRecord) : Decidable r.acceptedCorrect := by
  unfold SubmitRecord.acceptedCorrect
  exact inferInstance

/-- The submitter was sent the first-correct result with the bonus. -/
def SubmitRecord.bonusAwarded (r : SubmitRecord) : Prop :=
  Emit.answerResult (firstCorrectMsg 15) ∈ r.res.emits

instance (r : SubmitRecord) : Decidable r.bonusAwarded := by
  unfold SubmitRecord.bonusAwarded
  exact inferInstance

/-- The user as whom a submission passes the four checks (window open on a
question, identity present, identity resolved, user not yet recorded), if it
passes them. -/
def acceptedUser (s : Session) (users : List User) (sub : Submission) : Option Nat :=
  if s.acceptingAnswers = true ∧ (questionAt s.questions s.currentIndex).isSome = true ∧
      jsTruthy sub.user_id = true then
    match resolveUserId users sub.user_id with
    | some u => if u ≠ 0 ∧ u ∉ s.answeredUsers then some u else none
    | none => none
  else none

/-! ## Reachable states and the two-question scenario -/

/-- The sequencer invariant of the reachable states: the cursor never drops
below `-1`; while the start-up timer is pending no window is open and
`gameOver` has not been sent; with no timer pending no window is open; and
once `gameOver` has been sent no timer is pending. -/
def SeqInv (sys : Sys) : Prop :=
  -1 ≤ sys.sess.currentIndex ∧
  (sys.timer = .startup → sys.sess.acceptingAnswers = false ∧
    Emit.gameOver gameOverMessage ∉ sys.out) ∧
  (sys.timer = .off → sys.sess.acceptingAnswers = false) ∧
  (Emit.gameOver gameOverMessage ∈ sys.out → sys.timer = .off)

/-- The scenario "question 1 opens, A answers correctly, B answers correctly":
the server after the first advance on a two-question catalog. -/
def scenarioOpened (q1 q2 : Question) (st : Store) : Sys :=
  runEvents (initSys [q1, q2] st) [.timer]

/-- The scenario: the result of A's correct submission to question 1. -/
def scenarioFirst (q1 q2 : Question) (st : Store) (a : JsVal) (env1 : Env) : SubmitResult :=
  submitAnswer (scenarioOpened q1 q2 st).sess (scenarioOpened q1 q2 st).store env1
    { user_id := a, answer := .str q1.correct }

/-- The scenario: the result of B's correct submission to question 1, after
A's. -/
def scenarioSecond (q1 q2 : Question) (st : Store) (a b : JsVal) (env1 env2 : Env) :
    SubmitResult :=
  submitAnswer (scenarioFirst q1 q2 st a env1).sess (scenarioFirst q1 q2 st a env1).store env2
    { user_id := b, answer := .str q1.correct }

/-- The scenario: the server after both submissions, the window-close timer and
the advance to question 2. -/
def scenarioAdvanced (q1 q2 : Question) (st : Store) (a b : JsVal) (env1 env2 : Env) : Sys :=
  runEvents (initSys [q1, q2] st)
    [.timer, .submit { user_id := a, answer := .str q1.correct } env1,
     .submit { user_id := b, answer := .str q1.correct } env2, .timer]

/-! ## Sample data -/

/-- A first sample question. -/
def sampleQ1 : Question :=
  { id := 11, text := "2 + 2 = ?", option_a := "3", option_b := "4", option_c := "5",
    option_d := "22", correct := "4", difficulty := some "Easy" }

/-- A second sample question. -/
def sampleQ2 : Question :=
  { id := 12, text := "Capital of France?", option_a := "Paris", option_b := "Rome",
    option_c := "Oslo", option_d := "Bern", correct := "Paris", difficulty := none }

/-- Two users: number 1 with external id `alice`, number 2 with `bob`. -/
def sampleUsers : List User :=
  [{ user_id := 1, uid := some "alice", display_name := some "Alice", username := none,
     email := none },
   { user_id := 2, uid := some "bob", display_name := none, username := some "bob",
     email := none }]

/-- A store in which user 1 already has a score of 40. -/
def sampleStore : Store :=
  { users := sampleUsers
    performance := [{ user_id := 1, score := 40, attempts := 4, correct := 4,
                      accuracy := 100, last_update := 7 }] }

/-- A session in the window of the first sample question, with two recorded
answers and the bonus taken. -/
def sampleSession : Session :=
  { questions := [sampleQ1, sampleQ2], currentIndex := 0, acceptingAnswers := true,
    firstAnswered := true, answeredUsers := [1, 2] }

/-- The step `acceptingAnswers = true` of `nextQuestion` run on the sample
session. -/
def sampleOpenStep : TraceStep :=
  { stmt := .openWindow
    after := { questions := [sampleQ1, sampleQ2], currentIndex := 1, acceptingAnswers := true,
               firstAnswered := false, answeredUsers := [] } }

/-- The session before the first advance, with the two sample questions
loaded. -/
def sampleIdleSession : Session :=
  { questions := [sampleQ1, sampleQ2], currentIndex := -1, acceptingAnswers := false,
    firstAnswered := false, answeredUsers := [] }

/-- The session right after the first advance: the window of the first sample
question is open and nobody has answered. -/
def sampleFreshSession : Session :=
  { questions := [sampleQ1, sampleQ2], currentIndex := 0, acceptingAnswers := true,
    firstAnswered := false, answeredUsers := [] }

/-- A store environment in which every statement succeeds at time 9. -/
def sampleEnv : Env := { now := 9, insertFails := false, leaderboardFails := false }

/-- User 1 answers the first sample question by numeric id. -/
def sampleRecA : SubmitRecord :=
  { before := sampleFreshSession, storeBefore := sampleStore
    sub := { user_id := .num 1, answer := .str "4" }, env := sampleEnv
    res := submitAnswer sampleFreshSession sampleStore sampleEnv
      { user_id := .num 1, answer := .str "4" } }

/-- User 2 answers next, by external id. -/
def sampleRecB : SubmitRecord :=
  { before := sampleRecA.res.sess, storeBefore := sampleRecA.res.store
    sub := { user_id := .str "bob", answer := .str "4" }, env := sampleEnv
    res := submitAnswer sampleRecA.res.sess sampleRecA.res.store sampleEnv
      { user_id := .str "bob", answer := .str "4" } }

/-- User 1 answers again, this time by external id. -/
def sampleRecA2 : SubmitRecord :=
  { before := sampleRecB.res.sess, storeBefore := sampleRecB.res.store
    sub := { user_id := .str "alice", answer := .str "4" }, env := sampleEnv
    res := submitAnswer sampleRecB.res.sess sampleRecB.res.store sampleEnv
      { user_id := .str "alice", answer := .str "4" } }

/-- The three payloads of the sample run. -/
def sampleSubs : List (Submission × Env) :=
  [({ user_id := .num 1, answer := .str "4" }, sampleEnv),
   ({ user_id := .str "bob", answer := .str "4" }, sampleEnv),
   ({ user_id := .str "alice", answer := .str "4" }, sampleEnv)]

/-- The sample store with the two sample questions in the `questions` table. -/
def sampleRestStore : Store :=
  { users := sampleUsers
    performance := [{ user_id := 1, score := 40, attempts := 4, correct := 4,
                      accuracy := 100, last_update := 7 }]
    questions := [sampleQ1, sampleQ2] }

/-- A store environment for a REST request in which every statement succeeds. -/
def sampleRestEnv : RestEnv := { now := 9, failAt := none }

/-- User 2 answers the first sample question correctly over REST, for the game
`quiz`. -/
def sampleRequest : SubmitRequest :=
  { user_id := .num 2, question_id := .num 11, selected := .str "4", game_name := .str "quiz" }

/-- User 2 answers the first sample question correctly over the socket. -/
def sampleCorrectSub : Submission := { user_id := .num 2, answer := .str "4" }

/-- The window of the first sample question with the bonus taken by user 1. -/
def sampleBonusTakenSession : Session :=
  { questions := [sampleQ1, sampleQ2], currentIndex := 0, acceptingAnswers := true,
    firstAnswered := true, answeredUsers := [1] }

/-- Three correct real-time answers of user 2 in three windows: the first takes
the bonus of the first sample question, the others come after user 1. -/
def sampleScored : List (Session × Env × Submission) :=
  [(sampleFreshSession, sampleEnv, sampleCorrectSub),
   (sampleBonusTakenSession, sampleEnv, sampleCorrectSub),
   (sampleBonusTakenSession, sampleEnv, sampleCorrectSub)]

/-- Two sessions: one with the code `ABCDEF`, one with the code `WW6789`. -/
def sampleSessions : List GameSession :=
  [{ game_id := 1, game_name := "Algebra", teacher_user_id := 1, game_code := some "ABCDEF" },
   { game_id := 2, game_name := "History", teacher_user_id := 1, game_code := some "WW6789" }]

/-- A random source whose first text gives the candidate `ABCDEF` and whose
later texts give `ZZZZZZ`. -/
def sampleRandom (i : Nat) : String :=
  if i = 0 then "0.abcdefgh" else "0.zzzzzzzz"

/-- A CSV row under the headers `Question`, `Option A`, `Option_B`,
`option-c`, ` OPTION D ` and `Correct`. -/
def sampleCsvRow (text a b c d correct : String) : CsvRow :=
  [("Question", text), ("Option A", a), ("Option_B", b), ("option-c", c), (" OPTION D ", d),
   ("Correct", correct)]

/-- Five parsed rows; the correct value of the third matches none of its
options. -/
def sampleCsvRows : List CsvRow :=
  [sampleCsvRow "1 + 1 = ?" "1" "2" "3" "4" "B",
   sampleCsvRow "Largest planet?" "Mars" "Venus" "Jupiter" "Saturn" "Jupiter",
   sampleCsvRow "H2O is?" "Water" "Salt" "Gold" "Air" "Ice",
   sampleCsvRow "3 * 3 = ?" "6" "9" "12" "33" " b ",
   sampleCsvRow "Opposite of hot?" "Cold" "Warm" "Dry" "Wet" "a"]

/-- A store environment for an import in which every statement succeeds. -/
def sampleCsvEnv : CsvEnv :=
  { failAt := none, errMessage := "", commitFails := false, loadFails := false }

/-- A store environment in which the `INSERT` of the fourth row is rejected. -/
def sampleCsvFailEnv : CsvEnv :=
  { failAt := some 3, errMessage := "Data too long", commitFails := false, loadFails := false }

/-- A valid body for `POST /questions`, without a difficulty. -/
def sampleBody : QuestionBody :=
  { text := .str "5 - 2 = ?", option_a := .str "1", option_b := .str "2", option_c := .str "3",
    option_d := .str "4", correct := .str "3", difficulty := .undefined }

/-- A store environment for `POST /questions` in which every statement
succeeds. -/
def sampleQuestionEnv : QuestionEnv := { insertFails := false, loadFails := false }

/-- The interleaving "a submission arrives while question 1 is open, the
window-close timer fires while its handler waits for the user lookup, then the
handler resumes": user 1 submits the text `Paris`, the answer of question 2. -/
def lateSubmissionRun : Sys :=
  runEvents (initSys [sampleQ1, sampleQ2] sampleStore)
    [.timer, .arrive { user_id := .num 1, answer := .str "Paris" }, .timer,
     .resume 0 sampleEnv]

/-- The same interleaving on the last question: the catalog holds only the
first sample question, so the timer that fires during the user lookup ends the
game. -/
def lateSubmissionAtEnd : Sys :=
  runEvents (initSys [sampleQ1] sampleStore)
    [.timer, .arrive { user_id := .num 1, answer := .str "4" }, .timer,
     .resume 0 sampleEnv]

/-! ## Properties of the sequencer -/

/-- The trace of `nextQuestion` when the incremented cursor is past the
catalog. -/
theorem nextQuestionTrace_gameOver (s : Session)
    (h : s.currentIndex + 1 ≥ (s.questions.length : Int)) :
    nextQuestionTrace s =
      [⟨.incIndex, { s with currentIndex := s.currentIndex + 1 }⟩,
       ⟨.clearAnswered, { s with currentIndex := s.currentIndex + 1, answeredUsers := [] }⟩,
       ⟨.resetFirst, { s with currentIndex := s.currentIndex + 1, answeredUsers := [],
                              firstAnswered := false }⟩,
       ⟨.emitGameOver, { s with currentIndex := s.currentIndex + 1, answeredUsers := [],
                                firstAnswered := false }⟩] := by
  simp [nextQuestionTrace, h]

/-- The trace of `nextQuestion` when the incremented cursor points at `q`. -/
theorem nextQuestionTrace_live (s : Session) (q : Question)
    (h : s.currentIndex + 1 < (s.questions.length : Int))
    (hq : questionAt s.questions (s.currentIndex + 1) = some q) :
    nextQuestionTrace s =
      [⟨.incIndex, { s with currentIndex := s.currentIndex + 1 }⟩,
       ⟨.clearAnswered, { s with currentIndex := s.currentIndex + 1, answeredUsers := [] }⟩,
       ⟨.resetFirst, { s with currentIndex := s.currentIndex + 1, answeredUsers := [],
                              firstAnswered := false }⟩,
       ⟨.openWindow, { s with currentIndex := s.currentIndex + 1, answeredUsers := [],
                              firstAnswered := false, acceptingAnswers := true }⟩,
       ⟨.emitNewQuestion (newQuestionPayload q),
         { s with currentIndex := s.currentIndex + 1, answeredUsers := [],
                  firstAnswered := false, acceptingAnswers := true }⟩,
       ⟨.scheduleWindowClose,
         { s with currentIndex := s.currentIndex + 1, answeredUsers := [],
                  firstAnswered := false, acceptingAnswers := true }⟩] := by
  have h2 : ¬ (s.currentIndex + 1 ≥ (s.questions.length : Int)) := not_le.mpr h
  simp [nextQuestionTrace, h2, hq]

/-- The trace of `nextQuestion` when the incremented cursor is below the
catalog length but holds no entry (a negative cursor). -/
theorem nextQuestionTrace_throw (s : Session)
    (h : s.currentIndex + 1 < (s.questions.length : Int))
    (hq : questionAt s.questions (s.currentIndex + 1) = none) :
    nextQuestionTrace s =
      [⟨.incIndex, { s with currentIndex := s.currentIndex + 1 }⟩,
       ⟨.clearAnswered, { s with currentIndex := s.currentIndex + 1, answeredUsers := [] }⟩,
       ⟨.resetFirst, { s with currentIndex := s.currentIndex + 1, answeredUsers := [],
                              firstAnswered := false }⟩,
       ⟨.openWindow, { s with currentIndex := s.currentIndex + 1, answeredUsers := [],
                              firstAnswered := false, acceptingAnswers := true }⟩,
       ⟨.throwTypeError,
         { s with currentIndex := s.currentIndex + 1, answeredUsers := [],
                  firstAnswered := false, acceptingAnswers := true }⟩] := by
  have h2 : ¬ (s.currentIndex + 1 ≥ (s.questions.length : Int)) := not_le.mpr h
  simp [nextQuestionTrace, h2, hq]

/-- An index from `0` up to, but not including, the list length holds an
entry. -/
theorem questionAt_isSome (qs : List Question) (i : Int) (h0 : 0 ≤ i)
    (h1 : i < (qs.length : Int)) : ∃ q, questionAt qs i = some q := by
  have hlt : i.toNat < qs.length := by omega
  refine ⟨qs.get ⟨i.toNat, hlt⟩, ?_⟩
  have hneg : ¬ i < 0 := by omega
  simp [questionAt, hneg, List.get?_eq_get hlt]

/-- `nextQuestion` with the cursor moving past the catalog. -/
theorem nextQuestion_gameOver (s : Session)
    (h : s.currentIndex + 1 ≥ (s.questions.length : Int)) :
    nextQuestion s =
      { sess := { s with currentIndex := s.currentIndex + 1, answeredUsers := [],
                         firstAnswered := false }
        emits := [.gameOver gameOverMessage]
        timerScheduled := false
        threw := false } := by
  simp [nextQuestion, nextQuestionTrace_gameOver s h, lastSession, Stmt.emit?]

/-- `nextQuestion` with the cursor moving onto `q`. -/
theorem nextQuestion_live (s : Session) (q : Question)
    (h : s.currentIndex + 1 < (s.questions.length : Int))
    (hq : questionAt s.questions (s.currentIndex + 1) = some q) :
    nextQuestion s =
      { sess := { s with currentIndex := s.currentIndex + 1, answeredUsers := [],
                         firstAnswered := false, acceptingAnswers := true }
        emits := [.newQuestion (newQuestionPayload q)]
        timerScheduled := true
        threw := false } := by
  simp [nextQuestion, nextQuestionTrace_live s q h hq, lastSession, Stmt.emit?]

/-- `nextQuestion` ending in the exception. -/
theorem nextQuestion_throw (s : Session)
    (h : s.currentIndex + 1 < (s.questions.length : Int))
    (hq : questionAt s.questions (s.currentIndex + 1) = none) :
    nextQuestion s =
      { sess := { s with currentIndex := s.currentIndex + 1, answeredUsers := [],
                         firstAnswered := false, acceptingAnswers := true }
        emits := []
        timerScheduled := false
        threw := true } := by
  simp [nextQuestion, nextQuestionTrace_throw s h hq, lastSession, Stmt.emit?]

/-- The three shapes of a call of `nextQuestion`. -/
theorem nextQuestion_cases (s : Session) :
    (s.currentIndex + 1 ≥ (s.questions.length : Int)) ∨
    (s.currentIndex + 1 < (s.questions.length : Int) ∧
      ∃ q, questionAt s.questions (s.currentIndex + 1) = some q) ∨
    (s.currentIndex + 1 < (s.questions.length : Int) ∧
      questionAt s.questions (s.currentIndex + 1) = none) := by
  by_cases h : s.currentIndex + 1 ≥ (s.questions.length : Int)
  · exact Or.inl h
  · have h2 := not_le.mp h
    cases hq : questionAt s.questions (s.currentIndex + 1) with
    | none => exact Or.inr (Or.inr ⟨h2, rfl⟩)
    | some q => exact Or.inr (Or.inl ⟨h2, q, rfl⟩)

/-- C1: for every session state (and catalog held in it), right after
`nextQuestion` returns `answeredUsers` is empty and `firstAnswered` is false;
at the statement `acceptingAnswers = true` the state reached by the statements
before it already has `answeredUsers` empty and `firstAnswered` false; no other
statement of `nextQuestion` changes `acceptingAnswers`; and an advance that
broadcasts a question executes that statement. -/
theorem C1_advance_clears_before_open (s : Session) :
    (nextQuestion s).sess.answeredUsers = [] ∧
    (nextQuestion s).sess.firstAnswered = false ∧
    (∀ i t, (nextQuestionTrace s).get? i = some t → t.stmt = .openWindow →
      (lastSession s ((nextQuestionTrace s).take i)).answeredUsers = [] ∧
      (lastSession s ((nextQuestionTrace s).take i)).firstAnswered = false ∧
      t.after.acceptingAnswers = true ∧
      t.after.answeredUsers = [] ∧ t.after.firstAnswered = false) ∧
    (∀ i t, (nextQuestionTrace s).get? i = some t → t.stmt ≠ .openWindow →
      t.after.acceptingAnswers =
        (lastSession s ((nextQuestionTrace s).take i)).acceptingAnswers) ∧
    (∀ p, Emit.newQuestion p ∈ (nextQuestion s).emits →
      ∃ i t, (nextQuestionTrace s).get? i = some t ∧ t.stmt = .openWindow) := by
  rcases nextQuestion_cases s with h | ⟨h, q, hq⟩ | ⟨h, hq⟩
  · rw [nextQuestion_gameOver s h, nextQuestionTrace_gameOver s h]
    refine ⟨rfl, rfl, ?_, ?_, ?_⟩
    · intro i t hi ht
      rcases i with _ | _ | _ | _ | i <;> simp at hi <;> subst hi <;> simp at ht
    · intro i t hi _
      rcases i with _ | _ | _ | _ | i <;> simp at hi <;> subst hi <;> simp [lastSession]
    · intro p hp
      simp at hp
  · rw [nextQuestion_live s q h hq, nextQuestionTrace_live s q h hq]
    refine ⟨rfl, rfl, ?_, ?_, ?_⟩
    · intro i t hi ht
      rcases i with _ | _ | _ | _ | _ | _ | i <;> simp at hi <;> subst hi <;>
        simp [lastSession] at ht ⊢
    · intro i t hi ht
      rcases i with _ | _ | _ | _ | _ | _ | i <;> simp at hi <;> subst hi <;>
        simp [lastSession] at ht ⊢
    · intro p _
      exact ⟨3, _, rfl, rfl⟩
  · rw [nextQuestion_throw s h hq, nextQuestionTrace_throw s h hq]
    refine ⟨rfl, rfl, ?_, ?_, ?_⟩
    · intro i t hi ht
      rcases i with _ | _ | _ | _ | _ | i <;> simp at hi <;> subst hi <;>
        simp [lastSession] at ht ⊢
    · intro i t hi ht
      rcases i with _ | _ | _ | _ | _ | i <;> simp at hi <;> subst hi <;>
        simp [lastSession] at ht ⊢
    · intro p hp
      simp at hp

/-- Witness of C1 on the sample session: position 3 of the trace is the
statement `acceptingAnswers = true`. -/
theorem C1_advance_clears_before_open_witness :
    (nextQuestionTrace sampleSession).get? 3 = some sampleOpenStep ∧
    sampleOpenStep.stmt = .openWindow ∧
    (lastSession sampleSession ((nextQuestionTrace sampleSession).take 3)).answeredUsers = [] ∧
    (lastSession sampleSession ((nextQuestionTrace sampleSession).take 3)).firstAnswered = false ∧
    sampleOpenStep.after.acceptingAnswers = true ∧
    sampleOpenStep.after.answeredUsers = [] ∧
    sampleOpenStep.after.firstAnswered = false :=
  ⟨by decide, by decide,
    (C1_advance_clears_before_open sampleSession).2.2.1 3 sampleOpenStep (by decide) (by decide)⟩

/-- Running a list of events that ends in `e`. -/
theorem runEvents_concat (sys : Sys) (evs : List Event) (e : Event) :
    runEvents sys (evs ++ [e]) = step (runEvents sys evs) e := by
  simp [runEvents, List.foldl_append]

/-- `questions[k]` for a natural number `k`. -/
theorem questionAt_natCast (qs : List Question) (k : Nat) :
    questionAt qs (k : Int) = qs[k]? := by
  have h : ¬ ((k : Int) < 0) := by omega
  simp [questionAt, h]

/-- An advance whose incremented cursor is the natural number `k`. -/
theorem nextQuestion_at (s : Session) (k : Nat) (hi : s.currentIndex + 1 = (k : Int)) :
    nextQuestion s =
      { sess := { s with currentIndex := (k : Int), answeredUsers := [], firstAnswered := false,
                         acceptingAnswers := s.acceptingAnswers || decide (k < s.questions.length) }
        emits := if k < s.questions.length then
            (s.questions[k]?.toList).map (fun q => Emit.newQuestion (newQuestionPayload q))
          else [Emit.gameOver gameOverMessage]
        timerScheduled := decide (k < s.questions.length)
        threw := false } := by
  by_cases hk : k < s.questions.length
  · have h1 : s.currentIndex + 1 < (s.questions.length : Int) := by omega
    have hq : questionAt s.questions (s.currentIndex + 1) = some (s.questions[k]) := by
      rw [hi, questionAt_natCast]; simp [hk]
    rw [nextQuestion_live s _ h1 hq]
    simp [hk, hi]
  · have h1 : s.currentIndex + 1 ≥ (s.questions.length : Int) := by omega
    rw [nextQuestion_gameOver s h1]
    simp [hk, hi]

/-- The whole server state after `k` firings of the sequencer timer and
nothing else. -/
theorem timerRun_closed (catalog : List Question) (st : Store) (k : Nat) :
    runEvents (initSys catalog st) (List.replicate k Event.timer) =
      { sess := { questions := catalog
                  currentIndex := ((min k (catalog.length + 1) : Nat) : Int) - 1
                  acceptingAnswers := decide (0 < k ∧ k ≤ catalog.length)
                  firstAnswered := false
                  answeredUsers := [] }
        store := st
        timer := if k = 0 then .startup else if k ≤ catalog.length then .windowClose else .off
        pending := []
        out := expectedBroadcasts catalog k } := by
  induction k with
  | zero => simp [runEvents, initSys, expectedBroadcasts]
  | succ k ih =>
    rw [List.replicate_succ', runEvents_concat, ih]
    by_cases hk0 : k = 0
    · subst hk0
      simp only [step, fireTimer, if_true, runAdvance]
      rw [nextQuestion_at _ 0 (by simp)]
      by_cases hn : 0 < catalog.length
      · simp [expectedBroadcasts, hn, List.take_succ]
        refine ⟨hn, ?_, ?_⟩
        · rw [if_pos (show 1 ≤ catalog.length from hn)]
        · intro h
          simp [h] at hn
      · have hc : catalog = [] := List.length_eq_zero.mp (by omega)
        subst hc
        simp [expectedBroadcasts]
    · by_cases hle : k ≤ catalog.length
      · simp only [step, fireTimer, hk0, hle, if_true, if_false, runAdvance]
        rw [nextQuestion_at _ k (by simp; omega)]
        by_cases hlt : k < catalog.length
        · have h1 : min (k + 1) (catalog.length + 1) = k + 1 := by omega
          have h2 : ¬ catalog.length < k + 1 := by omega
          have h3 : ¬ catalog.length < k := by omega
          have h4 : k + 1 ≤ catalog.length := hlt
          have h5 : ((k + 1 : Nat) : Int) - 1 = (k : Int) := by omega
          simp only [expectedBroadcasts, hlt, List.take_succ, h1, h2, h3, h4, h5, if_true,
            if_false, List.append_nil, List.map_append, Bool.false_or, decide_True,
            Nat.succ_ne_zero, Nat.zero_lt_succ, true_and]
        · have hk : k = catalog.length := by omega
          subst hk
          simp [expectedBroadcasts]
      · have h1 : min (k + 1) (catalog.length + 1) = catalog.length + 1 := by omega
        have h2 : min k (catalog.length + 1) = catalog.length + 1 := by omega
        have h3 : catalog.length < k := by omega
        have h4 : catalog.length < k + 1 := by omega
        have h5 : ¬ (k + 1 ≤ catalog.length) := by omega
        simp [step, fireTimer, hk0, hle, h1, h2, h3, h4, h5, expectedBroadcasts,
          List.take_of_length_le (Nat.le_of_lt h3), List.take_of_length_le (Nat.le_of_lt h4)]

/-- C2: starting from the initial state with a catalog that is never
reloaded, and firing only the sequencer timer, the events emitted after `k`
firings are `newQuestion` for the first `k` catalog entries in order, followed
by one `gameOver` once `k` exceeds the catalog length; from firing `n + 1` on
the state no longer changes: no timer is pending, `currentIndex = n`,
`acceptingAnswers = false`, and the trace is the `n` questions and a single
`gameOver`. -/
theorem C2_timer_driven_trace (catalog : List Question) (st : Store) :
    (∀ k, (runEvents (initSys catalog st) (List.replicate k Event.timer)).out =
      (catalog.take k).map (fun q => Emit.newQuestion (newQuestionPayload q)) ++
        (if catalog.length < k then [Emit.gameOver gameOverMessage] else [])) ∧
    (∀ j, runEvents (initSys catalog st) (List.replicate (catalog.length + 1 + j) Event.timer) =
      { sess := { questions := catalog
                  currentIndex := (catalog.length : Int)
                  acceptingAnswers := false
                  firstAnswered := false
                  answeredUsers := [] }
        store := st
        timer := .off
        pending := []
        out := catalog.map (fun q => Emit.newQuestion (newQuestionPayload q)) ++
          [Emit.gameOver gameOverMessage] }) := by
  constructor
  · intro k
    rw [timerRun_closed]
    rfl
  · intro j
    rw [timerRun_closed]
    have h1 : min (catalog.length + 1 + j) (catalog.length + 1) = catalog.length + 1 := by omega
    have h2 : ¬ (catalog.length + 1 + j ≤ catalog.length) := by omega
    have h3 : catalog.length < catalog.length + 1 + j := by omega
    have h4 : ¬ (catalog.length + 1 + j = 0) := by omega
    have h5 : ((catalog.length + 1 : Nat) : Int) - 1 = (catalog.length : Int) := by omega
    simp only [h1, h2, h3, h4, h5, expectedBroadcasts, if_true, if_false, and_false,
      decide_False, List.take_of_length_le (Nat.le_of_lt h3)]

/-- Reading an entry of a catalog whose questions were rewritten by `g`. -/
theorem questionAt_map (qs : List Question) (g : Question → Question) (i : Int) :
    questionAt (qs.map g) i = (questionAt qs i).map g := by
  unfold questionAt
  split
  · rfl
  · simp [List.getElem?_map]

/-- C3: the `newQuestion` payload is built from `id`, `text`, the four options
and the difficulty only; replacing a question's `correct` field by any value
leaves the payload unchanged, and replacing the `correct` fields of a whole
catalog in any way leaves the events broadcast by `nextQuestion` unchanged. -/
theorem C3_payload_hides_correct :
    (∀ q : Question, newQuestionPayload q =
      { id := q.id, text := q.text,
        options := { A := q.option_a, B := q.option_b, C := q.option_c, D := q.option_d },
        difficulty := difficultyOrMedium q.difficulty }) ∧
    (∀ (q : Question) (c : String),
      newQuestionPayload { q with correct := c } = newQuestionPayload q) ∧
    (∀ (s : Session) (f : Question → String),
      (nextQuestion
        { s with questions := s.questions.map (fun q => { q with correct := f q }) }).emits =
          (nextQuestion s).emits) := by
  refine ⟨fun _ => rfl, fun _ _ => rfl, ?_⟩
  intro s f
  rcases nextQuestion_cases s with h | ⟨h, q, hq⟩ | ⟨h, hq⟩
  · rw [nextQuestion_gameOver s h, nextQuestion_gameOver _ (by simpa using h)]
  · rw [nextQuestion_live s q h hq,
      nextQuestion_live _ { q with correct := f q } (by simpa using h)
        (by simp [questionAt_map, hq])]
    rfl
  · rw [nextQuestion_throw s h hq,
      nextQuestion_throw _ (by simpa using h) (by simp [questionAt_map, hq])]

/-! ## Properties of the real-time handler -/

/-- The handler when check (a) fails. -/
theorem submitAnswer_noActive (s : Session) (st : Store) (env : Env) (sub : Submission)
    (h : s.acceptingAnswers = false ∨ questionAt s.questions s.currentIndex = none) :
    submitAnswer s st env sub =
      { sess := s, store := st, emits := [.answerResult noActiveMsg] } := by
  rcases h with h | h <;> simp [submitAnswer, submitCheck, h]

/-- The handler when check (a) passes and check (b) fails. -/
theorem submitAnswer_missing (s : Session) (st : Store) (env : Env) (sub : Submission)
    (q : Question) (ha : s.acceptingAnswers = true)
    (hq : questionAt s.questions s.currentIndex = some q)
    (hb : jsTruthy sub.user_id = false) :
    submitAnswer s st env sub =
      { sess := s, store := st, emits := [.answerResult missingUserMsg] } := by
  simp [submitAnswer, submitCheck, ha, hq, hb]

/-- The handler when checks (a) and (b) pass: it continues with the resolved
identity. -/
theorem submitAnswer_resolve (s : Session) (st : Store) (env : Env) (sub : Submission)
    (q : Question) (ha : s.acceptingAnswers = true)
    (hq : questionAt s.questions s.currentIndex = some q)
    (hb : jsTruthy sub.user_id = true) :
    submitAnswer s st env sub =
      submitResume s st env (resolveUserId st.users sub.user_id) sub.answer := by
  simp [submitAnswer, submitCheck, ha, hq, hb]

/-- The continuation when the identity did not resolve (check (c)). -/
theorem submitResume_unknown (s : Session) (st : Store) (env : Env) (resolved : Option Nat)
    (answer : JsVal) (h : resolved = none ∨ resolved = some 0) :
    submitResume s st env resolved answer =
      { sess := s, store := st, emits := [.answerResult unknownUserMsg] } := by
  rcases h with h | h <;> simp [submitResume, h]

/-- The continuation when the resolved user is already recorded (check (d)). -/
theorem submitResume_already (s : Session) (st : Store) (env : Env) (u : Nat)
    (answer : JsVal) (hu : u ≠ 0) (h : u ∈ s.answeredUsers) :
    submitResume s st env (some u) answer =
      { sess := s, store := st, emits := [.answerResult alreadyAnsweredMsg] } := by
  simp [submitResume, hu, h]

/-- The continuation for an accepted wrong answer. -/
theorem submitResume_wrong (s : Session) (st : Store) (env : Env) (u : Nat)
    (answer : JsVal) (q : Question) (hu : u ≠ 0) (h : u ∉ s.answeredUsers)
    (hq : questionAt s.questions s.currentIndex = some q) (hw : answer ≠ .str q.correct) :
    submitResume s st env (some u) answer =
      { sess := { s with answeredUsers := s.answeredUsers ++ [u] }, store := st,
        emits := [.answerResult wrongMsg] } := by
  simp [submitResume, hu, h, hq, hw]

/-- The continuation for an accepted correct answer when the bonus is free. -/
theorem submitResume_first (s : Session) (st : Store) (env : Env) (u : Nat)
    (q : Question) (hu : u ≠ 0) (h : u ∉ s.answeredUsers)
    (hq : questionAt s.questions s.currentIndex = some q) (hf : s.firstAnswered = false) :
    submitResume s st env (some u) (.str q.correct) =
      { sess := { s with answeredUsers := s.answeredUsers ++ [u], firstAnswered := true }
        store := if env.insertFails then st else upsertPerformanceScore st u 15 env.now
        emits := .answerResult (firstCorrectMsg 15) ::
          (if env.insertFails then [.answerResult serverErrorMsg]
           else if env.leaderboardFails then []
           else [.leaderboardGlobal
              (fetchGlobalLeaderboard (upsertPerformanceScore st u 15 env.now) 20)]) } := by
  cases hi : env.insertFails <;> simp [submitResume, hu, h, hq, hf, hi]

/-- The continuation for an accepted correct answer when the bonus is taken. -/
theorem submitResume_later (s : Session) (st : Store) (env : Env) (u : Nat)
    (q : Question) (hu : u ≠ 0) (h : u ∉ s.answeredUsers)
    (hq : questionAt s.questions s.currentIndex = some q) (hf : s.firstAnswered = true) :
    submitResume s st env (some u) (.str q.correct) =
      { sess := { s with answeredUsers := s.answeredUsers ++ [u] }
        store := if env.insertFails then st else upsertPerformanceScore st u 10 env.now
        emits := .answerResult (correctMsg 10) ::
          (if env.insertFails then [.answerResult serverErrorMsg]
           else if env.leaderboardFails then []
           else [.leaderboardGlobal
              (fetchGlobalLeaderboard (upsertPerformanceScore st u 10 env.now) 20)]) } := by
  cases hi : env.insertFails <;> simp [submitResume, hu, h, hq, hf, hi]

/-- The continuation when the user is accepted but the cursor holds no
question: the read of `.correct` throws and the `catch` block answers. -/
theorem submitResume_noQuestion (s : Session) (st : Store) (env : Env) (u : Nat)
    (answer : JsVal) (hu : u ≠ 0) (h : u ∉ s.answeredUsers)
    (hq : questionAt s.questions s.currentIndex = none) :
    submitResume s st env (some u) answer =
      { sess := { s with answeredUsers := s.answeredUsers ++ [u] }, store := st,
        emits := [.answerResult serverErrorMsg] } := by
  simp [submitResume, hu, h, hq]

/-- The results sent on the accepting paths differ from the four rejections. -/
theorem acceptedMsg_ne_rejection :
    ∀ m ∈ [wrongMsg, serverErrorMsg, firstCorrectMsg 15, correctMsg 10],
      ∀ r ∈ [noActiveMsg, missingUserMsg, unknownUserMsg, alreadyAnsweredMsg], m ≠ r := by
  decide

/-- A continuation that sends one of the four rejections changed nothing. -/
theorem submitResume_rejection_frame (s : Session) (st : Store) (env : Env)
    (resolved : Option Nat) (answer : JsVal) (msg : String)
    (hmsg : msg ∈ [noActiveMsg, missingUserMsg, unknownUserMsg, alreadyAnsweredMsg])
    (hmem : Emit.answerResult msg ∈ (submitResume s st env resolved answer).emits) :
    (submitResume s st env resolved answer).sess = s ∧
    (submitResume s st env resolved answer).store = st := by
  have hne := acceptedMsg_ne_rejection
  cases resolved with
  | none => rw [submitResume_unknown s st env none answer (Or.inl rfl)]; exact ⟨rfl, rfl⟩
  | some u =>
    by_cases hu : u = 0
    · subst hu
      rw [submitResume_unknown s st env (some 0) answer (Or.inr rfl)]; exact ⟨rfl, rfl⟩
    · by_cases hin : u ∈ s.answeredUsers
      · rw [submitResume_already s st env u answer hu hin]; exact ⟨rfl, rfl⟩
      · exfalso
        cases hq : questionAt s.questions s.currentIndex with
        | none =>
          rw [submitResume_noQuestion s st env u answer hu hin hq] at hmem
          simp only [List.mem_singleton, Emit.answerResult.injEq] at hmem
          exact hne serverErrorMsg (by simp) msg hmsg hmem.symm
        | some q =>
          by_cases hc : answer = .str q.correct
          · subst hc
            cases hf : s.firstAnswered with
            | false =>
              rw [submitResume_first s st env u q hu hin hq hf] at hmem
              have h1 : msg = firstCorrectMsg 15 ∨ msg = serverErrorMsg := by
                cases hi : env.insertFails <;> cases hl : env.leaderboardFails <;>
                  simp [hi, hl] at hmem <;> simp [hmem]
              rcases h1 with h1 | h1
              · exact hne (firstCorrectMsg 15) (by simp) msg hmsg h1.symm
              · exact hne serverErrorMsg (by simp) msg hmsg h1.symm
            | true =>
              rw [submitResume_later s st env u q hu hin hq hf] at hmem
              have h1 : msg = correctMsg 10 ∨ msg = serverErrorMsg := by
                cases hi : env.insertFails <;> cases hl : env.leaderboardFails <;>
                  simp [hi, hl] at hmem <;> simp [hmem]
              rcases h1 with h1 | h1
              · exact hne (correctMsg 10) (by simp) msg hmsg h1.symm
              · exact hne serverErrorMsg (by simp) msg hmsg h1.symm
          · rw [submitResume_wrong s st env u answer q hu hin hq hc] at hmem
            simp only [List.mem_singleton, Emit.answerResult.injEq] at hmem
            exact hne wrongMsg (by simp) msg hmsg hmem.symm

/-- C4: the handler tests (a) no question accepting answers, (b) identity
missing, (c) identity not resolved (`resolved` is `null` or `0`), (d) resolved
identity already in `answeredUsers`, in this order, and the first failing test
decides the rejection sent, whatever the later tests would give; when all four
pass the submission is recorded and none of the four rejections is sent; the
four rejection texts are pairwise distinct. -/
theorem C4_rejection_order (s : Session) (st : Store) (env : Env) (sub : Submission) :
    ((s.acceptingAnswers = false ∨ questionAt s.questions s.currentIndex = none) →
      submitAnswer s st env sub =
        { sess := s, store := st, emits := [.answerResult noActiveMsg] }) ∧
    (s.acceptingAnswers = true → questionAt s.questions s.currentIndex ≠ none →
      jsTruthy sub.user_id = false →
      submitAnswer s st env sub =
        { sess := s, store := st, emits := [.answerResult missingUserMsg] }) ∧
    (s.acceptingAnswers = true → questionAt s.questions s.currentIndex ≠ none →
      jsTruthy sub.user_id = true →
      (resolveUserId st.users sub.user_id = none ∨
        resolveUserId st.users sub.user_id = some 0) →
      submitAnswer s st env sub =
        { sess := s, store := st, emits := [.answerResult unknownUserMsg] }) ∧
    (s.acceptingAnswers = true → questionAt s.questions s.currentIndex ≠ none →
      jsTruthy sub.user_id = true →
      ∀ u, resolveUserId st.users sub.user_id = some u → u ≠ 0 → u ∈ s.answeredUsers →
      submitAnswer s st env sub =
        { sess := s, store := st, emits := [.answerResult alreadyAnsweredMsg] }) ∧
    (s.acceptingAnswers = true → questionAt s.questions s.currentIndex ≠ none →
      jsTruthy sub.user_id = true →
      ∀ u, resolveUserId st.users sub.user_id = some u → u ≠ 0 → u ∉ s.answeredUsers →
      (submitAnswer s st env sub).sess.answeredUsers = s.answeredUsers ++ [u] ∧
      ∀ msg ∈ [noActiveMsg, missingUserMsg, unknownUserMsg, alreadyAnsweredMsg],
        Emit.answerResult msg ∉ (submitAnswer s st env sub).emits) ∧
    [noActiveMsg, missingUserMsg, unknownUserMsg, alreadyAnsweredMsg].Nodup := by
  refine ⟨submitAnswer_noActive s st env sub, ?_, ?_, ?_, ?_, by decide⟩
  · intro ha hq hb
    obtain ⟨q, hq⟩ := Option.ne_none_iff_exists'.mp hq
    exact submitAnswer_missing s st env sub q ha hq hb
  · intro ha hq hb hc
    obtain ⟨q, hq⟩ := Option.ne_none_iff_exists'.mp hq
    rw [submitAnswer_resolve s st env sub q ha hq hb]
    exact submitResume_unknown s st env _ _ hc
  · intro ha hq hb u hr hu hin
    obtain ⟨q, hq⟩ := Option.ne_none_iff_exists'.mp hq
    rw [submitAnswer_resolve s st env sub q ha hq hb, hr]
    exact submitResume_already s st env u _ hu hin
  · intro ha hq hb u hr hu hin
    obtain ⟨q, hq⟩ := Option.ne_none_iff_exists'.mp hq
    rw [submitAnswer_resolve s st env sub q ha hq hb, hr]
    have hsess : (submitResume s st env (some u) sub.answer).sess.answeredUsers =
        s.answeredUsers ++ [u] := by
      by_cases hc : sub.answer = .str q.correct
      · rw [hc]
        cases hf : s.firstAnswered with
        | false => rw [submitResume_first s st env u q hu hin hq hf]
        | true => rw [submitResume_later s st env u q hu hin hq hf]
      · rw [submitResume_wrong s st env u _ q hu hin hq hc]
    refine ⟨hsess, ?_⟩
    intro msg hmsg hmem
    have hframe := (submitResume_rejection_frame s st env (some u) sub.answer msg hmsg hmem).1
    rw [hframe] at hsess
    have hlen := congrArg List.length hsess
    simp at hlen

/-- Witness of C4 on the sample data: an absent identity outside a window, an
empty identity inside a window, an unknown identity, a recorded user, and a
user not yet recorded. -/
theorem C4_rejection_order_witness :
    submitAnswer sampleIdleSession sampleStore sampleEnv ⟨.undefined, .str "4"⟩ =
      { sess := sampleIdleSession, store := sampleStore,
        emits := [.answerResult noActiveMsg] } ∧
    submitAnswer sampleSession sampleStore sampleEnv ⟨.str "", .str "4"⟩ =
      { sess := sampleSession, store := sampleStore,
        emits := [.answerResult missingUserMsg] } ∧
    submitAnswer sampleSession sampleStore sampleEnv ⟨.str "carol", .str "4"⟩ =
      { sess := sampleSession, store := sampleStore,
        emits := [.answerResult unknownUserMsg] } ∧
    submitAnswer sampleSession sampleStore sampleEnv ⟨.str "alice", .str "4"⟩ =
      { sess := sampleSession, store := sampleStore,
        emits := [.answerResult alreadyAnsweredMsg] } ∧
    (submitAnswer sampleFreshSession sampleStore sampleEnv
      ⟨.str "alice", .str "4"⟩).sess.answeredUsers = [] ++ [1] :=
  ⟨(C4_rejection_order sampleIdleSession sampleStore sampleEnv ⟨.undefined, .str "4"⟩).1
      (Or.inl rfl),
   (C4_rejection_order sampleSession sampleStore sampleEnv ⟨.str "", .str "4"⟩).2.1
      rfl (by decide) rfl,
   (C4_rejection_order sampleSession sampleStore sampleEnv ⟨.str "carol", .str "4"⟩).2.2.1
      rfl (by decide) rfl (Or.inl (by decide)),
   (C4_rejection_order sampleSession sampleStore sampleEnv ⟨.str "alice", .str "4"⟩).2.2.2.1
      rfl (by decide) rfl 1 (by decide) (by decide) (by decide),
   ((C4_rejection_order sampleFreshSession sampleStore sampleEnv
      ⟨.str "alice", .str "4"⟩).2.2.2.2.1
      rfl (by decide) rfl 1 (by decide) (by decide) (by decide)).1⟩

/-- A handler run that sends one of the four rejections changed nothing. -/
theorem submitAnswer_rejection_frame (s : Session) (st : Store) (env : Env)
    (sub : Submission) (msg : String)
    (hmsg : msg ∈ [noActiveMsg, missingUserMsg, unknownUserMsg, alreadyAnsweredMsg])
    (hmem : Emit.answerResult msg ∈ (submitAnswer s st env sub).emits) :
    (submitAnswer s st env sub).sess = s ∧ (submitAnswer s st env sub).store = st := by
  cases hc : submitCheck s sub.user_id with
  | some m => simp [submitAnswer, hc]
  | none =>
    have heq : submitAnswer s st env sub =
        submitResume s st env (resolveUserId st.users sub.user_id) sub.answer := by
      simp [submitAnswer, hc]
    rw [heq] at hmem ⊢
    exact submitResume_rejection_frame s st env _ _ msg hmsg hmem

/-- C5: a real-time submission answered with one of the four rejections ("no
active question", "missing identity", "unknown user", "already answered")
leaves the session state and the store exactly as they were, both when the
handler runs in one piece and when its continuation resumes after the user
lookup. -/
theorem C5_rejection_changes_nothing (s : Session) (st : Store) (env : Env) (msg : String)
    (hmsg : msg ∈ [noActiveMsg, missingUserMsg, unknownUserMsg, alreadyAnsweredMsg]) :
    (∀ sub : Submission, Emit.answerResult msg ∈ (submitAnswer s st env sub).emits →
      (submitAnswer s st env sub).sess = s ∧ (submitAnswer s st env sub).store = st) ∧
    (∀ (resolved : Option Nat) (answer : JsVal),
      Emit.answerResult msg ∈ (submitResume s st env resolved answer).emits →
      (submitResume s st env resolved answer).sess = s ∧
      (submitResume s st env resolved answer).store = st) :=
  ⟨fun sub h => submitAnswer_rejection_frame s st env sub msg hmsg h,
    fun resolved answer h => submitResume_rejection_frame s st env resolved answer msg hmsg h⟩

/-- Witness of C5: user 1 is already recorded in the sample session, and the
submission under the external id `alice` changes nothing. -/
theorem C5_rejection_changes_nothing_witness :
    alreadyAnsweredMsg ∈ [noActiveMsg, missingUserMsg, unknownUserMsg, alreadyAnsweredMsg] ∧
    Emit.answerResult alreadyAnsweredMsg ∈
      (submitAnswer sampleSession sampleStore sampleEnv ⟨.str "alice", .str "4"⟩).emits ∧
    (submitAnswer sampleSession sampleStore sampleEnv ⟨.str "alice", .str "4"⟩).sess =
      sampleSession ∧
    (submitAnswer sampleSession sampleStore sampleEnv ⟨.str "alice", .str "4"⟩).store =
      sampleStore :=
  ⟨by decide, by decide,
    (C5_rejection_changes_nothing sampleSession sampleStore sampleEnv alreadyAnsweredMsg
      (by decide)).1 ⟨.str "alice", .str "4"⟩ (by decide)⟩

/-- The `INSERT` of the real-time path leaves the `users` table alone. -/
theorem upsertPerformanceScore_users (st : Store) (u : Nat) (points : Int) (now : Nat) :
    (upsertPerformanceScore st u points now).users = st.users := by
  unfold upsertPerformanceScore
  split <;> rfl

/-- What the continuation of the handler never touches: the catalog, the
cursor, the window flag and the `users` table; it only adds to `answeredUsers`,
never resets `firstAnswered`, and emits nothing but `answerResult` and
`leaderboard:global`. -/
theorem submitResume_frame (s : Session) (st : Store) (env : Env) (resolved : Option Nat)
    (answer : JsVal) :
    (submitResume s st env resolved answer).sess.questions = s.questions ∧
    (submitResume s st env resolved answer).sess.currentIndex = s.currentIndex ∧
    (submitResume s st env resolved answer).sess.acceptingAnswers = s.acceptingAnswers ∧
    (submitResume s st env resolved answer).store.users = st.users ∧
    (∀ u ∈ s.answeredUsers, u ∈ (submitResume s st env resolved answer).sess.answeredUsers) ∧
    (s.firstAnswered = true →
      (submitResume s st env resolved answer).sess.firstAnswered = true) ∧
    (∀ e ∈ (submitResume s st env resolved answer).emits,
      (∃ m, e = Emit.answerResult m) ∨ ∃ rows, e = Emit.leaderboardGlobal rows) := by
  cases resolved with
  | none => rw [submitResume_unknown s st env none answer (Or.inl rfl)]; simp
  | some u =>
    by_cases hu : u = 0
    · subst hu
      rw [submitResume_unknown s st env (some 0) answer (Or.inr rfl)]; simp
    · by_cases hin : u ∈ s.answeredUsers
      · rw [submitResume_already s st env u answer hu hin]; simp
      · cases hq : questionAt s.questions s.currentIndex with
        | none =>
          rw [submitResume_noQuestion s st env u answer hu hin hq]
          simp
          intro a ha; exact Or.inl ha
        | some q =>
          by_cases hc : answer = .str q.correct
          · subst hc
            cases hf : s.firstAnswered with
            | false =>
              rw [submitResume_first s st env u q hu hin hq hf]
              cases hi : env.insertFails <;> cases hl : env.leaderboardFails <;>
                simp [upsertPerformanceScore_users] <;> intro a ha <;> exact Or.inl ha
            | true =>
              rw [submitResume_later s st env u q hu hin hq hf]
              cases hi : env.insertFails <;> cases hl : env.leaderboardFails <;>
                simp [upsertPerformanceScore_users, hf] <;> intro a ha <;> exact Or.inl ha
          · rw [submitResume_wrong s st env u answer q hu hin hq hc]
            simp
            intro a ha; exact Or.inl ha

/-- The whole handler shares the frame of its continuation. -/
theorem submitAnswer_frame (s : Session) (st : Store) (env : Env) (sub : Submission) :
    (submitAnswer s st env sub).sess.questions = s.questions ∧
    (submitAnswer s st env sub).sess.currentIndex = s.currentIndex ∧
    (submitAnswer s st env sub).sess.acceptingAnswers = s.acceptingAnswers ∧
    (submitAnswer s st env sub).store.users = st.users ∧
    (∀ u ∈ s.answeredUsers, u ∈ (submitAnswer s st env sub).sess.answeredUsers) ∧
    (s.firstAnswered = true → (submitAnswer s st env sub).sess.firstAnswered = true) ∧
    (∀ e ∈ (submitAnswer s st env sub).emits,
      (∃ m, e = Emit.answerResult m) ∨ ∃ rows, e = Emit.leaderboardGlobal rows) := by
  cases hc : submitCheck s sub.user_id with
  | some m => simp [submitAnswer, hc]
  | none =>
    have heq : submitAnswer s st env sub =
        submitResume s st env (resolveUserId st.users sub.user_id) sub.answer := by
      simp [submitAnswer, hc]
    rw [heq]
    exact submitResume_frame s st env _ _

/-- The initial state satisfies the sequencer invariant. -/
theorem seqInv_init (catalog : List Question) (st : Store) : SeqInv (initSys catalog st) := by
  simp [SeqInv, initSys]

/-- An advance from a state whose window flag is down keeps the invariant. -/
theorem seqInv_runAdvance (sys : Sys) (hidx : -1 ≤ sys.sess.currentIndex)
    (hacc : sys.sess.acceptingAnswers = false)
    (hout : Emit.gameOver gameOverMessage ∉ sys.out) : SeqInv (runAdvance sys) := by
  rcases nextQuestion_cases sys.sess with h | ⟨h, q, hq⟩ | ⟨h, hq⟩
  · simp [SeqInv, runAdvance, nextQuestion_gameOver sys.sess h, hacc]
    omega
  · simp [SeqInv, runAdvance, nextQuestion_live sys.sess q h hq, hout]
    omega
  · exfalso
    obtain ⟨q, hq2⟩ := questionAt_isSome sys.sess.questions (sys.sess.currentIndex + 1)
      (by omega) h
    rw [hq] at hq2
    cases hq2

/-- Every event keeps the sequencer invariant. -/
theorem seqInv_step (sys : Sys) (e : Event) (h : SeqInv sys) : SeqInv (step sys e) := by
  obtain ⟨h1, h2, h3, h4⟩ := h
  cases e with
  | timer =>
    cases ht : sys.timer with
    | off =>
      have hs : step sys Event.timer = sys := by simp [step, fireTimer, ht]
      rw [hs]
      exact ⟨h1, h2, h3, h4⟩
    | startup =>
      simp only [step, fireTimer, ht]
      exact seqInv_runAdvance sys h1 (h2 ht).1 (h2 ht).2
    | windowClose =>
      simp only [step, fireTimer, ht]
      refine seqInv_runAdvance _ h1 rfl ?_
      intro hg
      have := h4 hg
      rw [ht] at this
      cases this
  | reload rows => exact ⟨h1, h2, h3, h4⟩
  | arrive sub =>
    simp only [step]
    cases hc : submitCheck sys.sess sub.user_id with
    | some m => simpa [SeqInv] using ⟨h1, h2, h3, h4⟩
    | none => exact ⟨h1, h2, h3, h4⟩
  | resume i env =>
    simp only [step]
    cases hp : sys.pending.get? i with
    | none => exact ⟨h1, h2, h3, h4⟩
    | some sub =>
      obtain ⟨-, f2, f3, -, -, -, f7⟩ := submitResume_frame sys.sess sys.store env
        (resolveUserId sys.store.users sub.user_id) sub.answer
      have hno : Emit.gameOver gameOverMessage ∉ (submitResume sys.sess sys.store env
          (resolveUserId sys.store.users sub.user_id) sub.answer).emits := by
        intro hm
        rcases f7 _ hm with ⟨m, hm2⟩ | ⟨rows, hm2⟩ <;> cases hm2
      simp only [SeqInv, f2, f3, List.mem_append, hno, or_false]
      exact ⟨h1, h2, h3, h4⟩
  | submit sub env =>
    simp only [step]
    obtain ⟨-, f2, f3, -, -, -, f7⟩ := submitAnswer_frame sys.sess sys.store env sub
    have hno : Emit.gameOver gameOverMessage ∉ (submitAnswer sys.sess sys.store env sub).emits := by
      intro hm
      rcases f7 _ hm with ⟨m, hm2⟩ | ⟨rows, hm2⟩ <;> cases hm2
    simp only [SeqInv, f2, f3, List.mem_append, hno, or_false]
    exact ⟨h1, h2, h3, h4⟩

/-- Every run keeps the sequencer invariant. -/
theorem seqInv_run (evs : List Event) (sys : Sys) (h : SeqInv sys) :
    SeqInv (runEvents sys evs) := by
  induction evs generalizing sys with
  | nil => exact h
  | cons e evs ih => exact ih (step sys e) (seqInv_step sys e h)

/-- C6: in every state the server can reach from its initial state by timer
firings, catalog reloads and submissions (whole or suspended at the user
lookup), if the start-up timer is still pending (Idle) or `gameOver` has been
sent, then any submission is answered "No active question." and nothing else
changes: the handler returns the session and store it found, and the event only
appends that one result. This holds for every catalog, the empty one included,
and for reloads after `gameOver`. -/
theorem C6_no_live_question_rejects (catalog : List Question) (st0 : Store)
    (evs : List Event) (sub : Submission) (env : Env)
    (h : (runEvents (initSys catalog st0) evs).timer = .startup ∨
      Emit.gameOver gameOverMessage ∈ (runEvents (initSys catalog st0) evs).out) :
    submitAnswer (runEvents (initSys catalog st0) evs).sess
        (runEvents (initSys catalog st0) evs).store env sub =
      { sess := (runEvents (initSys catalog st0) evs).sess
        store := (runEvents (initSys catalog st0) evs).store
        emits := [.answerResult noActiveMsg] } ∧
    step (runEvents (initSys catalog st0) evs) (.submit sub env) =
      { runEvents (initSys catalog st0) evs with
        out := (runEvents (initSys catalog st0) evs).out ++ [.answerResult noActiveMsg] } ∧
    step (runEvents (initSys catalog st0) evs) (.arrive sub) =
      { runEvents (initSys catalog st0) evs with
        out := (runEvents (initSys catalog st0) evs).out ++ [.answerResult noActiveMsg] } := by
  obtain ⟨-, h2, h3, h4⟩ := seqInv_run evs _ (seqInv_init catalog st0)
  have hacc : (runEvents (initSys catalog st0) evs).sess.acceptingAnswers = false := by
    rcases h with h | h
    · exact (h2 h).1
    · exact h3 (h4 h)
  have hsub := submitAnswer_noActive (runEvents (initSys catalog st0) evs).sess
    (runEvents (initSys catalog st0) evs).store env sub (Or.inl hacc)
  refine ⟨hsub, ?_, ?_⟩
  · simp only [step, hsub]
  · simp [step, submitCheck, hacc]

/-- Witness of C6: with an empty catalog the first advance sends `gameOver`;
after a reload with two questions, user 1 is still told that no question is
active. -/
theorem C6_no_live_question_rejects_witness :
    Emit.gameOver gameOverMessage ∈
      (runEvents (initSys [] sampleStore) [.timer, .reload [sampleQ1, sampleQ2]]).out ∧
    submitAnswer (runEvents (initSys [] sampleStore) [.timer, .reload [sampleQ1, sampleQ2]]).sess
        (runEvents (initSys [] sampleStore) [.timer, .reload [sampleQ1, sampleQ2]]).store
        sampleEnv ⟨.num 1, .str "4"⟩ =
      { sess := (runEvents (initSys [] sampleStore) [.timer, .reload [sampleQ1, sampleQ2]]).sess
        store := (runEvents (initSys [] sampleStore) [.timer, .reload [sampleQ1, sampleQ2]]).store
        emits := [.answerResult noActiveMsg] } :=
  ⟨by decide,
    (C6_no_live_question_rejects [] sampleStore [.timer, .reload [sampleQ1, sampleQ2]]
      ⟨.num 1, .str "4"⟩ sampleEnv (Or.inr (by decide))).1⟩

/-! ## One answer per user and question -/

/-- A submission that fails one of the four checks is answered with the
matching rejection and changes nothing. -/
theorem submitAnswer_of_rejected (s : Session) (st : Store) (env : Env) (sub : Submission)
    (h : acceptedUser s st.users sub = none) :
    ∃ msg ∈ [noActiveMsg, missingUserMsg, unknownUserMsg, alreadyAnsweredMsg],
      submitAnswer s st env sub = { sess := s, store := st, emits := [.answerResult msg] } := by
  by_cases ha : s.acceptingAnswers = true
  · cases hq : questionAt s.questions s.currentIndex with
    | none =>
      exact ⟨noActiveMsg, by simp, submitAnswer_noActive s st env sub (Or.inr hq)⟩
    | some q =>
      cases hb : jsTruthy sub.user_id with
      | false => exact ⟨missingUserMsg, by simp, submitAnswer_missing s st env sub q ha hq hb⟩
      | true =>
        rw [submitAnswer_resolve s st env sub q ha hq hb]
        cases hr : resolveUserId st.users sub.user_id with
        | none =>
          exact ⟨unknownUserMsg, by simp, submitResume_unknown s st env none _ (Or.inl rfl)⟩
        | some u =>
          by_cases hu : u = 0
          · subst hu
            exact ⟨unknownUserMsg, by simp,
              submitResume_unknown s st env (some 0) _ (Or.inr rfl)⟩
          · by_cases hin : u ∈ s.answeredUsers
            · exact ⟨alreadyAnsweredMsg, by simp, submitResume_already s st env u _ hu hin⟩
            · simp [acceptedUser, ha, hq, hb, hr, hu, hin] at h
  · have ha2 : s.acceptingAnswers = false := by simpa using ha
    exact ⟨noActiveMsg, by simp, submitAnswer_noActive s st env sub (Or.inl ha2)⟩

/-- A submission that passes the four checks as user `u`: what the checks
established, and the handler continues as `submitResume` with `u`. -/
theorem submitAnswer_of_accepted (s : Session) (st : Store) (env : Env) (sub : Submission)
    (u : Nat) (h : acceptedUser s st.users sub = some u) :
    s.acceptingAnswers = true ∧ (∃ q, questionAt s.questions s.currentIndex = some q) ∧
    jsTruthy sub.user_id = true ∧ resolveUserId st.users sub.user_id = some u ∧
    u ≠ 0 ∧ u ∉ s.answeredUsers ∧
    submitAnswer s st env sub = submitResume s st env (some u) sub.answer ∧
    (submitAnswer s st env sub).sess.answeredUsers = s.answeredUsers ++ [u] := by
  unfold acceptedUser at h
  split at h
  · rename_i hc
    obtain ⟨ha, hq, hb⟩ := hc
    obtain ⟨q, hq⟩ := Option.isSome_iff_exists.mp hq
    cases hr : resolveUserId st.users sub.user_id with
    | none => simp [hr] at h
    | some v =>
      simp only [hr] at h
      split at h
      · rename_i hv
        cases h
        have heq := submitAnswer_resolve s st env sub q ha hq hb
        rw [hr] at heq
        refine ⟨ha, ⟨q, hq⟩, hb, rfl, hv.1, hv.2, heq, ?_⟩
        rw [heq]
        by_cases hc : sub.answer = .str q.correct
        · rw [hc]
          cases hf : s.firstAnswered with
          | false => rw [submitResume_first s st env u q hv.1 hv.2 hq hf]
          | true => rw [submitResume_later s st env u q hv.1 hv.2 hq hf]
        · rw [submitResume_wrong s st env u _ q hv.1 hv.2 hq hc]
      · cases h
  · cases h

/-- Acceptance as `u`, read off the recorded users, is passing the four checks
as `u`. -/
theorem acceptedAs_iff (s : Session) (st : Store) (env : Env) (sub : Submission) (u : Nat) :
    (submitAnswer s st env sub).sess.answeredUsers = s.answeredUsers ++ [u] ↔
      acceptedUser s st.users sub = some u := by
  constructor
  · intro h
    cases hacc : acceptedUser s st.users sub with
    | none =>
      obtain ⟨msg, -, heq⟩ := submitAnswer_of_rejected s st env sub hacc
      rw [heq] at h
      have hlen := congrArg List.length h
      simp at hlen
    | some v =>
      have h2 := (submitAnswer_of_accepted s st env sub v hacc).2.2.2.2.2.2.2
      rw [h2] at h
      have := List.append_cancel_left h
      simp at this
      rw [this]
  · intro h
    exact (submitAnswer_of_accepted s st env sub u h).2.2.2.2.2.2.2

/-- Each record of a run holds the result of the handler on the state and
payload it records. -/
theorem runSubmits_res (subs : List (Submission × Env)) (s : Session) (st : Store) :
    ∀ r ∈ runSubmits s st subs, r.res = submitAnswer r.before r.storeBefore r.env r.sub := by
  induction subs generalizing s st with
  | nil => intro r hr; simp [runSubmits] at hr
  | cons x rest ih =>
    intro r hr
    simp only [runSubmits, List.mem_cons] at hr
    rcases hr with hr | hr
    · subst hr; rfl
    · exact ih _ _ r hr

/-- The records after a given record of a run are the run from the state that
record left. -/
theorem runSubmits_split (subs : List (Submission × Env)) (s : Session) (st : Store)
    (pre : List SubmitRecord) (a : SubmitRecord) (tail : List SubmitRecord)
    (h : runSubmits s st subs = pre ++ a :: tail) :
    ∃ rest, tail = runSubmits a.res.sess a.res.store rest := by
  induction subs generalizing s st pre with
  | nil => simp [runSubmits] at h
  | cons x rest ih =>
    cases pre with
    | nil =>
      simp only [runSubmits, List.nil_append, List.cons.injEq] at h
      obtain ⟨ha, ht⟩ := h
      subst ha
      exact ⟨rest, ht.symm⟩
    | cons p pre' =>
      simp only [runSubmits, List.cons_append, List.cons.injEq] at h
      exact ih _ _ pre' h.2

/-- While the window stays open on a question and `u` is recorded, every
submission that resolves to `u` is answered "already answered" and changes
nothing. -/
theorem runSubmits_recorded (subs : List (Submission × Env)) (s : Session) (st : Store)
    (u : Nat) (ha : s.acceptingAnswers = true)
    (hq : ∃ q, questionAt s.questions s.currentIndex = some q)
    (hu : u ≠ 0) (hin : u ∈ s.answeredUsers) :
    ∀ b ∈ runSubmits s st subs, b.resolvesTo u →
      b.res = { sess := b.before, store := b.storeBefore,
                emits := [.answerResult alreadyAnsweredMsg] } := by
  induction subs generalizing s st with
  | nil => intro b hb; simp [runSubmits] at hb
  | cons x rest ih =>
    intro b hb hres
    simp only [runSubmits, List.mem_cons] at hb
    rcases hb with hb | hb
    · subst hb
      obtain ⟨q, hq⟩ := hq
      simp only [SubmitRecord.resolvesTo] at hres
      simp only
      rw [submitAnswer_resolve s st x.2 x.1 q ha hq hres.1, hres.2]
      exact submitResume_already s st x.2 u _ hu hin
    · obtain ⟨f1, f2, f3, -, f5, -, -⟩ := submitAnswer_frame s st x.2 x.1
      refine ih _ _ (by rw [f3]; exact ha) (by rw [f1, f2]; exact hq) (f5 u hin) b hb hres

/-- Once `u` is recorded, no later submission of the run is accepted as `u`. -/
theorem runSubmits_not_accepted (subs : List (Submission × Env)) (s : Session) (st : Store)
    (u : Nat) (hin : u ∈ s.answeredUsers) :
    ∀ r ∈ runSubmits s st subs, ¬ r.acceptedAs u := by
  induction subs generalizing s st with
  | nil => intro r hr; simp [runSubmits] at hr
  | cons x rest ih =>
    intro r hr hacc
    simp only [runSubmits, List.mem_cons] at hr
    rcases hr with hr | hr
    · subst hr
      simp only [SubmitRecord.acceptedAs] at hacc
      have h2 := (acceptedAs_iff s st x.2 x.1 u).mp hacc
      exact (submitAnswer_of_accepted s st x.2 x.1 u h2).2.2.2.2.2.1 hin
    · exact ih _ _ ((submitAnswer_frame s st x.2 x.1).2.2.2.2.1 u hin) r hr hacc

/-- C7: in every sequence of submissions processed within one answer window
(no timer firing in between), once a submission has been accepted as user `u`,
every later submission that resolves to `u`, by numeric id or by external uid,
is answered "already answered", is not accepted, and leaves session, store and
the score of `u` unchanged; hence at most one submission of the sequence is
accepted as `u`. -/
theorem C7_one_answer_per_user (s : Session) (st : Store) (subs : List (Submission × Env))
    (u : Nat) :
    (∀ pre a mid b post, runSubmits s st subs = pre ++ a :: (mid ++ b :: post) →
      a.acceptedAs u → b.resolvesTo u →
      b.res = { sess := b.before, store := b.storeBefore,
                emits := [.answerResult alreadyAnsweredMsg] } ∧
      ¬ b.acceptedAs u ∧ scoreOf b.res.store u = scoreOf b.storeBefore u) ∧
    ((runSubmits s st subs).filter (fun r => decide (r.acceptedAs u))).length ≤ 1 := by
  constructor
  · intro pre a mid b post hrun hacc hres
    obtain ⟨rest, hrest⟩ := runSubmits_split subs s st pre a _ hrun
    have ha_mem : a ∈ runSubmits s st subs := by rw [hrun]; simp
    have ha_res := runSubmits_res subs s st a ha_mem
    have hb_mem : b ∈ runSubmits a.res.sess a.res.store rest := by rw [← hrest]; simp
    simp only [SubmitRecord.acceptedAs] at hacc
    rw [ha_res] at hacc
    have hu := (acceptedAs_iff _ _ _ _ u).mp hacc
    obtain ⟨h1, h2, -, -, h5, -, -, h8⟩ := submitAnswer_of_accepted _ _ a.env a.sub u hu
    obtain ⟨f1, f2, f3, -, -, -, -⟩ := submitAnswer_frame a.before a.storeBefore a.env a.sub
    have hin : u ∈ a.res.sess.answeredUsers := by rw [ha_res, h8]; simp
    have hb := runSubmits_recorded rest a.res.sess a.res.store u
      (by rw [ha_res, f3]; exact h1) (by rw [ha_res, f1, f2]; exact h2) h5 hin b hb_mem hres
    refine ⟨hb, ?_, by rw [hb]⟩
    exact runSubmits_not_accepted rest a.res.sess a.res.store u hin b hb_mem
  · induction subs generalizing s st with
    | nil => simp [runSubmits]
    | cons x rest ih =>
      simp only [runSubmits]
      by_cases hacc : (submitAnswer s st x.2 x.1).sess.answeredUsers = s.answeredUsers ++ [u]
      · have hin : u ∈ (submitAnswer s st x.2 x.1).sess.answeredUsers := by rw [hacc]; simp
        have hnone := runSubmits_not_accepted rest _ (submitAnswer s st x.2 x.1).store u hin
        have hnil : (runSubmits (submitAnswer s st x.2 x.1).sess
            (submitAnswer s st x.2 x.1).store rest).filter
              (fun r => decide (r.acceptedAs u)) = [] := by
          rw [List.filter_eq_nil_iff]
          intro r hr
          simpa using hnone r hr
        have hd : decide (SubmitRecord.acceptedAs
            { before := s, storeBefore := st, sub := x.1, env := x.2,
              res := submitAnswer s st x.2 x.1 } u) = true := by
          simpa [SubmitRecord.acceptedAs] using hacc
        rw [List.filter_cons, if_pos hd, hnil]
        simp
      · have := ih (submitAnswer s st x.2 x.1).sess (submitAnswer s st x.2 x.1).store
        simpa [List.filter_cons, SubmitRecord.acceptedAs, hacc] using this

/-- Witness of C7: user 1 answers by numeric id, user 2 answers, then user 1
answers again under the external id `alice`. -/
theorem C7_one_answer_per_user_witness :
    runSubmits sampleFreshSession sampleStore sampleSubs =
      [] ++ sampleRecA :: ([sampleRecB] ++ sampleRecA2 :: []) ∧
    sampleRecA.acceptedAs 1 ∧ sampleRecA2.resolvesTo 1 ∧
    sampleRecA2.res = { sess := sampleRecA2.before, store := sampleRecA2.storeBefore,
                        emits := [.answerResult alreadyAnsweredMsg] } ∧
    ¬ sampleRecA2.acceptedAs 1 ∧
    scoreOf sampleRecA2.res.store 1 = scoreOf sampleRecA2.storeBefore 1 :=
  ⟨by decide, by decide, by decide,
    (C7_one_answer_per_user sampleFreshSession sampleStore sampleSubs 1).1
      [] sampleRecA [sampleRecB] sampleRecA2 [] (by decide) (by decide) (by decide)⟩

/-! ## The first-correct bonus -/

/-- Looking up user `u` after the `ON DUPLICATE KEY UPDATE` branch. -/
theorem find_after_update (rs : List PerfRow) (u : Nat) (points : Int) (now : Nat) :
    (rs.map (fun r =>
        if r.user_id == u then { r with score := r.score + points, last_update := now }
        else r)).find? (fun r => r.user_id == u) =
      (rs.find? (fun r => r.user_id == u)).map
        (fun r => { r with score := r.score + points, last_update := now }) := by
  induction rs with
  | nil => rfl
  | cons r rs ih =>
    rw [List.map_cons, List.find?_cons, List.find?_cons]
    cases hb : (r.user_id == u) with
    | true => simp [hb]
    | false => simpa [hb] using ih

/-- The additive upsert raises the score shown for the user by the points. -/
theorem scoreOf_upsert (st : Store) (u : Nat) (points : Int) (now : Nat) :
    scoreOf (upsertPerformanceScore st u points now) u = scoreOf st u + points := by
  by_cases hany : st.performance.any (fun r => r.user_id == u) = true
  · obtain ⟨r, hr, hru⟩ := List.any_eq_true.mp hany
    have hsome : ∃ r0, st.performance.find? (fun r => r.user_id == u) = some r0 := by
      cases hf : st.performance.find? (fun r => r.user_id == u) with
      | none =>
        rw [List.find?_eq_none] at hf
        exact absurd hru (hf r hr)
      | some r0 => exact ⟨r0, rfl⟩
    obtain ⟨r0, hr0⟩ := hsome
    simp only [upsertPerformanceScore, hany, if_true, scoreOf, find_after_update, hr0,
      Option.map_some']
  · have hnone : st.performance.find? (fun r => r.user_id == u) = none := by
      rw [List.find?_eq_none]
      intro r hr hru
      exact hany (List.any_eq_true.mpr ⟨r, hr, hru⟩)
    simp [upsertPerformanceScore, hany, scoreOf, List.find?_append, hnone]

/-- The other results differ from the first-correct result. -/
theorem otherMsg_ne_firstCorrect :
    ∀ m ∈ [noActiveMsg, missingUserMsg, unknownUserMsg, alreadyAnsweredMsg, wrongMsg,
        serverErrorMsg, correctMsg 10], m ≠ firstCorrectMsg 15 := by
  decide

/-- A submission counted as accepted and correct passed the four checks as
some user and carried the `correct` text of the question under the cursor. -/
theorem acceptedCorrect_elim (s : Session) (st : Store) (env : Env) (sub : Submission)
    (h : SubmitRecord.acceptedCorrect
      { before := s, storeBefore := st, sub := sub, env := env,
        res := submitAnswer s st env sub }) :
    ∃ u q, acceptedUser s st.users sub = some u ∧
      questionAt s.questions s.currentIndex = some q ∧ sub.answer = .str q.correct := by
  obtain ⟨hlen, hcorr⟩ := h
  simp only [SubmitRecord.correctAnswer] at hcorr
  cases hacc : acceptedUser s st.users sub with
  | none =>
    obtain ⟨msg, -, heq⟩ := submitAnswer_of_rejected s st env sub hacc
    simp only [heq] at hlen
    omega
  | some u =>
    cases hq : questionAt s.questions s.currentIndex with
    | none => simp [hq] at hcorr
    | some q =>
      simp only [hq, Option.map_some', Option.some.injEq] at hcorr
      exact ⟨u, q, rfl, rfl, hcorr.symm⟩

/-- One submission and the bonus: an accepted correct answer with the bonus
free is sent the first-correct result, takes the bonus and scores 15; with the
bonus taken it is sent the plain result and scores 10; any other submission is
not sent the first-correct result and leaves `firstAnswered` as it was. -/
theorem submitAnswer_bonus_step (s : Session) (st : Store) (env : Env) (sub : Submission) :
    (SubmitRecord.acceptedCorrect
        { before := s, storeBefore := st, sub := sub, env := env,
          res := submitAnswer s st env sub } →
      (s.firstAnswered = false →
        Emit.answerResult (firstCorrectMsg 15) ∈ (submitAnswer s st env sub).emits ∧
        (submitAnswer s st env sub).emits.head? = some (.answerResult (firstCorrectMsg 15)) ∧
        (submitAnswer s st env sub).sess.firstAnswered = true ∧
        ∀ u, (submitAnswer s st env sub).sess.answeredUsers = s.answeredUsers ++ [u] →
          env.insertFails = false →
          scoreOf (submitAnswer s st env sub).store u = scoreOf st u + 15) ∧
      (s.firstAnswered = true →
        Emit.answerResult (firstCorrectMsg 15) ∉ (submitAnswer s st env sub).emits ∧
        (submitAnswer s st env sub).emits.head? = some (.answerResult (correctMsg 10)) ∧
        (submitAnswer s st env sub).sess.firstAnswered = true ∧
        ∀ u, (submitAnswer s st env sub).sess.answeredUsers = s.answeredUsers ++ [u] →
          env.insertFails = false →
          scoreOf (submitAnswer s st env sub).store u = scoreOf st u + 10)) ∧
    (¬ SubmitRecord.acceptedCorrect
        { before := s, storeBefore := st, sub := sub, env := env,
          res := submitAnswer s st env sub } →
      Emit.answerResult (firstCorrectMsg 15) ∉ (submitAnswer s st env sub).emits ∧
      (submitAnswer s st env sub).sess.firstAnswered = s.firstAnswered) := by
  have hne := otherMsg_ne_firstCorrect
  constructor
  · intro hac
    obtain ⟨u, q, hacc, hq, hans⟩ := acceptedCorrect_elim s st env sub hac
    obtain ⟨-, -, -, -, hu, hin, heq, hsess⟩ := submitAnswer_of_accepted s st env sub u hacc
    constructor
    · intro hf
      have hres := submitResume_first s st env u q hu hin hq hf
      rw [← hans, ← heq] at hres
      refine ⟨by rw [hres]; simp, by rw [hres]; rfl, by rw [hres], ?_⟩
      intro v hv hi
      rw [hsess] at hv
      have huv : u = v := by simpa using List.append_cancel_left hv
      subst huv
      rw [hres]
      simp only [hi, Bool.false_eq_true, if_false]
      exact scoreOf_upsert st u 15 env.now
    · intro hf
      have hres := submitResume_later s st env u q hu hin hq hf
      rw [← hans, ← heq] at hres
      refine ⟨?_, by rw [hres]; rfl, by rw [hres]; exact hf, ?_⟩
      · rw [hres]
        intro hmem
        have h1 : firstCorrectMsg 15 = correctMsg 10 ∨ firstCorrectMsg 15 = serverErrorMsg := by
          cases hi : env.insertFails <;> cases hl : env.leaderboardFails <;>
            simp [hi, hl] at hmem <;> simp [hmem]
        rcases h1 with h1 | h1
        · exact hne (correctMsg 10) (by simp) h1.symm
        · exact hne serverErrorMsg (by simp) h1.symm
      · intro v hv hi
        rw [hsess] at hv
        have huv : u = v := by simpa using List.append_cancel_left hv
        subst huv
        rw [hres]
        simp only [hi, Bool.false_eq_true, if_false]
        exact scoreOf_upsert st u 10 env.now
  · intro hnac
    cases hacc : acceptedUser s st.users sub with
    | none =>
      obtain ⟨msg, hmsg, heq⟩ := submitAnswer_of_rejected s st env sub hacc
      rw [heq]
      refine ⟨?_, rfl⟩
      simp only [List.mem_singleton, Emit.answerResult.injEq]
      intro h
      have hmsg2 : msg ∈ [noActiveMsg, missingUserMsg, unknownUserMsg, alreadyAnsweredMsg,
          wrongMsg, serverErrorMsg, correctMsg 10] := by
        simp only [List.mem_cons] at hmsg ⊢
        tauto
      exact hne msg hmsg2 h.symm
    | some u =>
      obtain ⟨-, ⟨q, hq⟩, -, -, hu, hin, heq, hsess⟩ :=
        submitAnswer_of_accepted s st env sub u hacc
      have hw : sub.answer ≠ .str q.correct := by
        intro hc
        apply hnac
        refine ⟨by simp only [hsess]; simp, ?_⟩
        simp [SubmitRecord.correctAnswer, hq, hc]
      have hres := submitResume_wrong s st env u _ q hu hin hq hw
      rw [← heq] at hres
      rw [hres]
      refine ⟨?_, rfl⟩
      simp only [List.mem_singleton, Emit.answerResult.injEq]
      intro h
      exact hne wrongMsg (by simp) h.symm

/-- A record of a run is the handler applied to what it records. -/
theorem runSubmits_record_eq (subs : List (Submission × Env)) (s : Session) (st : Store)
    (r : SubmitRecord) (hr : r ∈ runSubmits s st subs) :
    r = { before := r.before, storeBefore := r.storeBefore, sub := r.sub, env := r.env,
          res := submitAnswer r.before r.storeBefore r.env r.sub } := by
  have h := runSubmits_res subs s st r hr
  cases r
  simp only at h
  simp [h]

/-- Within a run, the bonus is taken when a record is reached exactly if it was
taken at the start or an earlier record was accepted with a correct answer. -/
theorem runSubmits_firstAnswered (subs : List (Submission × Env)) (s : Session) (st : Store)
    (pre : List SubmitRecord) (r : SubmitRecord) (post : List SubmitRecord)
    (h : runSubmits s st subs = pre ++ r :: post) :
    r.before.firstAnswered = true ↔
      (s.firstAnswered = true ∨ ∃ p ∈ pre, p.acceptedCorrect) := by
  induction subs generalizing s st pre with
  | nil => simp [runSubmits] at h
  | cons x rest ih =>
    cases pre with
    | nil =>
      simp only [runSubmits, List.nil_append, List.cons.injEq] at h
      rw [← h.1]
      simp
    | cons p pre' =>
      simp only [runSubmits, List.cons_append, List.cons.injEq] at h
      obtain ⟨hp, hrest⟩ := h
      rw [ih _ _ pre' hrest]
      obtain ⟨hyes, hno⟩ := submitAnswer_bonus_step s st x.2 x.1
      rw [hp] at hyes hno
      by_cases hac : p.acceptedCorrect
      · have h1 : (submitAnswer s st x.2 x.1).sess.firstAnswered = true := by
          cases hf : s.firstAnswered with
          | false => exact ((hyes hac).1 hf).2.2.1
          | true => exact ((hyes hac).2 hf).2.2.1
        constructor
        · intro _
          exact Or.inr ⟨p, by simp, hac⟩
        · intro _
          exact Or.inl h1
      · have h1 := (hno hac).2
        rw [h1]
        constructor
        · rintro (h2 | ⟨p', hp', hac'⟩)
          · exact Or.inl h2
          · exact Or.inr ⟨p', by simp [hp'], hac'⟩
        · rintro (h2 | ⟨p', hp', hac'⟩)
          · exact Or.inl h2
          · simp only [List.mem_cons] at hp'
            rcases hp' with hp' | hp'
            · subst hp'; exact absurd hac' hac
            · exact Or.inr ⟨p', hp', hac'⟩

/-- Counting the first-correct results of a run: none when the bonus was taken
at the start; otherwise at most one, and exactly one when some record was
accepted with a correct answer. -/
theorem runSubmits_bonus_count (subs : List (Submission × Env)) (s : Session) (st : Store) :
    (s.firstAnswered = true →
      ((runSubmits s st subs).filter (fun r => decide r.bonusAwarded)).length = 0) ∧
    (s.firstAnswered = false →
      ((runSubmits s st subs).filter (fun r => decide r.bonusAwarded)).length ≤ 1 ∧
      ((∃ r ∈ runSubmits s st subs, r.acceptedCorrect) →
        ((runSubmits s st subs).filter (fun r => decide r.bonusAwarded)).length = 1)) := by
  induction subs generalizing s st with
  | nil => simp [runSubmits]
  | cons x rest ih =>
    obtain ⟨hyes, hno⟩ := submitAnswer_bonus_step s st x.2 x.1
    obtain ⟨ih1, ih2⟩ := ih (submitAnswer s st x.2 x.1).sess (submitAnswer s st x.2 x.1).store
    simp only [runSubmits, List.filter_cons, SubmitRecord.bonusAwarded]
    by_cases hac : SubmitRecord.acceptedCorrect
        { before := s, storeBefore := st, sub := x.1, env := x.2,
          res := submitAnswer s st x.2 x.1 }
    · constructor
      · intro hf
        obtain ⟨hb, -, hf1, -⟩ := (hyes hac).2 hf
        simp only [hb, decide_False, Bool.false_eq_true, if_false]
        exact ih1 hf1
      · intro hf
        obtain ⟨hb, -, hf1, -⟩ := (hyes hac).1 hf
        simp only [hb, decide_True, if_true, List.length_cons]
        have := ih1 hf1
        simp only [SubmitRecord.bonusAwarded] at this
        omega
    · obtain ⟨hb, hf1⟩ := hno hac
      simp only [hb, decide_False, Bool.false_eq_true, if_false]
      constructor
      · intro hf
        exact ih1 (by rw [hf1]; exact hf)
      · intro hf
        obtain ⟨hle, hex⟩ := ih2 (by rw [hf1]; exact hf)
        refine ⟨hle, ?_⟩
        rintro ⟨r, hr, hrac⟩
        simp only [List.mem_cons] at hr
        rcases hr with hr | hr
        · subst hr; exact absurd hrac hac
        · exact hex ⟨r, hr, hrac⟩

/-- C8: in every sequence of submissions processed within one answer window
that starts with the bonus free, an accepted correct submission with no
accepted correct one before it is sent the first-correct result with 15 points
(base 10 + bonus 5) and, when the insert succeeds, raises the user's score by
15; an accepted correct submission after another accepted correct one is sent
the plain result with 10 points, gets no bonus and raises the score by 10; at
most one submission of the sequence is sent the bonus, and exactly one when
some accepted submission is correct. -/
theorem C8_first_correct_bonus (s : Session) (st : Store) (subs : List (Submission × Env))
    (hf : s.firstAnswered = false) :
    (∀ pre r post u, runSubmits s st subs = pre ++ r :: post →
      r.acceptedAs u → r.correctAnswer →
      ((∀ p ∈ pre, ¬ p.acceptedCorrect) →
        r.res.emits.head? = some (.answerResult (firstCorrectMsg 15)) ∧ r.bonusAwarded ∧
        (r.env.insertFails = false →
          scoreOf r.res.store u = scoreOf r.storeBefore u + 15)) ∧
      ((∃ p ∈ pre, p.acceptedCorrect) →
        r.res.emits.head? = some (.answerResult (correctMsg 10)) ∧ ¬ r.bonusAwarded ∧
        (r.env.insertFails = false →
          scoreOf r.res.store u = scoreOf r.storeBefore u + 10))) ∧
    ((runSubmits s st subs).filter (fun r => decide r.bonusAwarded)).length ≤ 1 ∧
    ((∃ r ∈ runSubmits s st subs, r.acceptedCorrect) →
      ((runSubmits s st subs).filter (fun r => decide r.bonusAwarded)).length = 1) := by
  refine ⟨?_, ((runSubmits_bonus_count subs s st).2 hf).1,
    ((runSubmits_bonus_count subs s st).2 hf).2⟩
  intro pre r post u hrun hacc hcorr
  have hmem : r ∈ runSubmits s st subs := by rw [hrun]; simp
  have hres := runSubmits_res subs s st r hmem
  have hreq := runSubmits_record_eq subs s st r hmem
  have hfirst := runSubmits_firstAnswered subs s st pre r post hrun
  obtain ⟨hyes, -⟩ := submitAnswer_bonus_step r.before r.storeBefore r.env r.sub
  rw [← hreq] at hyes
  have hac : r.acceptedCorrect := by
    refine ⟨?_, hcorr⟩
    simp only [SubmitRecord.acceptedAs] at hacc
    rw [hacc]
    simp
  simp only [SubmitRecord.acceptedAs] at hacc
  rw [hres] at hacc
  simp only [SubmitRecord.bonusAwarded]
  rw [hres]
  constructor
  · intro hnone
    have hbf : r.before.firstAnswered = false := by
      cases hb : r.before.firstAnswered with
      | false => rfl
      | true =>
        rcases hfirst.mp hb with h1 | ⟨p, hp, hpac⟩
        · rw [hf] at h1; cases h1
        · exact absurd hpac (hnone p hp)
    obtain ⟨h1, h2, -, h4⟩ := (hyes hac).1 hbf
    exact ⟨h2, h1, h4 u hacc⟩
  · intro hsome
    have hbf : r.before.firstAnswered = true := hfirst.mpr (Or.inr hsome)
    obtain ⟨h1, h2, -, h4⟩ := (hyes hac).2 hbf
    exact ⟨h2, h1, h4 u hacc⟩

/-- Witness of C8 on the sample run: user 1 is sent the bonus, user 2 the plain
result. -/
theorem C8_first_correct_bonus_witness :
    sampleFreshSession.firstAnswered = false ∧
    runSubmits sampleFreshSession sampleStore sampleSubs =
      [sampleRecA] ++ sampleRecB :: [sampleRecA2] ∧
    sampleRecB.acceptedAs 2 ∧ sampleRecB.correctAnswer ∧
    (∃ p ∈ [sampleRecA], p.acceptedCorrect) ∧
    sampleRecB.res.emits.head? = some (.answerResult (correctMsg 10)) ∧
    ¬ sampleRecB.bonusAwarded ∧
    (sampleRecB.env.insertFails = false →
      scoreOf sampleRecB.res.store 2 = scoreOf sampleRecB.storeBefore 2 + 10) :=
  ⟨by decide, by decide, by decide, by decide, ⟨sampleRecA, by decide, by decide⟩,
    ((C8_first_correct_bonus sampleFreshSession sampleStore sampleSubs (by decide)).1
      [sampleRecA] sampleRecB [sampleRecA2] 2 (by decide) (by decide) (by decide)).2
      ⟨sampleRecA, by decide, by decide⟩⟩

/-! ## A late submission and the advance -/

/-- C9 (the code at the failing interleaving): user 1 submits `Paris` while
question 1 (answer `4`) is open and the handler passes the active-question
check; the window-close timer fires and `nextQuestion` opens question 2; the
handler then resumes and records user 1 in the `answeredUsers` of question 2,
compares the answer with the key of question 2, sends the first-correct result
and adds 15 to the score. When the timer instead ends the game, the resumed
handler still records user 1 and then fails on the missing question. -/
theorem C9_late_submission_scored_on_next_question :
    (runEvents (initSys [sampleQ1, sampleQ2] sampleStore)
      [.timer, .arrive { user_id := .num 1, answer := .str "Paris" }]).sess.currentIndex = 0 ∧
    (runEvents (initSys [sampleQ1, sampleQ2] sampleStore)
      [.timer, .arrive { user_id := .num 1, answer := .str "Paris" }]).pending =
        [{ user_id := .num 1, answer := .str "Paris" }] ∧
    sampleQ1.correct ≠ "Paris" ∧
    (runEvents (initSys [sampleQ1, sampleQ2] sampleStore)
      [.timer, .arrive { user_id := .num 1, answer := .str "Paris" },
       .timer]).sess.answeredUsers = [] ∧
    lateSubmissionRun.sess.currentIndex = 1 ∧
    lateSubmissionRun.sess.answeredUsers = [1] ∧
    lateSubmissionRun.sess.firstAnswered = true ∧
    Emit.answerResult (firstCorrectMsg 15) ∈ lateSubmissionRun.out ∧
    scoreOf lateSubmissionRun.store 1 = scoreOf sampleStore 1 + 15 ∧
    Emit.gameOver gameOverMessage ∈ lateSubmissionAtEnd.out ∧
    lateSubmissionAtEnd.sess.answeredUsers = [1] ∧
    lateSubmissionAtEnd.out.getLast? = some (.answerResult serverErrorMsg) := by
  decide

/-! ## The two-question scenario -/

/-- The server after the first advance on a two-question catalog. -/
theorem scenarioOpened_eq (q1 q2 : Question) (st : Store) :
    scenarioOpened q1 q2 st =
      { sess := { questions := [q1, q2], currentIndex := 0, acceptingAnswers := true,
                  firstAnswered := false, answeredUsers := [] }
        store := st
        timer := .windowClose
        pending := []
        out := [.newQuestion (newQuestionPayload q1)] } := by
  have h := timerRun_closed [q1, q2] st 1
  simpa [scenarioOpened, expectedBroadcasts] using h

/-- The result of A's submission in the scenario. -/
theorem scenarioFirst_eq (q1 q2 : Question) (st : Store) (a : JsVal) (ua : Nat) (env1 : Env)
    (hta : jsTruthy a = true) (hra : resolveUserId st.users a = some ua) (hua : ua ≠ 0) :
    scenarioFirst q1 q2 st a env1 =
      { sess := { questions := [q1, q2], currentIndex := 0, acceptingAnswers := true,
                  firstAnswered := true, answeredUsers := [ua] }
        store := if env1.insertFails then st else upsertPerformanceScore st ua 15 env1.now
        emits := .answerResult (firstCorrectMsg 15) ::
          (if env1.insertFails then [.answerResult serverErrorMsg]
           else if env1.leaderboardFails then []
           else [.leaderboardGlobal
              (fetchGlobalLeaderboard (upsertPerformanceScore st ua 15 env1.now) 20)]) } := by
  unfold scenarioFirst
  rw [scenarioOpened_eq]
  rw [submitAnswer_resolve _ _ _ _ q1 rfl (by simp [questionAt]) hta]
  simp only [hra]
  rw [submitResume_first _ _ _ ua q1 hua (by simp) (by simp [questionAt]) rfl]
  simp

/-- The result of B's submission in the scenario. -/
theorem scenarioSecond_eq (q1 q2 : Question) (st : Store) (a b : JsVal) (ua ub : Nat)
    (env1 env2 : Env)
    (hta : jsTruthy a = true) (hra : resolveUserId st.users a = some ua) (hua : ua ≠ 0)
    (htb : jsTruthy b = true) (hrb : resolveUserId st.users b = some ub) (hub : ub ≠ 0)
    (hab : ua ≠ ub) :
    scenarioSecond q1 q2 st a b env1 env2 =
      { sess := { questions := [q1, q2], currentIndex := 0, acceptingAnswers := true,
                  firstAnswered := true, answeredUsers := [ua, ub] }
        store := if env2.insertFails then (scenarioFirst q1 q2 st a env1).store
          else upsertPerformanceScore (scenarioFirst q1 q2 st a env1).store ub 10 env2.now
        emits := .answerResult (correctMsg 10) ::
          (if env2.insertFails then [.answerResult serverErrorMsg]
           else if env2.leaderboardFails then []
           else [.leaderboardGlobal (fetchGlobalLeaderboard
              (upsertPerformanceScore (scenarioFirst q1 q2 st a env1).store ub 10 env2.now)
              20)]) } := by
  have hfirst := scenarioFirst_eq q1 q2 st a ua env1 hta hra hua
  have husers : (scenarioFirst q1 q2 st a env1).store.users = st.users := by
    rw [hfirst]
    cases env1.insertFails <;> simp [upsertPerformanceScore_users]
  have hsess : (scenarioFirst q1 q2 st a env1).sess =
      { questions := [q1, q2], currentIndex := 0, acceptingAnswers := true,
        firstAnswered := true, answeredUsers := [ua] } := by
    rw [hfirst]
  unfold scenarioSecond
  rw [submitAnswer_resolve _ _ _ _ q1 (by rw [hsess]) (by rw [hsess]; simp [questionAt]) htb]
  simp only [husers, hrb]
  rw [submitResume_later _ _ _ ub q1 hub (by rw [hsess]; simpa using Ne.symm hab)
    (by rw [hsess]; simp [questionAt]) (by rw [hsess])]
  simp [hsess]

/-- The server after the advance to question 2 in the scenario. -/
theorem scenarioAdvanced_eq (q1 q2 : Question) (st : Store) (a b : JsVal) (ua ub : Nat)
    (env1 env2 : Env)
    (hta : jsTruthy a = true) (hra : resolveUserId st.users a = some ua) (hua : ua ≠ 0)
    (htb : jsTruthy b = true) (hrb : resolveUserId st.users b = some ub) (hub : ub ≠ 0)
    (hab : ua ≠ ub) :
    scenarioAdvanced q1 q2 st a b env1 env2 =
      { sess := { questions := [q1, q2], currentIndex := 1, acceptingAnswers := true,
                  firstAnswered := false, answeredUsers := [] }
        store := (scenarioSecond q1 q2 st a b env1 env2).store
        timer := .windowClose
        pending := []
        out := [.newQuestion (newQuestionPayload q1)] ++ (scenarioFirst q1 q2 st a env1).emits ++
          (scenarioSecond q1 q2 st a b env1 env2).emits ++
          [.newQuestion (newQuestionPayload q2)] } := by
  have hopen := scenarioOpened_eq q1 q2 st
  have hsecond := scenarioSecond_eq q1 q2 st a b ua ub env1 env2 hta hra hua htb hrb hub hab
  have hsess : (scenarioSecond q1 q2 st a b env1 env2).sess =
      { questions := [q1, q2], currentIndex := 0, acceptingAnswers := true,
        firstAnswered := true, answeredUsers := [ua, ub] } := by
    rw [hsecond]
  have hrun : scenarioAdvanced q1 q2 st a b env1 env2 =
      step (step (step (scenarioOpened q1 q2 st)
        (.submit { user_id := a, answer := .str q1.correct } env1))
        (.submit { user_id := b, answer := .str q1.correct } env2)) .timer := by
    simp [scenarioAdvanced, scenarioOpened, runEvents]
  have h1 : step (scenarioOpened q1 q2 st)
      (.submit { user_id := a, answer := .str q1.correct } env1) =
      { scenarioOpened q1 q2 st with
        sess := (scenarioFirst q1 q2 st a env1).sess
        store := (scenarioFirst q1 q2 st a env1).store
        out := (scenarioOpened q1 q2 st).out ++ (scenarioFirst q1 q2 st a env1).emits } := rfl
  have h2 : step { scenarioOpened q1 q2 st with
        sess := (scenarioFirst q1 q2 st a env1).sess
        store := (scenarioFirst q1 q2 st a env1).store
        out := (scenarioOpened q1 q2 st).out ++ (scenarioFirst q1 q2 st a env1).emits }
      (.submit { user_id := b, answer := .str q1.correct } env2) =
      { scenarioOpened q1 q2 st with
        sess := (scenarioSecond q1 q2 st a b env1 env2).sess
        store := (scenarioSecond q1 q2 st a b env1 env2).store
        out := (scenarioOpened q1 q2 st).out ++ (scenarioFirst q1 q2 st a env1).emits ++
          (scenarioSecond q1 q2 st a b env1 env2).emits } := rfl
  rw [hrun, h1, h2, hsess, hopen]
  simp only [step, fireTimer, runAdvance]
  rw [nextQuestion_live _ q2 (by simp) (by simp [questionAt])]
  simp

/-- C10: on every two-question catalog, with identities `a` and `b` resolving
to distinct known users and the inserts succeeding: after the first advance,
A's correct submission is sent "First Correct! +15 points" (behind the prefix
of the source text) and raises A's score by 15; B's correct submission is then
sent "Correct! +10 points" and raises B's score by 10; after the window-close
timer and the advance, question 2 is open with `answeredUsers` empty, and a
submission by A is recorded again and is not answered "already answered". -/
theorem C10_two_question_scenario (q1 q2 : Question) (st : Store) (a b : JsVal)
    (ua ub : Nat) (env1 env2 env3 : Env) (answer3 : JsVal)
    (hta : jsTruthy a = true) (hra : resolveUserId st.users a = some ua) (hua : ua ≠ 0)
    (htb : jsTruthy b = true) (hrb : resolveUserId st.users b = some ub) (hub : ub ≠ 0)
    (hab : ua ≠ ub) (h1 : env1.insertFails = false) (h2 : env2.insertFails = false) :
    (scenarioFirst q1 q2 st a env1).emits.head? = some (.answerResult (firstCorrectMsg 15)) ∧
    firstCorrectMsg 15 = "âœ… First Correct! +15 points" ∧
    scoreOf (scenarioFirst q1 q2 st a env1).store ua = scoreOf st ua + 15 ∧
    (scenarioSecond q1 q2 st a b env1 env2).emits.head? =
      some (.answerResult (correctMsg 10)) ∧
    correctMsg 10 = "âœ… Correct! +10 points" ∧
    scoreOf (scenarioSecond q1 q2 st a b env1 env2).store ub =
      scoreOf (scenarioFirst q1 q2 st a env1).store ub + 10 ∧
    (scenarioAdvanced q1 q2 st a b env1 env2).sess.currentIndex = 1 ∧
    (scenarioAdvanced q1 q2 st a b env1 env2).sess.acceptingAnswers = true ∧
    (scenarioAdvanced q1 q2 st a b env1 env2).sess.answeredUsers = [] ∧
    (scenarioAdvanced q1 q2 st a b env1 env2).store =
      (scenarioSecond q1 q2 st a b env1 env2).store ∧
    (submitAnswer (scenarioAdvanced q1 q2 st a b env1 env2).sess
      (scenarioAdvanced q1 q2 st a b env1 env2).store env3
      { user_id := a, answer := answer3 }).sess.answeredUsers = [ua] ∧
    Emit.answerResult alreadyAnsweredMsg ∉
      (submitAnswer (scenarioAdvanced q1 q2 st a b env1 env2).sess
        (scenarioAdvanced q1 q2 st a b env1 env2).store env3
        { user_id := a, answer := answer3 }).emits := by
  have hfirst := scenarioFirst_eq q1 q2 st a ua env1 hta hra hua
  have hsecond := scenarioSecond_eq q1 q2 st a b ua ub env1 env2 hta hra hua htb hrb hub hab
  have hadv := scenarioAdvanced_eq q1 q2 st a b ua ub env1 env2 hta hra hua htb hrb hub hab
  have husers1 : (scenarioFirst q1 q2 st a env1).store.users = st.users := by
    rw [hfirst]
    cases env1.insertFails <;> simp [upsertPerformanceScore_users]
  have husers2 : (scenarioSecond q1 q2 st a b env1 env2).store.users = st.users := by
    rw [hsecond]
    cases env2.insertFails <;> simp [upsertPerformanceScore_users, husers1]
  have hacc : acceptedUser (scenarioAdvanced q1 q2 st a b env1 env2).sess
      (scenarioAdvanced q1 q2 st a b env1 env2).store.users
      { user_id := a, answer := answer3 } = some ua := by
    rw [hadv]
    simp [acceptedUser, questionAt, hta, husers2, hra, hua]
  have hfinal := (submitAnswer_of_accepted _ _ env3 _ ua hacc).2.2.2.2.2.2.2
  have hempty : (scenarioAdvanced q1 q2 st a b env1 env2).sess.answeredUsers = [] := by
    rw [hadv]
  rw [hempty] at hfinal
  refine ⟨by rw [hfirst]; rfl, by decide, ?_, by rw [hsecond]; rfl, by decide, ?_,
    by rw [hadv], by rw [hadv], hempty, by rw [hadv], by simpa using hfinal, ?_⟩
  · rw [hfirst]
    simp only [h1, Bool.false_eq_true, if_false]
    exact scoreOf_upsert st ua 15 env1.now
  · rw [hsecond]
    simp only [h2, Bool.false_eq_true, if_false]
    exact scoreOf_upsert _ ub 10 env2.now
  · intro hmem
    have hframe := (submitAnswer_rejection_frame _ _ env3 _ alreadyAnsweredMsg (by simp)
      hmem).1
    rw [hframe, hempty] at hfinal
    simp at hfinal

/-- Witness of C10 on the sample data: user 1 (by numeric id) and user 2 (by
external id `bob`) answer question 1, then user 1 answers question 2. -/
theorem C10_two_question_scenario_witness :
    (scenarioFirst sampleQ1 sampleQ2 sampleStore (.num 1) sampleEnv).emits.head? =
      some (.answerResult (firstCorrectMsg 15)) ∧
    scoreOf (scenarioFirst sampleQ1 sampleQ2 sampleStore (.num 1) sampleEnv).store 1 =
      scoreOf sampleStore 1 + 15 ∧
    (scenarioSecond sampleQ1 sampleQ2 sampleStore (.num 1) (.str "bob") sampleEnv
      sampleEnv).emits.head? = some (.answerResult (correctMsg 10)) ∧
    (submitAnswer
      (scenarioAdvanced sampleQ1 sampleQ2 sampleStore (.num 1) (.str "bob") sampleEnv
        sampleEnv).sess
      (scenarioAdvanced sampleQ1 sampleQ2 sampleStore (.num 1) (.str "bob") sampleEnv
        sampleEnv).store sampleEnv
      { user_id := .num 1, answer := .str "Paris" }).sess.answeredUsers = [1] :=
  have h := C10_two_question_scenario sampleQ1 sampleQ2 sampleStore (.num 1) (.str "bob") 1 2
    sampleEnv sampleEnv sampleEnv (.str "Paris") (by decide) (by decide) (by decide)
    (by decide) (by decide) (by decide) (by decide) (by decide) (by decide)
  ⟨h.1, h.2.2.1, h.2.2.2.1, h.2.2.2.2.2.2.2.2.2.2.1⟩

/-! ## Properties of the REST path -/

/-- A request whose statements all succeed, for a known user and an existing
question: the committed store and the response. -/
theorem restSubmitAnswer_success (st : Store) (env : RestEnv) (req : SubmitRequest) (u : Nat)
    (q : Question) (hu : jsTruthy req.user_id = true) (hq : jsTruthy req.question_id = true)
    (hs : req.selected ≠ JsVal.undefined) (hr : resolveUserId st.users req.user_id = some u)
    (hu0 : u ≠ 0)
    (hfind : st.questions.find? (fun q => sqlIntEq q.id req.question_id) = some q)
    (hok : env.failAt = none) (perf : PerfRow)
    (hperf : perfRowOf (restPerformanceStage st env req u q) u = some perf) :
    restSubmitAnswer st env req =
      { store := setPerformanceAccuracy (restPerformanceStage st env req u q) u
          (env.arith.toColumn (accuracyOf env.arith.jsPercent perf.correct perf.attempts))
        response := .ok (restIsCorrect req q) (restPoints req q) perf.score perf.attempts
          perf.correct (accuracyOf env.arith.jsPercent perf.correct perf.attempts) } := by
  unfold perfRowOf restPerformanceStage restScoresStage at hperf
  by_cases hg : jsTruthy req.game_name = true
  · simp only [hg, if_true] at hperf
    simp [restSubmitAnswer, hu, hq, hs, hr, hu0, restTransaction, txStatement, hok, hfind, hg,
      hperf, restPerformanceStage, restScoresStage]
  · have hg2 : jsTruthy req.game_name = false := by simpa using hg
    simp only [hg2, Bool.false_eq_true, if_false] at hperf
    simp [restSubmitAnswer, hu, hq, hs, hr, hu0, restTransaction, txStatement, hok, hfind, hg2,
      hperf, restPerformanceStage, restScoresStage]

/-- Looking up by a key after an update, keyed the same way, that keeps the
key. -/
theorem find_map_ite {α : Type} (l : List α) (p : α → Bool) (f : α → α)
    (hf : ∀ r, p r = true → p (f r) = true) :
    (l.map (fun r => if p r = true then f r else r)).find? p = (l.find? p).map f := by
  induction l with
  | nil => rfl
  | cons r rs ih =>
    rw [List.map_cons, List.find?_cons, List.find?_cons]
    cases hb : p r with
    | true => simp [hb, hf r hb]
    | false => simpa [hb] using ih

/-- Looking up a key that no row has, after appending a row. -/
theorem find_append_new {α : Type} (l : List α) (p : α → Bool) (x : α)
    (hnone : l.any p = false) (hx : p x = true) : (l ++ [x]).find? p = some x := by
  have h1 : l.find? p = none := by
    rw [List.find?_eq_none]
    intro r hr hpr
    have : l.any p = true := List.any_eq_true.mpr ⟨r, hr, hpr⟩
    rw [hnone] at this
    cases this
  simp [List.find?_append, h1, hx]

/-- A key that some row has is found. -/
theorem find_of_any {α : Type} (l : List α) (p : α → Bool) (h : l.any p = true) :
    ∃ r, l.find? p = some r := by
  obtain ⟨r, hr, hpr⟩ := List.any_eq_true.mp h
  cases hf : l.find? p with
  | none =>
    rw [List.find?_eq_none] at hf
    exact absurd hpr (hf r hr)
  | some r0 => exact ⟨r0, rfl⟩

/-- A key that no row has is not found. -/
theorem find_of_not_any {α : Type} (l : List α) (p : α → Bool) (h : l.any p = false) :
    l.find? p = none := by
  rw [List.find?_eq_none]
  intro r hr hpr
  have : l.any p = true := List.any_eq_true.mpr ⟨r, hr, hpr⟩
  rw [h] at this
  cases this

/-- The user's `performance` row after the REST upsert. -/
theorem perfRowOf_upsertPerformance (st : Store) (u : Nat) (points : Int) (hit now : Nat) :
    perfRowOf (upsertPerformance st u points hit now) u =
      some (match perfRowOf st u with
        | some r => { r with score := r.score + points, attempts := r.attempts + 1,
                             correct := r.correct + hit, last_update := now }
        | none => { user_id := u, score := points, attempts := 1, correct := hit,
                    accuracy := 0, last_update := now }) := by
  unfold perfRowOf upsertPerformance
  cases hany : st.performance.any (fun r => r.user_id == u) with
  | true =>
    obtain ⟨r0, hr0⟩ := find_of_any _ _ hany
    simp only [if_true]
    rw [find_map_ite st.performance (fun r => r.user_id == u)
      (fun r => { r with score := r.score + points, attempts := r.attempts + 1,
                         correct := r.correct + hit, last_update := now })
      (fun r h => h), hr0]
    rfl
  | false =>
    simp only [Bool.false_eq_true, if_false]
    rw [find_append_new _ _ _ hany (by simp), find_of_not_any _ _ hany]

/-- The user's `performance` row after the accuracy update. -/
theorem perfRowOf_setPerformanceAccuracy (st : Store) (u : Nat) (accuracy : Rat) :
    perfRowOf (setPerformanceAccuracy st u accuracy) u =
      (perfRowOf st u).map (fun r => { r with accuracy := accuracy }) := by
  unfold perfRowOf setPerformanceAccuracy
  exact find_map_ite st.performance (fun r => r.user_id == u)
    (fun r => { r with accuracy := accuracy }) (fun r h => h)

/-- The user's `scores` row after the upsert. -/
theorem scoreRowOf_upsertScores (st : Store) (u : Nat) (game : String) (points : Int)
    (hit now : Nat) :
    scoreRowOf (upsertScores st u game points hit now) u game =
      some (match scoreRowOf st u game with
        | some r => { r with score := r.score + points, attempts := r.attempts + 1,
                             correct := r.correct + hit, last_update := now }
        | none => { user_id := u, game_name := game, score := points, attempts := 1,
                    correct := hit, accuracy := 0, last_update := now }) := by
  unfold scoreRowOf upsertScores
  cases hany : st.scores.any (fun r => r.user_id == u && r.game_name == game) with
  | true =>
    obtain ⟨r0, hr0⟩ := find_of_any _ _ hany
    simp only [if_true]
    rw [find_map_ite st.scores (fun r => r.user_id == u && r.game_name == game)
      (fun r => { r with score := r.score + points, attempts := r.attempts + 1,
                         correct := r.correct + hit, last_update := now })
      (fun r h => h), hr0]
    rfl
  | false =>
    simp only [Bool.false_eq_true, if_false]
    rw [find_append_new _ _ _ hany (by simp), find_of_not_any _ _ hany]

/-- The user's `scores` row after the accuracy update. -/
theorem scoreRowOf_setScoresAccuracy (st : Store) (percent : Nat → Nat → Rat) (u : Nat)
    (game : String) :
    scoreRowOf (setScoresAccuracy st percent u game) u game =
      (scoreRowOf st u game).map
        (fun r => { r with accuracy := accuracyOf percent r.correct r.attempts }) := by
  unfold scoreRowOf setScoresAccuracy
  exact find_map_ite st.scores (fun r => r.user_id == u && r.game_name == game)
    (fun r => { r with accuracy := accuracyOf percent r.correct r.attempts }) (fun r h => h)

/-- The `scores` statements leave the other tables alone. -/
theorem restScoresStage_frame (st : Store) (env : RestEnv) (req : SubmitRequest) (u : Nat)
    (q : Question) :
    (restScoresStage st env req u q).performance = st.performance ∧
    (restScoresStage st env req u q).users = st.users ∧
    (restScoresStage st env req u q).questions = st.questions ∧
    (restScoresStage st env req u q).game_sessions = st.game_sessions ∧
    (restScoresStage st env req u q).answers = st.answers ++ [restAnswerRow req u q] := by
  unfold restScoresStage setScoresAccuracy upsertScores
  split
  · split <;> exact ⟨rfl, rfl, rfl, rfl, rfl⟩
  · exact ⟨rfl, rfl, rfl, rfl, rfl⟩

/-- The `performance` statements leave the other tables alone. -/
theorem upsertPerformance_frame (st : Store) (u : Nat) (points : Int) (hit now : Nat)
    (accuracy : Rat) :
    (setPerformanceAccuracy (upsertPerformance st u points hit now) u accuracy).users =
      st.users ∧
    (setPerformanceAccuracy (upsertPerformance st u points hit now) u accuracy).questions =
      st.questions ∧
    (setPerformanceAccuracy (upsertPerformance st u points hit now) u accuracy).answers =
      st.answers ∧
    (setPerformanceAccuracy (upsertPerformance st u points hit now) u accuracy).scores =
      st.scores ∧
    (setPerformanceAccuracy (upsertPerformance st u points hit now) u accuracy).game_sessions =
      st.game_sessions := by
  unfold setPerformanceAccuracy upsertPerformance
  split <;> exact ⟨rfl, rfl, rfl, rfl, rfl⟩

/-- The user's per-game row after the `scores` statements of a request with a
game name. -/
theorem scoreRowOf_restScoresStage (st : Store) (env : RestEnv) (req : SubmitRequest)
    (u : Nat) (q : Question) (hg : jsTruthy req.game_name = true) :
    scoreRowOf (restScoresStage st env req u q) u (jsString req.game_name) =
      some (bumpedScore env.arith (scoreRowOf st u (jsString req.game_name)) u
        (jsString req.game_name) (restPoints req q) (restHit req q) env.now) := by
  unfold restScoresStage
  rw [if_pos hg, scoreRowOf_setScoresAccuracy, scoreRowOf_upsertScores]
  have h : scoreRowOf { st with answers := st.answers ++ [restAnswerRow req u q] } u
      (jsString req.game_name) = scoreRowOf st u (jsString req.game_name) := rfl
  rw [h]
  cases scoreRowOf st u (jsString req.game_name) <;> simp [bumpedScore, accuracyOf]

/-- The effect of a request whose statements all succeed, for a known user and
an existing question. -/
theorem restSubmitAnswer_effect (st : Store) (env : RestEnv) (req : SubmitRequest) (u : Nat)
    (q : Question) (hu : jsTruthy req.user_id = true) (hq : jsTruthy req.question_id = true)
    (hs : req.selected ≠ JsVal.undefined) (hr : resolveUserId st.users req.user_id = some u)
    (hu0 : u ≠ 0)
    (hfind : st.questions.find? (fun q => sqlIntEq q.id req.question_id) = some q)
    (hok : env.failAt = none) :
    perfRowOf (restSubmitAnswer st env req).store u =
      some (bumpedPerf env.arith (perfRowOf st u) u (restPoints req q) (restHit req q)
        env.now) ∧
    (restSubmitAnswer st env req).response =
      .ok (restIsCorrect req q) (restPoints req q)
        (bumpedPerf env.arith (perfRowOf st u) u (restPoints req q) (restHit req q)
          env.now).score
        (bumpedPerf env.arith (perfRowOf st u) u (restPoints req q) (restHit req q)
          env.now).attempts
        (bumpedPerf env.arith (perfRowOf st u) u (restPoints req q) (restHit req q)
          env.now).correct
        (env.arith.jsPercent
          (bumpedPerf env.arith (perfRowOf st u) u (restPoints req q) (restHit req q)
            env.now).correct
          (bumpedPerf env.arith (perfRowOf st u) u (restPoints req q) (restHit req q)
            env.now).attempts) ∧
    (restSubmitAnswer st env req).store.answers = st.answers ++ [restAnswerRow req u q] ∧
    (restSubmitAnswer st env req).store.users = st.users ∧
    (restSubmitAnswer st env req).store.questions = st.questions ∧
    (restSubmitAnswer st env req).store.scores = (restScoresStage st env req u q).scores := by
  obtain ⟨f1, f2, f3, f4, f5⟩ := restScoresStage_frame st env req u q
  have hperf : perfRowOf (restPerformanceStage st env req u q) u =
      some (match perfRowOf st u with
        | some r => { r with score := r.score + (restPoints req q : Int),
                             attempts := r.attempts + 1, correct := r.correct + restHit req q,
                             last_update := env.now }
        | none => { user_id := u, score := (restPoints req q : Int), attempts := 1,
                    correct := restHit req q, accuracy := 0, last_update := env.now }) := by
    unfold restPerformanceStage
    rw [perfRowOf_upsertPerformance]
    have h : perfRowOf (restScoresStage st env req u q) u = perfRowOf st u := by
      unfold perfRowOf
      rw [f1]
    rw [h]
  rw [restSubmitAnswer_success st env req u q hu hq hs hr hu0 hfind hok _ hperf]
  obtain ⟨g1, g2, g3, g4, g5⟩ := upsertPerformance_frame (restScoresStage st env req u q) u
    (restPoints req q) (restHit req q) env.now
    (env.arith.toColumn (accuracyOf env.arith.jsPercent
      (match perfRowOf st u with
        | some r => { r with score := r.score + (restPoints req q : Int),
                             attempts := r.attempts + 1, correct := r.correct + restHit req q,
                             last_update := env.now }
        | none => { user_id := u, score := (restPoints req q : Int), attempts := 1,
                    correct := restHit req q, accuracy := 0, last_update := env.now }).correct
      (match perfRowOf st u with
        | some r => { r with score := r.score + (restPoints req q : Int),
                             attempts := r.attempts + 1, correct := r.correct + restHit req q,
                             last_update := env.now }
        | none => { user_id := u, score := (restPoints req q : Int), attempts := 1,
                    correct := restHit req q, accuracy := 0, last_update := env.now }).attempts))
  refine ⟨?_, ?_, ?_, ?_, ?_, ?_⟩
  · simp only [perfRowOf_setPerformanceAccuracy, hperf]
    cases perfRowOf st u <;> simp [bumpedPerf, accuracyOf]
  · cases perfRowOf st u <;> simp [bumpedPerf, accuracyOf]
  · simp only [restPerformanceStage]
    rw [g3, f5]
  · simp only [restPerformanceStage]
    rw [g1, f2]
  · simp only [restPerformanceStage]
    rw [g2, f3]
  · simp only [restPerformanceStage]
    rw [g4]

/-- The score shown for a user is the score of the user's row. -/
theorem scoreOf_eq_perfRowOf (st : Store) (u : Nat) :
    scoreOf st u = ((perfRowOf st u).map (fun r => r.score)).getD 0 := by
  unfold scoreOf perfRowOf
  cases st.performance.find? (fun r => r.user_id == u) <;> rfl

/-- A REST request whose statements all succeed raises the user's global score
by `points`. -/
theorem scoreOf_restSubmitAnswer (st : Store) (env : RestEnv) (req : SubmitRequest) (u : Nat)
    (q : Question) (hu : jsTruthy req.user_id = true) (hq : jsTruthy req.question_id = true)
    (hs : req.selected ≠ JsVal.undefined) (hr : resolveUserId st.users req.user_id = some u)
    (hu0 : u ≠ 0)
    (hfind : st.questions.find? (fun q => sqlIntEq q.id req.question_id) = some q)
    (hok : env.failAt = none) :
    scoreOf (restSubmitAnswer st env req).store u = scoreOf st u + (restPoints req q : Int) := by
  rw [scoreOf_eq_perfRowOf, scoreOf_eq_perfRowOf,
    (restSubmitAnswer_effect st env req u q hu hq hs hr hu0 hfind hok).1]
  cases perfRowOf st u <;> simp [bumpedPerf]

/-- An accepted correct real-time answer whose insert succeeds raises the
user's score by 10, or by 15 when it takes the bonus. -/
theorem scoreOf_submitAnswer_correct (s : Session) (st : Store) (env : Env)
    (sub : Submission) (u : Nat) (q : Question)
    (hacc : acceptedUser s st.users sub = some u)
    (hlive : questionAt s.questions s.currentIndex = some q)
    (hans : sub.answer = JsVal.str q.correct) (hins : env.insertFails = false) :
    scoreOf (submitAnswer s st env sub).store u =
      scoreOf st u + (if s.firstAnswered then 10 else 15) := by
  obtain ⟨-, -, -, -, hu0, hin, heq, -⟩ := submitAnswer_of_accepted s st env sub u hacc
  rw [heq, hans]
  cases hf : s.firstAnswered with
  | false =>
    rw [submitResume_first s st env u q hu0 hin hlive hf]
    simp only [hins, Bool.false_eq_true, if_false]
    exact scoreOf_upsert st u 15 env.now
  | true =>
    rw [submitResume_later s st env u q hu0 hin hlive hf]
    simp only [hins, Bool.false_eq_true, if_false, if_true]
    exact scoreOf_upsert st u 10 env.now

/-- C11 (as amended): for a question and a correct answer to it by a known
user, the REST path adds 10 to the user's global score, and the real-time path
adds 10 when the bonus of the live question is taken and 15 when the answer is
the first correct one; so the two paths add the same points exactly when the
answer is not the first correct one of the live question. -/
theorem C11_same_base_points_bonus_only_realtime (s : Session) (st : Store) (env : Env)
    (sub : Submission) (renv : RestEnv) (req : SubmitRequest) (u : Nat) (q : Question)
    (hacc : acceptedUser s st.users sub = some u)
    (hlive : questionAt s.questions s.currentIndex = some q)
    (hans : sub.answer = JsVal.str q.correct) (hins : env.insertFails = false)
    (hu : jsTruthy req.user_id = true) (hq : jsTruthy req.question_id = true)
    (hr : resolveUserId st.users req.user_id = some u)
    (hfind : st.questions.find? (fun q => sqlIntEq q.id req.question_id) = some q)
    (hsel : req.selected = JsVal.str q.correct) (hok : renv.failAt = none) :
    scoreOf (restSubmitAnswer st renv req).store u = scoreOf st u + 10 ∧
    scoreOf (submitAnswer s st env sub).store u =
      scoreOf st u + (if s.firstAnswered then 10 else 15) ∧
    (scoreOf (submitAnswer s st env sub).store u =
      scoreOf (restSubmitAnswer st renv req).store u ↔ s.firstAnswered = true) := by
  have hu0 := (submitAnswer_of_accepted s st env sub u hacc).2.2.2.2.1
  have hs : req.selected ≠ JsVal.undefined := by rw [hsel]; simp
  have hrest := scoreOf_restSubmitAnswer st renv req u q hu hq hs hr hu0 hfind hok
  have hpts : (restPoints req q : Int) = 10 := by simp [restPoints, restIsCorrect, hsel]
  rw [hpts] at hrest
  have hsock := scoreOf_submitAnswer_correct s st env sub u q hacc hlive hans hins
  refine ⟨hrest, hsock, ?_⟩
  rw [hrest, hsock]
  cases s.firstAnswered <;> simp

/-- Witness of C11 (as amended): user 2 answers the first sample question
after user 1 took the bonus. -/
theorem C11_same_base_points_bonus_only_realtime_witness :
    scoreOf (restSubmitAnswer sampleRestStore sampleRestEnv sampleRequest).store 2 =
      scoreOf sampleRestStore 2 + 10 ∧
    scoreOf (submitAnswer sampleBonusTakenSession sampleRestStore sampleEnv
      sampleCorrectSub).store 2 =
      scoreOf sampleRestStore 2 + (if sampleBonusTakenSession.firstAnswered then 10 else 15) :=
  have h := C11_same_base_points_bonus_only_realtime sampleBonusTakenSession sampleRestStore
    sampleEnv sampleCorrectSub sampleRestEnv sampleRequest 2 sampleQ1 (by decide) (by decide)
    (by decide) (by decide) (by decide) (by decide) (by decide) (by decide) (by decide)
    (by decide)
  ⟨h.1, h.2.1⟩

/-- Counterexample to C11 as stated: from the same store, the same correct
answer of user 2 to the first sample question adds 15 to the global score over
the socket (it is the first correct answer) and 10 over REST. -/
theorem C11_counterexample :
    sampleCorrectSub.answer = JsVal.str sampleQ1.correct ∧
    sampleRequest.selected = JsVal.str sampleQ1.correct ∧
    scoreOf (submitAnswer sampleFreshSession sampleRestStore sampleEnv
      sampleCorrectSub).store 2 - scoreOf sampleRestStore 2 = 15 ∧
    scoreOf (restSubmitAnswer sampleRestStore sampleRestEnv sampleRequest).store 2 -
      scoreOf sampleRestStore 2 = 10 ∧
    scoreOf (submitAnswer sampleFreshSession sampleRestStore sampleEnv
      sampleCorrectSub).store 2 ≠
      scoreOf (restSubmitAnswer sampleRestStore sampleRestEnv sampleRequest).store 2 := by
  decide!

/-- A REST request whose statements all succeed adds `(points, 1, hit)` to the
user's global totals. -/
theorem perfTotals_restSubmitAnswer (st : Store) (env : RestEnv) (req : SubmitRequest)
    (u : Nat) (q : Question) (hu : jsTruthy req.user_id = true)
    (hq : jsTruthy req.question_id = true) (hs : req.selected ≠ JsVal.undefined)
    (hr : resolveUserId st.users req.user_id = some u) (hu0 : u ≠ 0)
    (hfind : st.questions.find? (fun q => sqlIntEq q.id req.question_id) = some q)
    (hok : env.failAt = none) :
    perfTotals (restSubmitAnswer st env req).store u =
      ((perfTotals st u).1 + (restPoints req q : Int), (perfTotals st u).2.1 + 1,
        (perfTotals st u).2.2 + restHit req q) := by
  unfold perfTotals
  rw [(restSubmitAnswer_effect st env req u q hu hq hs hr hu0 hfind hok).1]
  cases perfRowOf st u <;> simp [bumpedPerf]

/-- A REST request with a game name whose statements all succeed adds
`(points, 1, hit)` to the user's totals for that game. -/
theorem scoreTotals_restSubmitAnswer (st : Store) (env : RestEnv) (req : SubmitRequest)
    (u : Nat) (q : Question) (hu : jsTruthy req.user_id = true)
    (hq : jsTruthy req.question_id = true) (hs : req.selected ≠ JsVal.undefined)
    (hr : resolveUserId st.users req.user_id = some u) (hu0 : u ≠ 0)
    (hfind : st.questions.find? (fun q => sqlIntEq q.id req.question_id) = some q)
    (hok : env.failAt = none) (hg : jsTruthy req.game_name = true) :
    scoreTotals (restSubmitAnswer st env req).store u (jsString req.game_name) =
      ((scoreTotals st u (jsString req.game_name)).1 + (restPoints req q : Int),
        (scoreTotals st u (jsString req.game_name)).2.1 + 1,
        (scoreTotals st u (jsString req.game_name)).2.2 + restHit req q) := by
  have e6 := (restSubmitAnswer_effect st env req u q hu hq hs hr hu0 hfind hok).2.2.2.2.2
  have hrow : scoreRowOf (restSubmitAnswer st env req).store u (jsString req.game_name) =
      some (bumpedScore env.arith (scoreRowOf st u (jsString req.game_name)) u
        (jsString req.game_name) (restPoints req q) (restHit req q) env.now) := by
    rw [← scoreRowOf_restScoresStage st env req u q hg]
    unfold scoreRowOf
    rw [e6]
  unfold scoreTotals
  rw [hrow]
  cases scoreRowOf st u (jsString req.game_name) <;> simp [bumpedScore]

/-- C12 (as amended): on the socket path, a submission that resolves to a user
already recorded for the live question leaves the store, and so every stored
total, unchanged; on the REST path every successful `POST /submit-answer`, a
repeated one included, appends one answer record and adds
`(points, 1, isCorrect)` to the user's global totals and, when it names a game,
to the user's totals for that game, so the stored totals after it differ from
the totals before. -/
theorem C12_idempotent_socket_only (st : Store) (u : Nat) :
    (∀ (s : Session) (env : Env) (sub : Submission),
      s.acceptingAnswers = true → questionAt s.questions s.currentIndex ≠ none →
      jsTruthy sub.user_id = true → resolveUserId st.users sub.user_id = some u → u ≠ 0 →
      u ∈ s.answeredUsers →
      (submitAnswer s st env sub).store = st ∧ (submitAnswer s st env sub).sess = s) ∧
    (∀ (env : RestEnv) (req : SubmitRequest) (q : Question),
      jsTruthy req.user_id = true → jsTruthy req.question_id = true →
      req.selected ≠ JsVal.undefined → resolveUserId st.users req.user_id = some u → u ≠ 0 →
      st.questions.find? (fun q => sqlIntEq q.id req.question_id) = some q →
      env.failAt = none →
      (restSubmitAnswer st env req).store.answers = st.answers ++ [restAnswerRow req u q] ∧
      (restSubmitAnswer st env req).store.answers.length = st.answers.length + 1 ∧
      perfTotals (restSubmitAnswer st env req).store u =
        ((perfTotals st u).1 + (restPoints req q : Int), (perfTotals st u).2.1 + 1,
          (perfTotals st u).2.2 + restHit req q) ∧
      perfTotals (restSubmitAnswer st env req).store u ≠ perfTotals st u ∧
      (jsTruthy req.game_name = true →
        scoreTotals (restSubmitAnswer st env req).store u (jsString req.game_name) =
          ((scoreTotals st u (jsString req.game_name)).1 + (restPoints req q : Int),
            (scoreTotals st u (jsString req.game_name)).2.1 + 1,
            (scoreTotals st u (jsString req.game_name)).2.2 + restHit req q) ∧
        scoreTotals (restSubmitAnswer st env req).store u (jsString req.game_name) ≠
          scoreTotals st u (jsString req.game_name))) := by
  constructor
  · intro s env sub ha hq hb hr hu hin
    obtain ⟨q, hq⟩ := Option.ne_none_iff_exists'.mp hq
    rw [submitAnswer_resolve s st env sub q ha hq hb, hr,
      submitResume_already s st env u _ hu hin]
    exact ⟨rfl, rfl⟩
  · intro env req q hu hq hs hr hu0 hfind hok
    have h := perfTotals_restSubmitAnswer st env req u q hu hq hs hr hu0 hfind hok
    have ha := (restSubmitAnswer_effect st env req u q hu hq hs hr hu0 hfind hok).2.2.1
    refine ⟨ha, by rw [ha]; simp, h, ?_, ?_⟩
    · rw [h]
      intro heq
      have h2 := congrArg (fun t => t.2.1) heq
      simp at h2
    · intro hg
      have hsc := scoreTotals_restSubmitAnswer st env req u q hu hq hs hr hu0 hfind hok hg
      refine ⟨hsc, ?_⟩
      rw [hsc]
      intro heq
      have h2 := congrArg (fun t => t.2.1) heq
      simp at h2

/-- Witness of C12 (as amended): user 1, already recorded in the sample
session, submits again over the socket; user 2 posts the sample request, which
names the game `quiz`. -/
theorem C12_idempotent_socket_only_witness :
    (submitAnswer sampleSession sampleRestStore sampleEnv
      { user_id := .str "alice", answer := .str "4" }).store = sampleRestStore ∧
    (restSubmitAnswer sampleRestStore sampleRestEnv sampleRequest).store.answers =
      sampleRestStore.answers ++ [restAnswerRow sampleRequest 2 sampleQ1] ∧
    perfTotals (restSubmitAnswer sampleRestStore sampleRestEnv sampleRequest).store 2 ≠
      perfTotals sampleRestStore 2 ∧
    scoreTotals (restSubmitAnswer sampleRestStore sampleRestEnv sampleRequest).store 2
        (jsString sampleRequest.game_name) ≠
      scoreTotals sampleRestStore 2 (jsString sampleRequest.game_name) :=
  have h := (C12_idempotent_socket_only sampleRestStore 2).2 sampleRestEnv sampleRequest
    sampleQ1 (by decide) (by decide) (by decide) (by decide) (by decide) (by decide)
    (by decide)
  ⟨((C12_idempotent_socket_only sampleRestStore 1).1 sampleSession sampleEnv
      { user_id := .str "alice", answer := .str "4" } (by decide) (by decide) (by decide)
      (by decide) (by decide) (by decide)).1,
   h.1, h.2.2.2.1, (h.2.2.2.2 (by decide)).2⟩

/-- Counterexample to C12 as stated: the sample request posted twice. The
first call records the answer with totals `(10, 1, 1)`; the same request again
is answered with success and leaves `(20, 2, 2)`. -/
theorem C12_counterexample :
    perfTotals (restSubmitAnswer sampleRestStore sampleRestEnv sampleRequest).store 2 =
      (10, 1, 1) ∧
    (restSubmitAnswer (restSubmitAnswer sampleRestStore sampleRestEnv sampleRequest).store
      sampleRestEnv sampleRequest).response = .ok true 10 20 2 2 100 ∧
    perfTotals (restSubmitAnswer
      (restSubmitAnswer sampleRestStore sampleRestEnv sampleRequest).store
      sampleRestEnv sampleRequest).store 2 = (20, 2, 2) ∧
    scoreTotals (restSubmitAnswer
      (restSubmitAnswer sampleRestStore sampleRestEnv sampleRequest).store
      sampleRestEnv sampleRequest).store 2 "quiz" = (20, 2, 2) ∧
    perfTotals (restSubmitAnswer
      (restSubmitAnswer sampleRestStore sampleRestEnv sampleRequest).store
      sampleRestEnv sampleRequest).store 2 ≠
      perfTotals (restSubmitAnswer sampleRestStore sampleRestEnv sampleRequest).store 2 := by
  decide!

/-! ## Additive scores on the real-time path -/

/-- C13: after `N` accepted correct real-time answers of one user whose
inserts succeed, the user's stored score has grown by `10 * N` plus 5 for each
answer that was the first correct one of its question, whatever the score was
before; so by exactly `10 * N` when none was first-correct and by `10 * N + 5`
when exactly one was. -/
theorem C13_score_is_additive (st : Store) (u : Nat) (xs : List (Session × Env × Submission))
    (h : ∀ x ∈ xs, acceptedUser x.1 st.users x.2.2 = some u ∧
      (questionAt x.1.questions x.1.currentIndex).map (fun q => JsVal.str q.correct) =
        some x.2.2.answer ∧
      x.2.1.insertFails = false) :
    scoreOf (runScored st xs) u =
      scoreOf st u + 10 * (xs.length : Int) +
        5 * ((xs.countP (fun x => !x.1.firstAnswered) : Nat) : Int) ∧
    ((∀ x ∈ xs, x.1.firstAnswered = true) →
      scoreOf (runScored st xs) u = scoreOf st u + 10 * (xs.length : Int)) ∧
    (xs.countP (fun x => !x.1.firstAnswered) = 1 →
      scoreOf (runScored st xs) u = scoreOf st u + 10 * (xs.length : Int) + 5) := by
  have main : scoreOf (runScored st xs) u =
      scoreOf st u + 10 * (xs.length : Int) +
        5 * ((xs.countP (fun x => !x.1.firstAnswered) : Nat) : Int) := by
    induction xs generalizing st with
    | nil => simp [runScored]
    | cons x rest ih =>
      obtain ⟨hacc, hcorr, hins⟩ := h x (by simp)
      obtain ⟨q, hq, hans⟩ : ∃ q, questionAt x.1.questions x.1.currentIndex = some q ∧
          x.2.2.answer = JsVal.str q.correct := by
        cases hq : questionAt x.1.questions x.1.currentIndex with
        | none => simp [hq] at hcorr
        | some q =>
          simp only [hq, Option.map_some', Option.some.injEq] at hcorr
          exact ⟨q, rfl, hcorr.symm⟩
      have hstep := scoreOf_submitAnswer_correct x.1 st x.2.1 x.2.2 u q hacc hq hans hins
      have husers := (submitAnswer_frame x.1 st x.2.1 x.2.2).2.2.2.1
      have ih2 := ih (submitAnswer x.1 st x.2.1 x.2.2).store (by
        intro y hy
        rw [husers]
        exact h y (by simp [hy]))
      simp only [runScored]
      rw [ih2, hstep, List.countP_cons, List.length_cons]
      cases x.1.firstAnswered <;> simp <;> omega
  refine ⟨main, ?_, ?_⟩
  · intro hall
    have hzero : xs.countP (fun x => !x.1.firstAnswered) = 0 := by
      rw [List.countP_eq_zero]
      intro x hx
      simp [hall x hx]
    rw [main, hzero]
    simp
  · intro hone
    rw [main, hone]
    simp

/-- Witness of C13: three correct answers of user 2, the first of them
first-correct, raise the score from 0 to 35. -/
theorem C13_score_is_additive_witness :
    sampleScored.countP (fun x => !x.1.firstAnswered) = 1 ∧
    scoreOf (runScored sampleRestStore sampleScored) 2 =
      scoreOf sampleRestStore 2 + 10 * (sampleScored.length : Int) + 5 :=
  ⟨by decide,
    (C13_score_is_additive sampleRestStore 2 sampleScored (by decide)).2.2 (by decide)⟩

/-- C14 (the code at the failing input): user 2, who has no `performance` row,
gives an accepted correct real-time answer: the row written has the score 15
and `attempts`, `correct` and `accuracy` all 0. User 1, whose row holds
`(40, 4, 4)` with accuracy 100, gives an accepted wrong answer: the store is
not written at all; and an accepted correct answer of user 1 changes the score
only. The same answer of user 2 over REST counts the attempt. -/
theorem C14_realtime_leaves_attempts_untouched :
    acceptedUser sampleFreshSession sampleRestStore.users sampleCorrectSub = some 2 ∧
    perfRowOf sampleRestStore 2 = none ∧
    perfRowOf (submitAnswer sampleFreshSession sampleRestStore sampleEnv
      sampleCorrectSub).store 2 =
      some { user_id := 2, score := 15, attempts := 0, correct := 0, accuracy := 0,
             last_update := 9 } ∧
    acceptedUser sampleFreshSession sampleRestStore.users
      { user_id := .num 1, answer := .str "3" } = some 1 ∧
    (submitAnswer sampleFreshSession sampleRestStore sampleEnv
      { user_id := .num 1, answer := .str "3" }).store = sampleRestStore ∧
    perfRowOf (submitAnswer sampleFreshSession sampleRestStore sampleEnv
      { user_id := .num 1, answer := .str "4" }).store 1 =
      some { user_id := 1, score := 55, attempts := 4, correct := 4, accuracy := 100,
             last_update := 9 } ∧
    perfRowOf (restSubmitAnswer sampleRestStore sampleRestEnv sampleRequest).store 2 =
      some { user_id := 2, score := 10, attempts := 1, correct := 1, accuracy := 100,
             last_update := 9 } := by
  decide!

/-- The accuracy of totals with at least one attempt. -/
theorem accuracyOf_succ (percent : Nat → Nat → Rat) (correct attempts : Nat) :
    accuracyOf percent correct (attempts + 1) = percent correct (attempts + 1) := by
  simp [accuracyOf]

/-- The expected `performance` row carries the accuracy of its own totals. -/
theorem bumpedPerf_accuracy (arith : Arith) (old : Option PerfRow) (u : Nat) (points : Int)
    (hit now : Nat) :
    (bumpedPerf arith old u points hit now).accuracy =
      arith.toColumn (arith.jsPercent (bumpedPerf arith old u points hit now).correct
        (bumpedPerf arith old u points hit now).attempts) ∧
    1 ≤ (bumpedPerf arith old u points hit now).attempts := by
  cases old with
  | none => simp [bumpedPerf]
  | some r => simp [bumpedPerf]

/-- The expected `scores` row carries the accuracy of its own totals. -/
theorem bumpedScore_accuracy (arith : Arith) (old : Option ScoreRow) (u : Nat)
    (game : String) (points : Int) (hit now : Nat) :
    (bumpedScore arith old u game points hit now).accuracy =
      arith.sqlPercent (bumpedScore arith old u game points hit now).correct
        (bumpedScore arith old u game points hit now).attempts ∧
    1 ≤ (bumpedScore arith old u game points hit now).attempts := by
  cases old with
  | none => simp [bumpedScore]
  | some r => simp [bumpedScore]

/-- C15: a `POST /submit-answer` whose statements all succeed, for a known user
and an existing question: `points` is 10 if the selected value equals the
stored correct text and 0 otherwise; the user's global totals grow by exactly
`(points, 1, isCorrect)`; the response carries these new totals and, as
accuracy, the value the engine computes for `correct / attempts * 100` of the
new totals, and the stored accuracy of the global row is that value as the
column holds it; one answer record is appended. With a game name the
`(user, game_name)` totals grow by the same amounts and that row's accuracy is
the value the store computes for `correct / attempts * 100` of its new totals;
without a game name the `scores` table is unchanged. The arithmetic of the
engine and of the store is the one of the environment, whatever it is; where
it is exact the accuracies are `correct / attempts * 100`. -/
theorem C15_rest_submit_updates_aggregates (st : Store) (env : RestEnv)
    (req : SubmitRequest) (u : Nat) (q : Question)
    (hu : jsTruthy req.user_id = true) (hq : jsTruthy req.question_id = true)
    (hs : req.selected ≠ JsVal.undefined) (hr : resolveUserId st.users req.user_id = some u)
    (hu0 : u ≠ 0)
    (hfind : st.questions.find? (fun q => sqlIntEq q.id req.question_id) = some q)
    (hok : env.failAt = none) :
    (restIsCorrect req q = true ↔ req.selected = JsVal.str q.correct) ∧
    restPoints req q = (if req.selected = JsVal.str q.correct then 10 else 0) ∧
    restHit req q = (if req.selected = JsVal.str q.correct then 1 else 0) ∧
    perfTotals (restSubmitAnswer st env req).store u =
      ((perfTotals st u).1 + (restPoints req q : Int), (perfTotals st u).2.1 + 1,
        (perfTotals st u).2.2 + restHit req q) ∧
    (∃ r, perfRowOf (restSubmitAnswer st env req).store u = some r ∧
      1 ≤ r.attempts ∧
      r.accuracy = env.arith.toColumn (env.arith.jsPercent r.correct r.attempts) ∧
      (restSubmitAnswer st env req).response =
        .ok (restIsCorrect req q) (restPoints req q) r.score r.attempts r.correct
          (env.arith.jsPercent r.correct r.attempts) ∧
      (env.arith = exactArith →
        r.accuracy = (r.correct : Rat) / (r.attempts : Rat) * 100 ∧
        (restSubmitAnswer st env req).response =
          .ok (restIsCorrect req q) (restPoints req q) r.score r.attempts r.correct
            r.accuracy)) ∧
    (restSubmitAnswer st env req).store.answers = st.answers ++ [restAnswerRow req u q] ∧
    (jsTruthy req.game_name = true →
      scoreTotals (restSubmitAnswer st env req).store u (jsString req.game_name) =
        ((scoreTotals st u (jsString req.game_name)).1 + (restPoints req q : Int),
          (scoreTotals st u (jsString req.game_name)).2.1 + 1,
          (scoreTotals st u (jsString req.game_name)).2.2 + restHit req q) ∧
      ∃ r, scoreRowOf (restSubmitAnswer st env req).store u (jsString req.game_name) = some r ∧
        1 ≤ r.attempts ∧
        r.accuracy = env.arith.sqlPercent r.correct r.attempts ∧
        (env.arith = exactArith →
          r.accuracy = (r.correct : Rat) / (r.attempts : Rat) * 100)) ∧
    (jsTruthy req.game_name = false →
      (restSubmitAnswer st env req).store.scores = st.scores) := by
  obtain ⟨e1, e2, e3, -, -, e6⟩ := restSubmitAnswer_effect st env req u q hu hq hs hr hu0 hfind hok
  obtain ⟨hacc, hatt⟩ := bumpedPerf_accuracy env.arith (perfRowOf st u) u (restPoints req q)
    (restHit req q) env.now
  refine ⟨by simp [restIsCorrect], by simp [restPoints, restIsCorrect],
    by simp [restHit, restIsCorrect],
    perfTotals_restSubmitAnswer st env req u q hu hq hs hr hu0 hfind hok,
    ⟨_, e1, hatt, hacc, e2, ?_⟩, e3, ?_, ?_⟩
  · intro hex
    rw [hacc, e2, hex]
    exact ⟨rfl, rfl⟩
  · intro hg
    have hrow : scoreRowOf (restSubmitAnswer st env req).store u (jsString req.game_name) =
        some (bumpedScore env.arith (scoreRowOf st u (jsString req.game_name)) u
          (jsString req.game_name) (restPoints req q) (restHit req q) env.now) := by
      rw [← scoreRowOf_restScoresStage st env req u q hg]
      unfold scoreRowOf
      rw [e6]
    obtain ⟨hsacc, hsatt⟩ := bumpedScore_accuracy env.arith
      (scoreRowOf st u (jsString req.game_name)) u (jsString req.game_name)
      (restPoints req q) (restHit req q) env.now
    refine ⟨?_, _, hrow, hsatt, hsacc, ?_⟩
    · unfold scoreTotals
      rw [hrow]
      cases scoreRowOf st u (jsString req.game_name) <;> simp [bumpedScore]
    · intro hex
      rw [hsacc, hex]
      rfl
  · intro hg
    rw [e6]
    simp [restScoresStage, hg]

/-- Witness of C15: user 2 posts the sample request for the game `quiz`; the
first answer, a correct one, gives the totals `(10, 1, 1)` and the accuracy
100 in the response. -/
theorem C15_rest_submit_updates_aggregates_witness :
    perfTotals (restSubmitAnswer sampleRestStore sampleRestEnv sampleRequest).store 2 =
      ((perfTotals sampleRestStore 2).1 + (restPoints sampleRequest sampleQ1 : Int),
        (perfTotals sampleRestStore 2).2.1 + 1,
        (perfTotals sampleRestStore 2).2.2 + restHit sampleRequest sampleQ1) ∧
    (restSubmitAnswer sampleRestStore sampleRestEnv sampleRequest).store.answers =
      sampleRestStore.answers ++ [restAnswerRow sampleRequest 2 sampleQ1] ∧
    (restSubmitAnswer sampleRestStore sampleRestEnv sampleRequest).response =
      .ok true 10 10 1 1 100 :=
  have h := C15_rest_submit_updates_aggregates sampleRestStore sampleRestEnv sampleRequest 2
    sampleQ1 (by decide) (by decide) (by decide) (by decide) (by decide) (by decide)
    (by decide)
  ⟨h.2.2.2.1, h.2.2.2.2.2.1, by decide!⟩

/-- A statement either throws or goes on. -/
theorem txStatement_cases (env : RestEnv) (i : Nat) :
    txStatement env i = none ∨ txStatement env i = some () := by
  unfold txStatement
  split
  · exact Or.inl rfl
  · exact Or.inr rfl

/-- A transaction that ends without an exception either succeeded or returned
early with the store as it was. -/
theorem restTransaction_rollback (st : Store) (env : RestEnv) (req : SubmitRequest) (u : Nat)
    (r : RestResult) (h : restTransaction st env req u = some r) :
    r.response.isOk = true ∨ r = { store := st, response := .questionNotFound } := by
  unfold restTransaction at h
  rcases txStatement_cases env 0 with h0 | h0 <;> simp [h0] at h
  rcases txStatement_cases env 1 with h1 | h1 <;> simp [h1] at h
  cases hfind : st.questions.find? (fun q => sqlIntEq q.id req.question_id) with
  | none =>
    simp [hfind] at h
    exact Or.inr h.symm
  | some q =>
    simp only [hfind] at h
    left
    rcases txStatement_cases env 2 with h2 | h2 <;> simp [h2] at h
    cases hg : jsTruthy req.game_name with
    | false =>
      simp [hg] at h
      rcases txStatement_cases env 6 with h6 | h6 <;> simp [h6] at h
      rcases txStatement_cases env 7 with h7 | h7 <;> simp [h7] at h
      split at h
      · cases h
      · rcases txStatement_cases env 8 with h8 | h8 <;> simp [h8] at h
        rcases txStatement_cases env 9 with h9 | h9 <;> simp [h9] at h
        rw [← h]
        rfl
    | true =>
      simp [hg] at h
      rcases txStatement_cases env 3 with h3 | h3 <;> simp [h3] at h
      rcases txStatement_cases env 4 with h4 | h4 <;> simp [h4] at h
      rcases txStatement_cases env 5 with h5 | h5 <;> simp [h5] at h
      rcases txStatement_cases env 6 with h6 | h6 <;> simp [h6] at h
      rcases txStatement_cases env 7 with h7 | h7 <;> simp [h7] at h
      split at h
      · cases h
      · rcases txStatement_cases env 8 with h8 | h8 <;> simp [h8] at h
        rcases txStatement_cases env 9 with h9 | h9 <;> simp [h9] at h
        rw [← h]
        rfl

/-- A rejected statement of a transaction that reaches all its statements makes
the `try` block throw. -/
theorem restTransaction_fails (st : Store) (env : RestEnv) (req : SubmitRequest) (u : Nat)
    (q : Question) (k : Nat)
    (hfind : st.questions.find? (fun q => sqlIntEq q.id req.question_id) = some q)
    (hg : jsTruthy req.game_name = true) (hk : env.failAt = some k) (hk9 : k ≤ 9) :
    restTransaction st env req u = none := by
  unfold restTransaction
  interval_cases k <;> simp [txStatement, hk, hfind, hg] <;> split <;> simp

/-- A request that is not answered with success leaves the store as it was. -/
theorem restSubmitAnswer_atomic (st : Store) (env : RestEnv) (req : SubmitRequest)
    (h : (restSubmitAnswer st env req).response.isOk = false) :
    (restSubmitAnswer st env req).store = st := by
  by_cases hc : (!jsTruthy req.user_id || !jsTruthy req.question_id ||
      req.selected == JsVal.undefined) = true
  · simp [restSubmitAnswer, hc]
  · cases hr : resolveUserId st.users req.user_id with
    | none => simp [restSubmitAnswer, hc, hr]
    | some u =>
      by_cases hu0 : u = 0
      · simp [restSubmitAnswer, hc, hr, hu0]
      · cases ht : restTransaction st env req u with
        | none => simp [restSubmitAnswer, hc, hr, hu0, ht]
        | some r =>
          have heq : restSubmitAnswer st env req = r := by
            simp [restSubmitAnswer, hc, hr, hu0, ht]
          rw [heq] at h ⊢
          rcases restTransaction_rollback st env req u r ht with hok | hr2
          · rw [hok] at h
            cases h
          · rw [hr2]

/-- C16: `POST /submit-answer` is atomic on failure. A missing field is
answered 400, an unknown user 404, a missing question 404, and a rejected
statement of the transaction 500, each with the store exactly as it was; and
whenever the response is not the success body, the store (answer records,
per-game scores, global performance) is unchanged. -/
theorem C16_rest_failure_is_atomic (st : Store) (env : RestEnv) (req : SubmitRequest) :
    ((jsTruthy req.user_id = false ∨ jsTruthy req.question_id = false ∨
        req.selected = JsVal.undefined) →
      restSubmitAnswer st env req = { store := st, response := .badRequest }) ∧
    (jsTruthy req.user_id = true → jsTruthy req.question_id = true →
      req.selected ≠ JsVal.undefined →
      (resolveUserId st.users req.user_id = none ∨
        resolveUserId st.users req.user_id = some 0) →
      restSubmitAnswer st env req = { store := st, response := .userNotFound }) ∧
    (jsTruthy req.user_id = true → jsTruthy req.question_id = true →
      req.selected ≠ JsVal.undefined →
      ∀ u, resolveUserId st.users req.user_id = some u → u ≠ 0 →
      env.failAt ≠ some 0 → env.failAt ≠ some 1 →
      st.questions.find? (fun q => sqlIntEq q.id req.question_id) = none →
      restSubmitAnswer st env req = { store := st, response := .questionNotFound }) ∧
    (jsTruthy req.user_id = true → jsTruthy req.question_id = true →
      req.selected ≠ JsVal.undefined →
      ∀ u q k, resolveUserId st.users req.user_id = some u → u ≠ 0 →
      st.questions.find? (fun q => sqlIntEq q.id req.question_id) = some q →
      jsTruthy req.game_name = true → env.failAt = some k → k ≤ 9 →
      restSubmitAnswer st env req = { store := st, response := .serverError }) ∧
    ((restSubmitAnswer st env req).response.isOk = false →
      (restSubmitAnswer st env req).store = st ∧
      (restSubmitAnswer st env req).store.answers = st.answers ∧
      (restSubmitAnswer st env req).store.scores = st.scores ∧
      (restSubmitAnswer st env req).store.performance = st.performance) := by
  refine ⟨?_, ?_, ?_, ?_, ?_⟩
  · intro h
    rcases h with h | h | h <;> simp [restSubmitAnswer, h]
  · intro hu hq hs hr
    rcases hr with hr | hr <;> simp [restSubmitAnswer, hu, hq, hs, hr]
  · intro hu hq hs u hr hu0 h0 h1 hfind
    simp [restSubmitAnswer, hu, hq, hs, hr, hu0, restTransaction, txStatement, h0, h1, hfind]
  · intro hu hq hs u q k hr hu0 hfind hg hk hk9
    simp [restSubmitAnswer, hu, hq, hs, hr, hu0,
      restTransaction_fails st env req u q k hfind hg hk hk9]
  · intro h
    have hst := restSubmitAnswer_atomic st env req h
    rw [hst]
    exact ⟨rfl, rfl, rfl, rfl⟩

/-- Witness of C16: the statement `INSERT INTO performance` of the sample
request is rejected after the answer record and the per-game score were
written in the transaction. -/
theorem C16_rest_failure_is_atomic_witness :
    restSubmitAnswer sampleRestStore { now := 9, failAt := some 6 } sampleRequest =
      { store := sampleRestStore, response := .serverError } :=
  (C16_rest_failure_is_atomic sampleRestStore { now := 9, failAt := some 6 }
    sampleRequest).2.2.2.1 (by decide) (by decide) (by decide) 2 sampleQ1 6 (by decide)
    (by decide) (by decide) (by decide) (by decide) (by decide)

/-! ## The global leaderboard -/

/-- The first match is the head of the matches. -/
theorem find_eq_head_filter {α : Type} (l : List α) (p : α → Bool) :
    l.find? p = (l.filter p).head? := by
  induction l with
  | nil => rfl
  | cons a l ih =>
    rw [List.find?_cons, List.filter_cons]
    cases hp : p a with
    | true => rfl
    | false => exact ih

/-- With at most one `performance` row for the user, the join yields one row
for the user, with the user's score. -/
theorem leaderboardJoin_row (st : Store) (u : User)
    (h : (st.performance.filter (fun r => r.user_id == u.user_id)).length ≤ 1) :
    ∃ row : LeaderboardRow,
      (match st.performance.filter (fun r => r.user_id == u.user_id) with
        | [] => [{ user_id := u.user_id, uid := u.uid, display_name := coalesceName u,
                   score := 0, last_update := none }]
        | rs => rs.map (fun r =>
            ({ user_id := u.user_id, uid := u.uid, display_name := coalesceName u,
               score := r.score, last_update := some r.last_update } : LeaderboardRow))) =
        [row] ∧
      row.user_id = u.user_id ∧ row.score = scoreOf st u.user_id := by
  have hscore : scoreOf st u.user_id =
      match (st.performance.filter (fun r => r.user_id == u.user_id)).head? with
      | some r => r.score
      | none => 0 := by
    unfold scoreOf
    rw [find_eq_head_filter]
  rw [hscore]
  cases hf : st.performance.filter (fun r => r.user_id == u.user_id) with
  | nil => exact ⟨_, rfl, rfl, rfl⟩
  | cons r rs =>
    rw [hf] at h
    have hrs : rs = [] := by
      cases rs with
      | nil => rfl
      | cons _ _ => simp at h
    subst hrs
    exact ⟨_, rfl, rfl, rfl⟩

/-- With at most one `performance` row per user, the join has one row per row
of `users`, in the order of `users`, each with the user's score. -/
theorem leaderboardJoin_one_per_user (st : Store)
    (h : ∀ u : Nat, (st.performance.filter (fun r => r.user_id == u)).length ≤ 1) :
    (leaderboardJoin st).map (fun r => r.user_id) = st.users.map (fun u => u.user_id) ∧
    ∀ r ∈ leaderboardJoin st, r.score = scoreOf st r.user_id := by
  unfold leaderboardJoin
  induction st.users with
  | nil => simp
  | cons u us ih =>
    obtain ⟨row, hrow, hid, hsc⟩ := leaderboardJoin_row st u (h u.user_id)
    rw [List.flatMap_cons, hrow]
    constructor
    · simp only [List.singleton_append, List.map_cons, hid, ih.1]
    · intro r hr
      simp only [List.singleton_append, List.mem_cons] at hr
      rcases hr with hr | hr
      · rw [hr, hsc, hid]
      · exact ih.2 r hr

/-- C17: for every store and limit `N`, `fetchGlobalLeaderboard` returns the
first `N` rows of the join of `users` with `performance` in the order score
descending and, among equal scores, `last_update` ascending: exactly
`min N (number of joined rows)` rows, so at most `N`; in that order; together
with the rows it leaves out they are exactly the rows of the join, and every
row left out ranks no higher than every row returned; a user without a
`performance` row appears with score 0; when `performance` holds at most one
row per user, the join has one row per user, carrying the user's stored score,
and the result has `min N (number of users)` rows; a call without argument uses
`N = 10`. The query is a function of the store and returns rows only. -/
theorem C17_global_leaderboard (st : Store) (limit : Nat) :
    (fetchGlobalLeaderboard st limit).length = min limit (leaderboardJoin st).length ∧
    (fetchGlobalLeaderboard st limit).length ≤ limit ∧
    (fetchGlobalLeaderboard st limit).Pairwise leaderboardBefore ∧
    (∀ r ∈ fetchGlobalLeaderboard st limit, r ∈ leaderboardJoin st) ∧
    (∃ omitted, ((fetchGlobalLeaderboard st limit) ++ omitted).Perm (leaderboardJoin st) ∧
      omitted.length = (leaderboardJoin st).length - limit ∧
      ∀ r ∈ fetchGlobalLeaderboard st limit, ∀ o ∈ omitted, leaderboardBefore r o) ∧
    ((leaderboardJoin st).length ≤ limit →
      (fetchGlobalLeaderboard st limit).Perm (leaderboardJoin st)) ∧
    (∀ u ∈ st.users, st.performance.filter (fun r => r.user_id == u.user_id) = [] →
      ({ user_id := u.user_id, uid := u.uid, display_name := coalesceName u, score := 0,
         last_update := none } : LeaderboardRow) ∈ leaderboardJoin st) ∧
    ((∀ u : Nat, (st.performance.filter (fun r => r.user_id == u)).length ≤ 1) →
      (leaderboardJoin st).map (fun r => r.user_id) = st.users.map (fun u => u.user_id) ∧
      (∀ r ∈ leaderboardJoin st, r.score = scoreOf st r.user_id) ∧
      (fetchGlobalLeaderboard st limit).length = min limit st.users.length) ∧
    fetchGlobalLeaderboardCall st none = fetchGlobalLeaderboard st 10 ∧
    fetchGlobalLeaderboardCall st (some limit) = fetchGlobalLeaderboard st limit := by
  have hsorted : ((leaderboardJoin st).insertionSort leaderboardBefore).Pairwise
      leaderboardBefore := List.sorted_insertionSort leaderboardBefore (leaderboardJoin st)
  have hperm := List.perm_insertionSort leaderboardBefore (leaderboardJoin st)
  have hsplit : (fetchGlobalLeaderboard st limit) ++
      ((leaderboardJoin st).insertionSort leaderboardBefore).drop limit =
      (leaderboardJoin st).insertionSort leaderboardBefore := List.take_append_drop _ _
  have hlen : (fetchGlobalLeaderboard st limit).length = min limit (leaderboardJoin st).length := by
    unfold fetchGlobalLeaderboard
    rw [List.length_take, hperm.length_eq]
  refine ⟨hlen, ?_, ?_, ?_,
    ⟨((leaderboardJoin st).insertionSort leaderboardBefore).drop limit, ?_, ?_, ?_⟩,
    ?_, ?_, ?_, rfl, rfl⟩
  · rw [hlen]
    exact Nat.min_le_left _ _
  · exact hsorted.sublist (List.take_sublist _ _)
  · intro r hr
    exact hperm.subset ((List.take_sublist _ _).subset hr)
  · rw [hsplit]
    exact hperm
  · rw [List.length_drop, hperm.length_eq]
  · rw [← hsplit] at hsorted
    exact (List.pairwise_append.mp hsorted).2.2
  · intro hle
    have hall : fetchGlobalLeaderboard st limit =
        (leaderboardJoin st).insertionSort leaderboardBefore := by
      unfold fetchGlobalLeaderboard
      exact List.take_of_length_le (by rw [hperm.length_eq]; exact hle)
    rw [hall]
    exact hperm
  · intro u hu hnone
    unfold leaderboardJoin
    rw [List.mem_flatMap]
    refine ⟨u, hu, ?_⟩
    rw [hnone]
    simp
  · intro hone
    obtain ⟨h1, h2⟩ := leaderboardJoin_one_per_user st hone
    refine ⟨h1, h2, ?_⟩
    have hl := congrArg List.length h1
    rw [List.length_map, List.length_map] at hl
    rw [hlen, hl]

/-- Witness of C17 on the sample store, whose `performance` table holds one
row, for user 1, with score 40: the query for one row returns user 1, and the
query for ten rows returns user 1 and then user 2 with score 0. -/
theorem C17_global_leaderboard_witness :
    ((leaderboardJoin sampleStore).map (fun r => r.user_id) =
        sampleStore.users.map (fun u => u.user_id) ∧
      (∀ r ∈ leaderboardJoin sampleStore, r.score = scoreOf sampleStore r.user_id) ∧
      (fetchGlobalLeaderboard sampleStore 1).length = min 1 sampleStore.users.length) ∧
    fetchGlobalLeaderboard sampleStore 1 =
      [{ user_id := 1, uid := some "alice", display_name := some "Alice", score := 40,
         last_update := some 7 }] ∧
    fetchGlobalLeaderboardCall sampleStore none =
      [{ user_id := 1, uid := some "alice", display_name := some "Alice", score := 40,
         last_update := some 7 },
       { user_id := 2, uid := some "bob", display_name := some "bob", score := 0,
         last_update := none }] :=
  ⟨(C17_global_leaderboard sampleStore 1).2.2.2.2.2.2.2.1 (by
      intro u
      by_cases hu : u = 1
      · subst hu; decide
      · have h : (1 == u) = false := by simpa using fun h => hu h.symm
        simp [sampleStore, List.filter, h]),
    by decide, by decide⟩

/-! ## Game-code issuance -/

/-- C18 (the code at the failing input): when `Math.random()` returns `0.5`,
whose base-36 text is `0.i`, `genCandidateCode` returns the one-character code
`I`, and `generateUniqueGameCode` on a table without that code returns it after
one uniqueness query; when `Math.random()` returns `0`, the candidate is the
empty string. -/
theorem C18_candidate_shorter_than_six :
    exactBase36 1 2 = "0.i" ∧
    genCandidateCode (exactBase36 1 2) = "I" ∧
    (genCandidateCode (exactBase36 1 2)).length = 1 ∧
    generateUniqueGameCode sampleSessions (fun _ => exactBase36 1 2) 1700000006789 =
      { code := "I", queries := 1 } ∧
    genCandidateCode (exactBase36 0 1) = "" ∧
    (genCandidateCode "0.4fzyo82mvyr").length = 6 := by
  decide

/-- The loop from round `tries` on, when the next `remaining` candidates all
collide: it falls back after `remaining` more queries. -/
theorem generateLoop_all_collide (sessions : List GameSession) (random : Nat → String)
    (now : Nat) (remaining tries : Nat)
    (h : ∀ j, j < remaining → codeExists sessions (genCandidateCode (random (tries + j))) = true) :
    generateLoop sessions random now remaining tries =
      { code := fallbackCode now, queries := tries + remaining } := by
  induction remaining generalizing tries with
  | zero => simp [generateLoop]
  | succ n ih =>
    have h0 := h 0 (by omega)
    simp only [Nat.add_zero] at h0
    simp only [generateLoop, h0, if_true]
    rw [ih (tries + 1) (by
      intro j hj
      have := h (j + 1) (by omega)
      rwa [show tries + (j + 1) = tries + 1 + j by omega] at this)]
    congr 1
    omega

/-- The loop from round `tries` on, when the candidate `i` rounds later is the
first that does not collide: it returns that candidate after `i + 1` more
queries. -/
theorem generateLoop_first_free (sessions : List GameSession) (random : Nat → String)
    (now : Nat) (remaining tries i : Nat) (hi : i < remaining)
    (hfree : codeExists sessions (genCandidateCode (random (tries + i))) = false)
    (h : ∀ j, j < i → codeExists sessions (genCandidateCode (random (tries + j))) = true) :
    generateLoop sessions random now remaining tries =
      { code := genCandidateCode (random (tries + i)), queries := tries + i + 1 } := by
  induction i generalizing remaining tries with
  | zero =>
    obtain ⟨n, rfl⟩ : ∃ n, remaining = n + 1 := ⟨remaining - 1, by omega⟩
    simp only [Nat.add_zero] at hfree
    simp [generateLoop, hfree]
  | succ i ih =>
    obtain ⟨n, rfl⟩ : ∃ n, remaining = n + 1 := ⟨remaining - 1, by omega⟩
    have h0 := h 0 (by omega)
    simp only [Nat.add_zero] at h0
    simp only [generateLoop, h0, if_true]
    rw [ih n (tries + 1) (by omega)
      (by rwa [show tries + 1 + i = tries + (i + 1) by omega])
      (by
        intro j hj
        have := h (j + 1) (by omega)
        rwa [show tries + (j + 1) = tries + 1 + j by omega] at this)]
    rw [show tries + 1 + i = tries + (i + 1) by omega]

/-- C19 (as amended): for every table of sessions and every sequence of
candidates, `generateUniqueGameCode` runs at most 20 uniqueness queries; it
returns the first of the 20 candidates that is absent from the existing codes,
after one query per candidate tried, and that code is not an existing code; if
all 20 candidates collide it returns, after 20 queries, the fallback `WW`
followed by the last four characters of the decimal time in milliseconds,
which is returned without a uniqueness query. -/
theorem C19_bounded_retries_then_fallback (sessions : List GameSession)
    (random : Nat → String) (now : Nat) :
    (generateUniqueGameCode sessions random now).queries ≤ 20 ∧
    (∀ i, i < 20 → codeExists sessions (genCandidateCode (random i)) = false →
      (∀ j, j < i → codeExists sessions (genCandidateCode (random j)) = true) →
      generateUniqueGameCode sessions random now =
        { code := genCandidateCode (random i), queries := i + 1 } ∧
      codeExists sessions (generateUniqueGameCode sessions random now).code = false) ∧
    ((∀ j, j < 20 → codeExists sessions (genCandidateCode (random j)) = true) →
      generateUniqueGameCode sessions random now =
        { code := "WW" ++ jsSliceLast (toString now) 4, queries := 20 }) := by
  have hfree : ∀ i, i < 20 → codeExists sessions (genCandidateCode (random i)) = false →
      (∀ j, j < i → codeExists sessions (genCandidateCode (random j)) = true) →
      generateUniqueGameCode sessions random now =
        { code := genCandidateCode (random i), queries := i + 1 } := by
    intro i hi hf hc
    have := generateLoop_first_free sessions random now 20 0 i hi (by simpa using hf)
      (by simpa using hc)
    simpa [generateUniqueGameCode] using this
  have hall : (∀ j, j < 20 → codeExists sessions (genCandidateCode (random j)) = true) →
      generateUniqueGameCode sessions random now =
        { code := fallbackCode now, queries := 20 } := by
    intro hc
    have := generateLoop_all_collide sessions random now 20 0 (by simpa using hc)
    simpa [generateUniqueGameCode] using this
  refine ⟨?_, ?_, hall⟩
  · by_cases hex : ∃ i, i < 20 ∧ codeExists sessions (genCandidateCode (random i)) = false
    · obtain ⟨hlt, hf⟩ := Nat.find_spec hex
      have hmin : ∀ j, j < Nat.find hex →
          codeExists sessions (genCandidateCode (random j)) = true := by
        intro j hj
        have hnot := Nat.find_min hex hj
        cases hc : codeExists sessions (genCandidateCode (random j)) with
        | true => rfl
        | false => exact absurd ⟨by omega, hc⟩ hnot
      rw [hfree _ hlt hf hmin]
      show Nat.find hex + 1 ≤ 20
      omega
    · rw [hall (by
        intro j hj
        cases hc : codeExists sessions (genCandidateCode (random j)) with
        | true => rfl
        | false => exact absurd ⟨j, hj, hc⟩ hex)]
  · intro i hi hf hc
    refine ⟨hfree i hi hf hc, ?_⟩
    rw [hfree i hi hf hc]
    exact hf

/-- Witness of C19 (as amended): the first sample candidate `ABCDEF` collides,
the second one, `ZZZZZZ`, is free. -/
theorem C19_bounded_retries_then_fallback_witness :
    generateUniqueGameCode sampleSessions sampleRandom 1700000006789 =
      { code := genCandidateCode (sampleRandom 1), queries := 1 + 1 } ∧
    codeExists sampleSessions
      (generateUniqueGameCode sampleSessions sampleRandom 1700000006789).code = false :=
  (C19_bounded_retries_then_fallback sampleSessions sampleRandom 1700000006789).2.1 1
    (by decide) (by decide) (by
      intro j hj
      have hj0 : j = 0 := by omega
      subst hj0
      decide)

/-- Counterexample to C19 as stated: every candidate is `ABCDEF`, which
exists, so after 20 queries the fallback `WW6789` is returned, and a session
with the code `WW6789` exists. -/
theorem C19_counterexample :
    generateUniqueGameCode sampleSessions (fun _ => "0.abcdefgh") 1700000006789 =
      { code := "WW6789", queries := 20 } ∧
    codeExists sampleSessions
      (generateUniqueGameCode sampleSessions (fun _ => "0.abcdefgh") 1700000006789).code =
      true := by
  decide

/-! ## Game-code lookup -/

/-- Trimming ignores white space around a core. -/
theorem jsTrimChars_strip (pre core post : List Char)
    (hpre : ∀ c ∈ pre, jsIsWhiteSpace c = true) (hpost : ∀ c ∈ post, jsIsWhiteSpace c = true) :
    jsTrimChars (pre ++ core ++ post) = jsTrimChars core := by
  unfold jsTrimChars
  rw [List.append_assoc, List.dropWhile_append_of_pos hpre, List.dropWhile_append]
  have hpostnil : post.dropWhile jsIsWhiteSpace = [] := by
    rw [List.dropWhile_eq_nil_iff]
    exact hpost
  split
  · rename_i hempty
    rw [hpostnil, List.isEmpty_iff.mp hempty]
  · rw [List.reverse_append, List.dropWhile_append_of_pos (by
      intro c hc
      exact hpost c (List.mem_reverse.mp hc))]

/-- The text that `resolveGameByCode` normalises, for a string argument. -/
theorem codeText_str (c : String) :
    (if jsTruthy (JsVal.str c) = true then jsString (JsVal.str c) else "") = c := by
  by_cases h : c = ""
  · simp [jsTruthy, jsString, h]
  · simp [jsTruthy, jsString, h]

/-- Texts that agree character by character up to case have the same upper
case. -/
theorem toUpperCaseBy_congr (rules : CaseRules) (l1 l2 : List Char)
    (h : List.Forall₂ (fun c d => rules.upper c = rules.upper d) l1 l2) :
    l1.flatMap rules.upper = l2.flatMap rules.upper := by
  induction h with
  | nil => rfl
  | cons hcd _ ih => rw [List.flatMap_cons, List.flatMap_cons, hcd, ih]

/-- C20: game-code lookup ignores letter case and surrounding white space,
whatever the case tables of the engine and the store are. For every set of
sessions, two codes that differ only in letter case or in leading and trailing
white space resolve to the same session, or both to `null`, with the same
number of queries; a code with white space added around it and a code whose
characters are replaced by characters of the same upper case are such
variants; a missing, empty or white-space-only code (any falsy value, or a
string of white space) resolves to `null` without a query. -/
theorem C20_code_lookup_ignores_case (rules : CaseRules) (sessions : List GameSession) :
    (∀ c1 c2 : String, SameCodeUpToCase rules c1 c2 →
      resolveGameByCode rules sessions (.str c1) = resolveGameByCode rules sessions (.str c2)) ∧
    (∀ (c : String) (pre post : List Char), (∀ x ∈ pre, jsIsWhiteSpace x = true) →
      (∀ x ∈ post, jsIsWhiteSpace x = true) →
      SameCodeUpToCase rules (String.mk (pre ++ c.data ++ post)) c) ∧
    (∀ c1 c2 : String, jsTrimChars c1.data = c1.data → jsTrimChars c2.data = c2.data →
      List.Forall₂ (fun c d => rules.upper c = rules.upper d) c1.data c2.data →
      SameCodeUpToCase rules c1 c2) ∧
    (∀ code : JsVal, jsTruthy code = false →
      resolveGameByCode rules sessions code = { row := none, queries := 0 }) ∧
    (∀ s : String, (∀ c ∈ s.data, jsIsWhiteSpace c = true) →
      resolveGameByCode rules sessions (.str s) = { row := none, queries := 0 }) := by
  refine ⟨?_, ?_, ?_, ?_, ?_⟩
  · intro c1 c2 hv
    have hn : toUpperCaseBy rules (jsTrim c1) = toUpperCaseBy rules (jsTrim c2) := by
      unfold toUpperCaseBy jsTrim
      simp only
      rw [toUpperCaseBy_congr rules _ _ hv]
    unfold resolveGameByCode
    simp only [codeText_str, hn]
  · intro c pre post hpre hpost
    unfold SameCodeUpToCase
    simp only
    rw [jsTrimChars_strip pre c.data post hpre hpost]
    exact List.forall₂_same.mpr (fun _ _ => rfl)
  · intro c1 c2 h1 h2 h
    unfold SameCodeUpToCase
    rw [h1, h2]
    exact h
  · intro code hc
    simp [resolveGameByCode, hc, toUpperCaseBy, jsTrim, jsTrimChars]
  · intro s hs
    have htrim : jsTrimChars s.data = [] := by
      have h := jsTrimChars_strip s.data [] [] hs (by simp)
      simpa [jsTrimChars] using h
    unfold resolveGameByCode
    simp only [codeText_str]
    simp [toUpperCaseBy, jsTrim, htrim]

/-- Witness of C20, under the sample case rules: ` abcDEF ` and `ABCdef`
differ only in case and in the surrounding blanks, and both resolve to the
session with the code `ABCDEF`; `é1` and `É1` differ only in case, and both
resolve to the session with the code `É1`. -/
theorem C20_code_lookup_ignores_case_witness :
    resolveGameByCode sampleCaseRules sampleSessions (.str " abcDEF ") =
      resolveGameByCode sampleCaseRules sampleSessions (.str "ABCdef") ∧
    resolveGameByCode sampleCaseRules sampleSessions (.str "ABCdef") =
      { row := some { game_id := 1, game_name := "Algebra", teacher_user_id := 1,
                      game_code := some "ABCDEF" }
        queries := 1 } ∧
    resolveGameByCode sampleCaseRules
        [{ game_id := 3, game_name := "Chimie", teacher_user_id := 1, game_code := some "É1" }]
        (.str "é1") =
      resolveGameByCode sampleCaseRules
        [{ game_id := 3, game_name := "Chimie", teacher_user_id := 1, game_code := some "É1" }]
        (.str "É1") ∧
    resolveGameByCode sampleCaseRules
        [{ game_id := 3, game_name := "Chimie", teacher_user_id := 1, game_code := some "É1" }]
        (.str "é1") =
      { row := some { game_id := 3, game_name := "Chimie", teacher_user_id := 1,
                      game_code := some "É1" }
        queries := 1 } :=
  ⟨(C20_code_lookup_ignores_case sampleCaseRules sampleSessions).1 " abcDEF " "ABCdef"
      (List.Forall₂.cons (by decide) (List.Forall₂.cons (by decide)
        (List.Forall₂.cons (by decide) (List.Forall₂.cons (by decide)
          (List.Forall₂.cons (by decide) (List.Forall₂.cons (by decide)
            List.Forall₂.nil)))))),
   by decide,
   (C20_code_lookup_ignores_case sampleCaseRules
      [{ game_id := 3, game_name := "Chimie", teacher_user_id := 1, game_code := some "É1" }]).1
      "é1" "É1"
      (List.Forall₂.cons (by decide) (List.Forall₂.cons (by decide) List.Forall₂.nil)),
   by decide⟩

/-! ## Failures inside the real-time handler -/

/-- A general fact behind C23: whatever the store does to the `INSERT`, the
session and the store a submission leaves behind do not depend on whether the
leaderboard query succeeds. -/
theorem submitAnswer_leaderboard_irrelevant (s : Session) (st : Store) (now : Nat)
    (ins : Bool) (sub : Submission) :
    (submitAnswer s st ⟨now, ins, true⟩ sub).sess =
      (submitAnswer s st ⟨now, ins, false⟩ sub).sess ∧
    (submitAnswer s st ⟨now, ins, true⟩ sub).store =
      (submitAnswer s st ⟨now, ins, false⟩ sub).store := by
  cases hacc : acceptedUser s st.users sub with
  | none =>
    obtain ⟨m1, -, h1⟩ := submitAnswer_of_rejected s st ⟨now, ins, true⟩ sub hacc
    obtain ⟨m2, -, h2⟩ := submitAnswer_of_rejected s st ⟨now, ins, false⟩ sub hacc
    rw [h1, h2]
    exact ⟨rfl, rfl⟩
  | some u =>
    obtain ⟨-, ⟨q, hq⟩, -, -, hu0, hin, heqT, -⟩ :=
      submitAnswer_of_accepted s st ⟨now, ins, true⟩ sub u hacc
    obtain ⟨-, -, -, -, -, -, heqF, -⟩ :=
      submitAnswer_of_accepted s st ⟨now, ins, false⟩ sub u hacc
    rw [heqT, heqF]
    by_cases ha : sub.answer = .str q.correct
    · rw [ha]
      cases hf : s.firstAnswered with
      | false =>
        rw [submitResume_first s st _ u q hu0 hin hq hf,
          submitResume_first s st _ u q hu0 hin hq hf]
        exact ⟨rfl, rfl⟩
      | true =>
        rw [submitResume_later s st _ u q hu0 hin hq hf,
          submitResume_later s st _ u q hu0 hin hq hf]
        exact ⟨rfl, rfl⟩
    · rw [submitResume_wrong s st _ u _ q hu0 hin hq ha,
        submitResume_wrong s st _ u _ q hu0 hin hq ha]
      exact ⟨rfl, rfl⟩

/-- C23: a failing leaderboard broadcast never reaches the request. For every
accepted correct real-time submission whose score is persisted, the run in
which the leaderboard query throws and the run in which it succeeds leave the
same session and the same store, with the score raised by the awarded points;
the failing run sends the submitter exactly the acknowledgement, the succeeding
run sends the same acknowledgement followed by the leaderboard broadcast, and
no `Server error` result is sent in either. -/
theorem C23_broadcast_failure_stays_inside (s : Session) (st : Store) (now : Nat)
    (sub : Submission) (u : Nat) (q : Question)
    (hacc : acceptedUser s st.users sub = some u)
    (hq : questionAt s.questions s.currentIndex = some q)
    (hans : sub.answer = .str q.correct) :
    (submitAnswer s st ⟨now, false, true⟩ sub).sess =
      (submitAnswer s st ⟨now, false, false⟩ sub).sess ∧
    (submitAnswer s st ⟨now, false, true⟩ sub).store =
      (submitAnswer s st ⟨now, false, false⟩ sub).store ∧
    scoreOf (submitAnswer s st ⟨now, false, true⟩ sub).store u =
      scoreOf st u + (if s.firstAnswered then 10 else 15) ∧
    (submitAnswer s st ⟨now, false, true⟩ sub).emits =
      [.answerResult (if s.firstAnswered then correctMsg 10 else firstCorrectMsg 15)] ∧
    (submitAnswer s st ⟨now, false, false⟩ sub).emits =
      (submitAnswer s st ⟨now, false, true⟩ sub).emits ++
        [.leaderboardGlobal
          (fetchGlobalLeaderboard (submitAnswer s st ⟨now, false, true⟩ sub).store 20)] ∧
    Emit.answerResult serverErrorMsg ∉ (submitAnswer s st ⟨now, false, true⟩ sub).emits ∧
    Emit.answerResult serverErrorMsg ∉ (submitAnswer s st ⟨now, false, false⟩ sub).emits := by
  obtain ⟨hsess, hstore⟩ := submitAnswer_leaderboard_irrelevant s st now false sub
  have hscore := scoreOf_submitAnswer_correct s st ⟨now, false, true⟩ sub u q hacc hq hans rfl
  have hne := acceptedMsg_ne_rejection
  obtain ⟨-, -, -, -, hu0, hin, heqT, -⟩ :=
    submitAnswer_of_accepted s st ⟨now, false, true⟩ sub u hacc
  obtain ⟨-, -, -, -, -, -, heqF, -⟩ :=
    submitAnswer_of_accepted s st ⟨now, false, false⟩ sub u hacc
  refine ⟨hsess, hstore, hscore, ?_⟩
  rw [heqT, heqF, hans]
  cases hf : s.firstAnswered with
  | false =>
    rw [submitResume_first s st _ u q hu0 hin hq hf, submitResume_first s st _ u q hu0 hin hq hf]
    refine ⟨by simp, by simp, ?_, ?_⟩ <;> simp <;> decide
  | true =>
    rw [submitResume_later s st _ u q hu0 hin hq hf, submitResume_later s st _ u q hu0 hin hq hf]
    refine ⟨by simp, by simp, ?_, ?_⟩ <;> simp <;> decide

/-- Witness of C23: user 2 answers the first sample question correctly while
the leaderboard query throws. -/
theorem C23_broadcast_failure_stays_inside_witness :
    (submitAnswer sampleFreshSession sampleStore ⟨9, false, true⟩ sampleCorrectSub).sess =
      (submitAnswer sampleFreshSession sampleStore ⟨9, false, false⟩ sampleCorrectSub).sess ∧
    scoreOf (submitAnswer sampleFreshSession sampleStore ⟨9, false, true⟩ sampleCorrectSub).store 2
      = scoreOf sampleStore 2 + 15 ∧
    (submitAnswer sampleFreshSession sampleStore ⟨9, false, true⟩ sampleCorrectSub).emits =
      [.answerResult (firstCorrectMsg 15)] :=
  have h := C23_broadcast_failure_stays_inside sampleFreshSession sampleStore 9 sampleCorrectSub
    2 sampleQ1 (by decide) (by decide) (by decide)
  ⟨h.1, h.2.2.1, h.2.2.2.1⟩

/-- C27: an accepted wrong real-time answer consumes the attempt. The handler
adds the user to `answeredUsers`, leaves `firstAnswered` and the store as they
are and sends only the `Wrong` result (no leaderboard broadcast). In the
submissions processed afterwards in the same window, every submission of the
same user is rejected as already answered, whatever its answer; and if the
bonus was not taken before, the first accepted correct answer (necessarily by
another user) is sent the first-correct result and, when its score is
persisted, gains 15 points. -/
theorem C27_wrong_answer_consumes_attempt (s : Session) (st : Store) (env : Env)
    (sub : Submission) (u : Nat) (q : Question)
    (hacc : acceptedUser s st.users sub = some u)
    (hq : questionAt s.questions s.currentIndex = some q)
    (hwrong : sub.answer ≠ .str q.correct) :
    submitAnswer s st env sub =
      { sess := { s with answeredUsers := s.answeredUsers ++ [u] }, store := st,
        emits := [.answerResult wrongMsg] } ∧
    (submitAnswer s st env sub).sess.firstAnswered = s.firstAnswered ∧
    (∀ rows, Emit.leaderboardGlobal rows ∉ (submitAnswer s st env sub).emits) ∧
    (∀ subs : List (Submission × Env),
      ∀ b ∈ runSubmits (submitAnswer s st env sub).sess (submitAnswer s st env sub).store subs,
        b.resolvesTo u →
        b.res = { sess := b.before, store := b.storeBefore,
                  emits := [.answerResult alreadyAnsweredMsg] }) ∧
    (s.firstAnswered = false →
      ∀ (subs : List (Submission × Env)) (pre : List SubmitRecord) (r : SubmitRecord)
        (post : List SubmitRecord) (v : Nat),
        runSubmits (submitAnswer s st env sub).sess (submitAnswer s st env sub).store subs =
          pre ++ r :: post →
        (∀ p ∈ pre, ¬ p.acceptedCorrect) → r.acceptedAs v → r.correctAnswer →
        v ≠ u ∧ r.res.emits.head? = some (.answerResult (firstCorrectMsg 15)) ∧
        (r.env.insertFails = false → scoreOf r.res.store v = scoreOf r.storeBefore v + 15)) := by
  obtain ⟨hopen, -, -, -, hu0, hin, heq, -⟩ := submitAnswer_of_accepted s st env sub u hacc
  have hres := submitResume_wrong s st env u sub.answer q hu0 hin hq hwrong
  rw [← heq] at hres
  rw [hres]
  refine ⟨rfl, rfl, by simp, ?_, ?_⟩
  · intro subs b hb hres2
    exact runSubmits_recorded subs { s with answeredUsers := s.answeredUsers ++ [u] } st u
      hopen ⟨q, hq⟩ hu0 (by simp) b hb hres2
  · intro hf subs pre r post v hrun hpre hra hrc
    have hmem : r ∈ runSubmits { s with answeredUsers := s.answeredUsers ++ [u] } st subs := by
      rw [hrun]; simp
    have hreq := runSubmits_record_eq subs
      { s with answeredUsers := s.answeredUsers ++ [u] } st r hmem
    have hfirst : r.before.firstAnswered = false := by
      cases hb : r.before.firstAnswered with
      | false => rfl
      | true =>
        rcases (runSubmits_firstAnswered subs
          { s with answeredUsers := s.answeredUsers ++ [u] } st pre r post hrun).1 hb with h | ⟨p, hp, hpc⟩
        · simp [hf] at h
        · exact absurd hpc (hpre p hp)
    have hnot := runSubmits_not_accepted subs { s with answeredUsers := s.answeredUsers ++ [u] }
      st u (by simp) r hmem
    have hvu : v ≠ u := by
      intro h
      rw [h] at hra
      exact hnot hra
    have hac : r.acceptedCorrect := by
      refine ⟨?_, hrc⟩
      have := hra
      unfold SubmitRecord.acceptedAs at this
      rw [this]; simp
    rw [hreq] at hac
    have hstep := ((submitAnswer_bonus_step r.before r.storeBefore r.env r.sub).1 hac).1 hfirst
    have hres3 := runSubmits_res subs { s with answeredUsers := s.answeredUsers ++ [u] } st r hmem
    refine ⟨hvu, ?_, ?_⟩
    · rw [hres3]; exact hstep.2.1
    · intro hi
      rw [hres3]
      refine hstep.2.2.2 v ?_ hi
      rw [← hres3]
      exact hra

/-- Witness of C27: user 1 answers the first sample question with `5`; then
user 1 tries again with the right answer and user 2 answers correctly. -/
theorem C27_wrong_answer_consumes_attempt_witness :
    submitAnswer sampleFreshSession sampleStore sampleEnv ⟨.num 1, .str "5"⟩ =
      { sess := { sampleFreshSession with answeredUsers := [] ++ [1] }, store := sampleStore,
        emits := [.answerResult wrongMsg] } ∧
    (∀ b ∈ runSubmits
        (submitAnswer sampleFreshSession sampleStore sampleEnv ⟨.num 1, .str "5"⟩).sess
        (submitAnswer sampleFreshSession sampleStore sampleEnv ⟨.num 1, .str "5"⟩).store
        [(⟨.str "alice", .str "4"⟩, sampleEnv), (sampleCorrectSub, sampleEnv)],
      b.resolvesTo 1 →
      b.res = { sess := b.before, store := b.storeBefore,
                emits := [.answerResult alreadyAnsweredMsg] }) :=
  have h := C27_wrong_answer_consumes_attempt sampleFreshSession sampleStore sampleEnv
    ⟨.num 1, .str "5"⟩ 1 sampleQ1 (by decide) (by decide) (by decide)
  ⟨h.1, h.2.2.2.1 _⟩

/-- C28: the real-time path is not atomic when the store fails. When the
`INSERT` of an accepted first-correct submission is rejected, the store is left
as it was and the submitter is sent the first-correct acknowledgement followed
by the `Server error` result; the user stays in `answeredUsers` and
`firstAnswered` stays `true`, so the same user is rejected as already answered
and no submission processed later in that window, by whatever user, is sent
the first-correct result. -/
theorem C28_store_failure_keeps_bonus_spent (s : Session) (st : Store) (env : Env)
    (sub : Submission) (u : Nat) (q : Question)
    (hacc : acceptedUser s st.users sub = some u)
    (hq : questionAt s.questions s.currentIndex = some q)
    (hans : sub.answer = .str q.correct)
    (hf : s.firstAnswered = false) (hfail : env.insertFails = true) :
    (submitAnswer s st env sub).store = st ∧
    (submitAnswer s st env sub).emits =
      [.answerResult (firstCorrectMsg 15), .answerResult serverErrorMsg] ∧
    (∀ rows, Emit.leaderboardGlobal rows ∉ (submitAnswer s st env sub).emits) ∧
    (submitAnswer s st env sub).sess =
      { s with answeredUsers := s.answeredUsers ++ [u], firstAnswered := true } ∧
    (∀ subs : List (Submission × Env),
      ∀ b ∈ runSubmits (submitAnswer s st env sub).sess (submitAnswer s st env sub).store subs,
        ¬ b.bonusAwarded ∧
        (b.resolvesTo u →
          b.res = { sess := b.before, store := b.storeBefore,
                    emits := [.answerResult alreadyAnsweredMsg] })) := by
  obtain ⟨hopen, -, -, -, hu0, hin, heq, -⟩ := submitAnswer_of_accepted s st env sub u hacc
  have hres := submitResume_first s st env u q hu0 hin hq hf
  rw [← hans, ← heq] at hres
  rw [hres]
  simp only [hfail, if_true]
  refine ⟨trivial, trivial, by simp, trivial, ?_⟩
  intro subs b hb
  constructor
  · have hcount := (runSubmits_bonus_count subs
      { s with answeredUsers := s.answeredUsers ++ [u], firstAnswered := true } st).1 rfl
    intro hbonus
    have hmem : b ∈ (runSubmits
        { s with answeredUsers := s.answeredUsers ++ [u], firstAnswered := true } st subs).filter
        (fun r => decide r.bonusAwarded) := by
      rw [List.mem_filter]
      exact ⟨hb, by simpa using hbonus⟩
    rw [List.length_eq_zero] at hcount
    rw [hcount] at hmem
    simp at hmem
  · intro hres2
    exact runSubmits_recorded subs
      { s with answeredUsers := s.answeredUsers ++ [u], firstAnswered := true } st u
      hopen ⟨q, hq⟩ hu0 (by simp) b hb hres2

/-- Witness of C28: user 2 gives the first correct answer to the first sample
question while the store rejects the `INSERT`; user 1 then answers correctly
and is sent the plain `Correct` result. -/
theorem C28_store_failure_keeps_bonus_spent_witness :
    (submitAnswer sampleFreshSession sampleStore ⟨9, true, false⟩ sampleCorrectSub).store =
      sampleStore ∧
    (submitAnswer sampleFreshSession sampleStore ⟨9, true, false⟩ sampleCorrectSub).emits =
      [.answerResult (firstCorrectMsg 15), .answerResult serverErrorMsg] ∧
    (submitAnswer sampleFreshSession sampleStore ⟨9, true, false⟩ sampleCorrectSub).sess =
      { sampleFreshSession with answeredUsers := [] ++ [2], firstAnswered := true } ∧
    (runSubmits
        (submitAnswer sampleFreshSession sampleStore ⟨9, true, false⟩ sampleCorrectSub).sess
        (submitAnswer sampleFreshSession sampleStore ⟨9, true, false⟩ sampleCorrectSub).store
        [(⟨.num 1, .str "4"⟩, sampleEnv)]).map (fun b => b.res.emits.head?) =
      [some (.answerResult (correctMsg 10))] :=
  have h := C28_store_failure_keeps_bonus_spent sampleFreshSession sampleStore ⟨9, true, false⟩
    sampleCorrectSub 2 sampleQ1 (by decide) (by decide) (by decide) (by decide) (by decide)
  ⟨h.1, h.2.1, h.2.2.2.1, by decide⟩

/-! ## User resolution -/

/-- The guard of line 157 passes exactly the inputs other than `null`,
`undefined`, the empty string and `false`. -/
theorem resolveUserId_guard (x : JsVal) :
    (!jsTruthy x && x != JsVal.num 0) = true ↔
      (x = .null ∨ x = .undefined ∨ x = .str "" ∨ x = .bool false) := by
  cases x with
  | undefined => simp [jsTruthy]
  | null => simp [jsTruthy]
  | bool b => cases b <;> simp [jsTruthy]
  | num n =>
    by_cases h : n = 0
    · simp [jsTruthy, h]
    · simp [jsTruthy, h]
  | str s =>
    by_cases h : s = ""
    · simp [jsTruthy, h]
    · simp [jsTruthy, h]

/-- The id query finds a row exactly when some row has the bound number as
id, and then returns that number. -/
theorem findUserById_int (users : List User) (n : Int) :
    findUserById users (n : Rat) =
      if users.any (fun u => (u.user_id : Int) == n) then some n.toNat else none := by
  unfold findUserById
  induction users with
  | nil => rfl
  | cons u us ih =>
    have hcast : ((u.user_id : Rat) == (n : Rat)) = ((u.user_id : Int) == n) := by
      have h : ((u.user_id : Rat) = (n : Rat)) ↔ ((u.user_id : Int) = n) := by
        rw [← Int.cast_natCast (R := Rat) u.user_id, Int.cast_inj]
      by_cases hc : (u.user_id : Int) = n
      · simp [hc, h.2 hc]
      · have hr : ¬ ((u.user_id : Rat) = (n : Rat)) := fun hx => hc (h.1 hx)
        simp [hc, hr]
    rw [List.find?_cons, List.any_cons, hcast]
    cases hb : ((u.user_id : Int) == n) with
    | true =>
      have hn : (u.user_id : Int) = n := by simpa using hb
      simp [← hn]
    | false =>
      simp only [Bool.false_or]
      exact ih

/-- The uid query is the lookup that ends `resolveUserId`. -/
theorem findUserByUid_eq (users : List User) (s : String) :
    (match users.find? (fun u => u.uid == some s) with
      | some u => some u.user_id
      | none => none) = findUserByUid users s := by
  unfold findUserByUid
  cases users.find? (fun u => u.uid == some s) <;> rfl

/-- The two lookups of `resolveUserId` for an argument that passes the guard,
with `Number(uidOrId)` an integer or not a number. -/
theorem resolveUserId_lookups (users : List User) (num : Option Int) (s : String) :
    (match
        (match num with
          | some asNumber =>
            if (0 < asNumber && users.any (fun u => (u.user_id : Int) == asNumber)) = true then
              some asNumber.toNat
            else none
          | none => (none : Option Nat)) with
      | some n => some n
      | none =>
        match users.find? (fun u => u.uid == some s) with
        | some u => some u.user_id
        | none => none) =
      resolveUserIdOf users
        (.value (match num with
          | some n => .finite (n : Rat)
          | none => .notFinite) s) := by
  rw [findUserByUid_eq]
  cases num with
  | none => rfl
  | some n =>
    simp only [resolveUserIdOf]
    by_cases hpos : 0 < n
    · have hr : (0 : Rat) < (n : Rat) := by exact_mod_cast hpos
      rw [if_pos hr, findUserById_int]
      cases hany : users.any (fun u => (u.user_id : Int) == n) <;> simp [hpos]
    · have hr : ¬ (0 : Rat) < (n : Rat) := by
        intro h
        exact hpos (by exact_mod_cast h)
      rw [if_neg hr]
      simp [hpos]

/-- On the values of `JsVal`, under the conversions of this embedding, the
handler's `resolveUserId` is the general function. -/
theorem resolveUserId_eq_of (users : List User) (x : JsVal) :
    resolveUserId users x = resolveUserIdOf users (uidInputOf x) := by
  cases x with
  | undefined => simp [resolveUserId, jsTruthy, uidInputOf, resolveUserIdOf]
  | null => simp [resolveUserId, jsTruthy, uidInputOf, resolveUserIdOf]
  | bool b =>
    cases b with
    | false => simp [resolveUserId, jsTruthy, uidInputOf, resolveUserIdOf]
    | true =>
      have h := resolveUserId_lookups users (some 1) "true"
      simp only [Int.cast_one] at h
      simp only [resolveUserId, jsTruthy, uidInputOf, jsNumber, jsString, if_true,
        Bool.not_true, Bool.false_and, Bool.false_eq_true, if_false]
      exact h
  | num n =>
    by_cases hn : n = 0
    · subst hn
      simp only [resolveUserId, jsTruthy, uidInputOf, jsNumber, if_true, resolveUserIdOf]
      rw [← findUserByUid_eq]
      simp
      rfl
    · have h := resolveUserId_lookups users (some n) (jsString (.num n))
      have hg : (!jsTruthy (JsVal.num n) && JsVal.num n != JsVal.num 0) = false := by
        simp [jsTruthy, hn]
      simp only [resolveUserId, hg, uidInputOf, hn, jsNumber, if_false, Bool.false_eq_true]
      exact h
  | str s =>
    by_cases hs : s = ""
    · subst hs
      simp [resolveUserId, jsTruthy, uidInputOf, resolveUserIdOf]
    · have h := resolveUserId_lookups users (jsStringToNumber s) s
      have hg : (!jsTruthy (JsVal.str s) && JsVal.str s != JsVal.num 0) = false := by
        simp [jsTruthy, hs]
      simp only [resolveUserId, hg, uidInputOf, hs, jsNumber, jsString, if_false,
        Bool.false_eq_true]
      exact h

/-- C26: `resolveUserId` resolves an identity by either key, for every user
table and every argument, whatever `Number()` and `String()` make of it. When
`Number(input)` is a finite `n > 0` and a user has the numeric id `n`, the
result is `n`, also when another user has `String(input)` as external uid;
otherwise the result is the numeric id of the user whose uid equals
`String(input)`, a user of the table with that uid, or `null` when no user has
that uid; for an input rejected by the guard of line 157 (`null`, `undefined`,
the empty string and the other falsy values except the number zero) the result
is `null`, also in the handlers' `resolveUserId`. -/
theorem C26_resolve_by_either_key (users : List User) :
    (∀ a ∈ users, 0 < a.user_id → ∀ s : String,
      resolveUserIdOf users (.value (.finite (a.user_id : Rat)) s) = some a.user_id) ∧
    (∀ (n : JsNum) (s : String),
      (∀ v : Rat, n = .finite v → 0 < v → ∀ a ∈ users, (a.user_id : Rat) ≠ v) →
      resolveUserIdOf users (.value n s) = findUserByUid users s) ∧
    resolveUserIdOf users .zero = findUserByUid users "0" ∧
    (∀ (s : String) (m : Nat), findUserByUid users s = some m →
      ∃ a ∈ users, a.uid = some s ∧ a.user_id = m) ∧
    (∀ s : String, findUserByUid users s = none ↔ ∀ a ∈ users, a.uid ≠ some s) ∧
    resolveUserIdOf users .empty = none ∧
    (∀ a ∈ users, ∀ b ∈ users, 0 < a.user_id → ∀ s : String, b.uid = some s →
      b.user_id ≠ a.user_id →
      resolveUserIdOf users (.value (.finite (a.user_id : Rat)) s) = some a.user_id ∧
      resolveUserIdOf users (.value (.finite (a.user_id : Rat)) s) ≠ some b.user_id) ∧
    uidInputOf .null = .empty ∧ uidInputOf .undefined = .empty ∧
    uidInputOf (.str "") = .empty ∧
    resolveUserId users .null = none ∧ resolveUserId users .undefined = none ∧
    resolveUserId users (.str "") = none := by
  have hnum : ∀ a ∈ users, 0 < a.user_id → ∀ s : String,
      resolveUserIdOf users (.value (.finite (a.user_id : Rat)) s) = some a.user_id := by
    intro a ha hpos s
    have hr : (0 : Rat) < (a.user_id : Rat) := by exact_mod_cast hpos
    have hfind : findUserById users (a.user_id : Rat) = some a.user_id := by
      have h := findUserById_int users (a.user_id : Int)
      rw [Int.cast_natCast] at h
      rw [h]
      have hany : users.any (fun u => (u.user_id : Int) == (a.user_id : Int)) = true := by
        rw [List.any_eq_true]
        exact ⟨a, ha, by simp⟩
      simp [hany]
    simp only [resolveUserIdOf, if_pos hr, hfind]
  refine ⟨hnum, ?_, rfl, ?_, ?_, rfl, ?_, rfl, rfl, rfl, rfl, rfl, rfl⟩
  · intro n s hno
    cases n with
    | notFinite => rfl
    | finite v =>
      simp only [resolveUserIdOf]
      by_cases hpos : 0 < v
      · rw [if_pos hpos]
        have hnone : findUserById users v = none := by
          unfold findUserById
          rw [Option.map_eq_none', List.find?_eq_none]
          intro a ha
          simpa using hno v rfl hpos a ha
        rw [hnone]
      · rw [if_neg hpos]
  · intro s m h
    unfold findUserByUid at h
    cases hf : users.find? (fun u => u.uid == some s) with
    | none =>
      rw [hf] at h
      cases h
    | some a =>
      rw [hf] at h
      refine ⟨a, List.mem_of_find?_eq_some hf, ?_, by simpa using h⟩
      simpa using List.find?_some hf
  · intro s
    unfold findUserByUid
    rw [Option.map_eq_none', List.find?_eq_none]
    constructor
    · intro h a ha
      simpa using h a ha
    · intro h a ha
      simpa using h a ha
  · intro a ha b _ hpos s _ hne
    have h := hnum a ha hpos s
    refine ⟨h, ?_⟩
    rw [h]
    intro hc
    exact hne (Option.some.inj hc).symm

/-- Witness of C26: in a table where user 1 has the uid `alice` and user 2 the
uid `1`, an input with number 1 and text `1` resolves to user 1; an input that
is not a number, with text `alice`, resolves to user 1 by uid; an input with
the number 2^53 and the text `9007199254740993`, as `Number()` rounds it,
resolves to nobody; an empty input resolves to nobody. -/
theorem C26_resolve_by_either_key_witness :
    resolveUserIdOf
        [⟨1, some "alice", none, none, none⟩, ⟨2, some "1", none, none, none⟩]
        (.value (.finite ((1 : Nat) : Rat)) "1") = some 1 ∧
    resolveUserIdOf
        [⟨1, some "alice", none, none, none⟩, ⟨2, some "1", none, none, none⟩]
        (.value .notFinite "alice") = some 1 ∧
    resolveUserIdOf
        [⟨1, some "alice", none, none, none⟩, ⟨2, some "1", none, none, none⟩]
        (.value (.finite 9007199254740992) "9007199254740993") = none ∧
    resolveUserIdOf
        [⟨1, some "alice", none, none, none⟩, ⟨2, some "1", none, none, none⟩] .empty = none ∧
    resolveUserId
        [⟨1, some "alice", none, none, none⟩, ⟨2, some "1", none, none, none⟩] .null = none :=
  have h := C26_resolve_by_either_key
    [⟨1, some "alice", none, none, none⟩, ⟨2, some "1", none, none, none⟩]
  ⟨h.1 ⟨1, some "alice", none, none, none⟩ (by decide) (by decide) "1",
   (h.2.1 .notFinite "alice" (by intro v hv; cases hv)).trans (by decide),
   (h.2.1 (.finite 9007199254740992) "9007199254740993" (by
      intro v hv hpos a ha
      cases hv
      simp only [List.mem_cons, List.mem_singleton, List.not_mem_nil, or_false] at ha
      rcases ha with rfl | rfl <;> norm_num)).trans (by decide),
   h.2.2.2.2.2.1,
   h.2.2.2.2.2.2.2.2.2.2.1⟩

/-! ## Adding a question -/

/-- C21: `POST /questions` inserts a question and reloads the catalog exactly
when `text`, the four options and `correct` are non-empty and `correct` is
equal to one of the four options. A request that passes both checks, with the
store accepting the `INSERT`, is answered with the new id, appends one row that
holds the submitted values (`Medium` for a missing difficulty) and reloads the
catalog; every other request is answered `400` and leaves the table and the
catalog as they were, so the table changes only for a request that passes. -/
theorem C21_add_question_validated (s : Session) (st : Store) (env : QuestionEnv)
    (b : QuestionBody) :
    (jsTruthy b.text = true → jsTruthy b.option_a = true → jsTruthy b.option_b = true →
      jsTruthy b.option_c = true → jsTruthy b.option_d = true → jsTruthy b.correct = true →
      (b.correct = b.option_a ∨ b.correct = b.option_b ∨ b.correct = b.option_c ∨
        b.correct = b.option_d) →
      env.insertFails = false →
      (postQuestions s st env b).reply = .added (nextQuestionId st.questions) ∧
      (postQuestions s st env b).store =
        { st with questions :=
            st.questions ++ [questionRowOf (nextQuestionId st.questions) b] } ∧
      (postQuestions s st env b).sess =
        loadQuestions s (postQuestions s st env b).store env.loadFails ∧
      (jsTruthy b.difficulty = false →
        (questionRowOf (nextQuestionId st.questions) b).difficulty = some "Medium")) ∧
    (¬ (jsTruthy b.text = true ∧ jsTruthy b.option_a = true ∧ jsTruthy b.option_b = true ∧
        jsTruthy b.option_c = true ∧ jsTruthy b.option_d = true ∧ jsTruthy b.correct = true ∧
        (b.correct = b.option_a ∨ b.correct = b.option_b ∨ b.correct = b.option_c ∨
          b.correct = b.option_d)) →
      (∃ e, (postQuestions s st env b).reply = .badRequest e) ∧
      (postQuestions s st env b).store = st ∧ (postQuestions s st env b).sess = s) ∧
    ((postQuestions s st env b).store.questions ≠ st.questions →
      jsTruthy b.text = true ∧ jsTruthy b.option_a = true ∧ jsTruthy b.option_b = true ∧
        jsTruthy b.option_c = true ∧ jsTruthy b.option_d = true ∧ jsTruthy b.correct = true ∧
        (b.correct = b.option_a ∨ b.correct = b.option_b ∨ b.correct = b.option_c ∨
          b.correct = b.option_d)) := by
  have hbad : ¬ (jsTruthy b.text = true ∧ jsTruthy b.option_a = true ∧
      jsTruthy b.option_b = true ∧ jsTruthy b.option_c = true ∧ jsTruthy b.option_d = true ∧
      jsTruthy b.correct = true ∧
      (b.correct = b.option_a ∨ b.correct = b.option_b ∨ b.correct = b.option_c ∨
        b.correct = b.option_d)) →
      (∃ e, (postQuestions s st env b).reply = .badRequest e) ∧
      (postQuestions s st env b).store = st ∧ (postQuestions s st env b).sess = s := by
    intro hno
    unfold postQuestions
    by_cases h1 : (!jsTruthy b.text || !jsTruthy b.option_a || !jsTruthy b.option_b ||
        !jsTruthy b.option_c || !jsTruthy b.option_d || !jsTruthy b.correct) = true
    · rw [if_pos h1]
      exact ⟨⟨_, rfl⟩, rfl, rfl⟩
    · rw [if_neg h1]
      by_cases h2 : (!([b.option_a, b.option_b, b.option_c, b.option_d].contains b.correct))
          = true
      · rw [if_pos h2]
        exact ⟨⟨_, rfl⟩, rfl, rfl⟩
      · exfalso
        apply hno
        simp only [Bool.or_eq_true, Bool.not_eq_true', not_or, Bool.not_eq_false] at h1
        simp only [Bool.not_eq_true', Bool.not_eq_false, List.contains_iff_exists_mem_beq,
          List.mem_cons, List.mem_singleton, beq_iff_eq, exists_eq_or_imp, exists_eq_left,
          List.not_mem_nil, false_and, exists_false, or_false] at h2
        exact ⟨h1.1.1.1.1.1, h1.1.1.1.1.2, h1.1.1.1.2, h1.1.1.2, h1.1.2, h1.2, h2⟩
  refine ⟨?_, hbad, ?_⟩
  · intro ht ha hb hc hd hcor hmem hins
    have h1 : (!jsTruthy b.text || !jsTruthy b.option_a || !jsTruthy b.option_b ||
        !jsTruthy b.option_c || !jsTruthy b.option_d || !jsTruthy b.correct) = false := by
      simp [ht, ha, hb, hc, hd, hcor]
    have h2 : (!([b.option_a, b.option_b, b.option_c, b.option_d].contains b.correct))
        = false := by
      simp only [Bool.not_eq_false', List.contains_iff_exists_mem_beq,
        List.mem_cons, List.mem_singleton, beq_iff_eq, exists_eq_or_imp, exists_eq_left,
        List.not_mem_nil, false_and, exists_false, or_false]
      exact hmem
    unfold postQuestions
    simp only [h1, h2, hins, Bool.false_eq_true, if_false]
    refine ⟨trivial, trivial, trivial, ?_⟩
    intro hdiff
    simp [questionRowOf, hdiff, sqlText]
  · intro hch
    by_contra hno
    exact hch (by rw [(hbad hno).2.1])

/-- Witness of C21: the sample body is inserted as question 13 with difficulty
`Medium` and the catalog is reloaded; the same body with the correct value
`7`, which is none of the options, is answered `400` and changes nothing. -/
theorem C21_add_question_validated_witness :
    (postQuestions sampleFreshSession sampleRestStore sampleQuestionEnv sampleBody).reply =
      .added 13 ∧
    (postQuestions sampleFreshSession sampleRestStore sampleQuestionEnv sampleBody).sess.questions
      = [sampleQ1, sampleQ2,
         { id := 13, text := "5 - 2 = ?", option_a := "1", option_b := "2", option_c := "3",
           option_d := "4", correct := "3", difficulty := some "Medium" }] ∧
    (postQuestions sampleFreshSession sampleRestStore sampleQuestionEnv
      { sampleBody with correct := .str "7" }).store = sampleRestStore ∧
    (postQuestions sampleFreshSession sampleRestStore sampleQuestionEnv
      { sampleBody with correct := .str "7" }).sess = sampleFreshSession :=
  have h := (C21_add_question_validated sampleFreshSession sampleRestStore sampleQuestionEnv
    sampleBody).1 (by decide) (by decide) (by decide) (by decide) (by decide) (by decide)
    (by decide) (by decide)
  have h2 := (C21_add_question_validated sampleFreshSession sampleRestStore sampleQuestionEnv
    { sampleBody with correct := .str "7" }).2.1 (by decide)
  ⟨h.1, by rw [h.2.2.1, h.2.1]; decide, h2.2.1, h2.2.2⟩

/-! ## Bulk import -/

/-- Upper-casing gives one of the letters `A`-`D` only for that letter and its
lower case. -/
theorem asciiUpper_eq_letter (c t : Char) (ht : t ∈ ['A', 'B', 'C', 'D']) :
    asciiUpper c = t ↔ (c = t ∨ c = Char.ofNat (t.toNat + 32)) := by
  by_cases h : 97 ≤ c.toNat ∧ c.toNat ≤ 122
  · obtain ⟨h1, h2⟩ := h
    have hc : c = Char.ofNat c.toNat := (Char.ofNat_toNat c).symm
    have key : ∀ n, 97 ≤ n → n ≤ 122 →
        (asciiUpper (Char.ofNat n) = t ↔
          (Char.ofNat n = t ∨ Char.ofNat n = Char.ofNat (t.toNat + 32))) := by
      intro n hn1 hn2
      simp only [List.mem_cons, List.mem_singleton, List.not_mem_nil, or_false] at ht
      rcases ht with rfl | rfl | rfl | rfl <;> interval_cases n <;> decide
    rw [hc]
    exact key c.toNat h1 h2
  · have hu : asciiUpper c = c := by simp [asciiUpper, h]
    rw [hu]
    constructor
    · exact Or.inl
    · rintro (h1 | h1)
      · exact h1
      · exfalso
        apply h
        simp only [List.mem_cons, List.mem_singleton, List.not_mem_nil, or_false] at ht
        rcases ht with rfl | rfl | rfl | rfl <;> rw [h1] <;> decide

/-- The upper case of a text is a single letter `A`-`D` only for that letter
and its lower case. -/
theorem jsToUpperCase_eq_letter (raw : String) (t : Char) (ht : t ∈ ['A', 'B', 'C', 'D']) :
    jsToUpperCase raw = String.mk [t] ↔
      (raw = String.mk [t] ∨ raw = String.mk [Char.ofNat (t.toNat + 32)]) := by
  unfold jsToUpperCase
  simp only [String.ext_iff]
  generalize raw.data = l
  cases l with
  | nil => simp
  | cons c rest =>
    cases rest with
    | nil =>
      simp only [List.map_cons, List.map_nil, List.cons.injEq, and_true]
      exact asciiUpper_eq_letter c t ht
    | cons d rest2 => simp

/-- The chain `correct || answer || key || ""` is the first non-empty of the
three fields. -/
theorem jsOrChain_three (x y z : Option String) :
    jsOrChain "" [x, y, z] = firstNonEmpty (x.getD "") (y.getD "") (z.getD "") := by
  cases x <;> cases y <;> cases z <;> simp only [jsOrChain, firstNonEmpty, Option.getD] <;>
    split_ifs <;> simp_all

/-- C30: `mapCorrectValue` works on `raw`, the first non-empty of the row's
`correct`, `answer` and `key` fields, trimmed. An empty `raw` gives `''`; a
`raw` whose upper case is one of the letters `A`, `B`, `C`, `D` (that is, the
letter itself or its lower case) gives the text of the option with that label,
also when that text is empty; every other `raw` is returned as it is. So a
non-empty result obtained from a letter is one of the four option texts. -/
theorem C30_mapCorrectValue_cases (r : CsvRow) (o : Options) :
    correctRaw r = jsTrim (firstNonEmpty ((rowField r "correct").getD "")
      ((rowField r "answer").getD "") ((rowField r "key").getD "")) ∧
    (correctRaw r = "" → mapCorrectValue r o = "") ∧
    (jsToUpperCase (correctRaw r) = "A" → mapCorrectValue r o = o.A) ∧
    (jsToUpperCase (correctRaw r) = "B" → mapCorrectValue r o = o.B) ∧
    (jsToUpperCase (correctRaw r) = "C" → mapCorrectValue r o = o.C) ∧
    (jsToUpperCase (correctRaw r) = "D" → mapCorrectValue r o = o.D) ∧
    (correctRaw r ≠ "" → jsToUpperCase (correctRaw r) ∉ ["A", "B", "C", "D"] →
      mapCorrectValue r o = correctRaw r) ∧
    (jsToUpperCase (correctRaw r) ∈ ["A", "B", "C", "D"] → mapCorrectValue r o ≠ "" →
      mapCorrectValue r o ∈ [o.A, o.B, o.C, o.D]) ∧
    (jsToUpperCase (correctRaw r) ∈ ["A", "B", "C", "D"] ↔
      correctRaw r ∈ ["A", "a", "B", "b", "C", "c", "D", "d"]) := by
  have hA := jsToUpperCase_eq_letter (correctRaw r) 'A' (by decide)
  have hB := jsToUpperCase_eq_letter (correctRaw r) 'B' (by decide)
  have hC := jsToUpperCase_eq_letter (correctRaw r) 'C' (by decide)
  have hD := jsToUpperCase_eq_letter (correctRaw r) 'D' (by decide)
  have hne : ∀ t ∈ ["A", "B", "C", "D"], jsToUpperCase (correctRaw r) = t → correctRaw r ≠ "" := by
    intro t ht hu hr
    rw [hr] at hu
    simp only [List.mem_cons, List.mem_singleton, List.not_mem_nil, or_false] at ht
    rcases ht with rfl | rfl | rfl | rfl <;> exact absurd hu (by decide)
  have hAB : ("A" : String) ≠ "B" := by decide
  have hAC : ("A" : String) ≠ "C" := by decide
  have hAD : ("A" : String) ≠ "D" := by decide
  have hBC : ("B" : String) ≠ "C" := by decide
  have hBD : ("B" : String) ≠ "D" := by decide
  have hCD : ("C" : String) ≠ "D" := by decide
  have cA : jsToUpperCase (correctRaw r) = "A" → mapCorrectValue r o = o.A := by
    intro h
    simp [mapCorrectValue, h, hne "A" (by simp) h]
  have cB : jsToUpperCase (correctRaw r) = "B" → mapCorrectValue r o = o.B := by
    intro h
    simp [mapCorrectValue, h, hne "B" (by simp) h, hAB.symm]
  have cC : jsToUpperCase (correctRaw r) = "C" → mapCorrectValue r o = o.C := by
    intro h
    simp [mapCorrectValue, h, hne "C" (by simp) h, hAC.symm, hBC.symm]
  have cD : jsToUpperCase (correctRaw r) = "D" → mapCorrectValue r o = o.D := by
    intro h
    simp [mapCorrectValue, h, hne "D" (by simp) h, hAD.symm, hBD.symm, hCD.symm]
  refine ⟨?_, ?_, cA, cB, cC, cD, ?_, ?_, ?_⟩
  · unfold correctRaw
    rw [jsOrChain_three]
  · intro h
    simp [mapCorrectValue, h]
  · intro h hn
    simp only [List.mem_cons, List.mem_singleton, List.not_mem_nil, or_false, not_or] at hn
    simp [mapCorrectValue, h, hn.1, hn.2.1, hn.2.2.1, hn.2.2.2]
  · intro h _
    simp only [List.mem_cons, List.mem_singleton, List.not_mem_nil, or_false] at h ⊢
    rcases h with h | h | h | h
    · exact Or.inl (cA h)
    · exact Or.inr (Or.inl (cB h))
    · exact Or.inr (Or.inr (Or.inl (cC h)))
    · exact Or.inr (Or.inr (Or.inr (cD h)))
  · simp only [List.mem_cons, List.mem_singleton, List.not_mem_nil, or_false]
    have eA : jsToUpperCase (correctRaw r) = "A" ↔
        (correctRaw r = "A" ∨ correctRaw r = "a") := by
      rw [show ("A" : String) = String.mk ['A'] by decide,
        show ("a" : String) = String.mk [Char.ofNat ('A'.toNat + 32)] by decide]
      exact hA
    have eB : jsToUpperCase (correctRaw r) = "B" ↔
        (correctRaw r = "B" ∨ correctRaw r = "b") := by
      rw [show ("B" : String) = String.mk ['B'] by decide,
        show ("b" : String) = String.mk [Char.ofNat ('B'.toNat + 32)] by decide]
      exact hB
    have eC : jsToUpperCase (correctRaw r) = "C" ↔
        (correctRaw r = "C" ∨ correctRaw r = "c") := by
      rw [show ("C" : String) = String.mk ['C'] by decide,
        show ("c" : String) = String.mk [Char.ofNat ('C'.toNat + 32)] by decide]
      exact hC
    have eD : jsToUpperCase (correctRaw r) = "D" ↔
        (correctRaw r = "D" ∨ correctRaw r = "d") := by
      rw [show ("D" : String) = String.mk ['D'] by decide,
        show ("d" : String) = String.mk [Char.ofNat ('D'.toNat + 32)] by decide]
      exact hD
    constructor
    · rintro (h | h | h | h)
      · rcases eA.1 h with h | h
        · exact Or.inl h
        · exact Or.inr (Or.inl h)
      · rcases eB.1 h with h | h
        · exact Or.inr (Or.inr (Or.inl h))
        · exact Or.inr (Or.inr (Or.inr (Or.inl h)))
      · rcases eC.1 h with h | h
        · exact Or.inr (Or.inr (Or.inr (Or.inr (Or.inl h))))
        · exact Or.inr (Or.inr (Or.inr (Or.inr (Or.inr (Or.inl h)))))
      · rcases eD.1 h with h | h
        · exact Or.inr (Or.inr (Or.inr (Or.inr (Or.inr (Or.inr (Or.inl h))))))
        · exact Or.inr (Or.inr (Or.inr (Or.inr (Or.inr (Or.inr (Or.inr h))))))
    · rintro (h | h | h | h | h | h | h | h)
      · exact Or.inl (eA.2 (Or.inl h))
      · exact Or.inl (eA.2 (Or.inr h))
      · exact Or.inr (Or.inl (eB.2 (Or.inl h)))
      · exact Or.inr (Or.inl (eB.2 (Or.inr h)))
      · exact Or.inr (Or.inr (Or.inl (eC.2 (Or.inl h))))
      · exact Or.inr (Or.inr (Or.inl (eC.2 (Or.inr h))))
      · exact Or.inr (Or.inr (Or.inr (eD.2 (Or.inl h))))
      · exact Or.inr (Or.inr (Or.inr (eD.2 (Or.inr h))))

/-- Witness of C30: with `correct` empty and `answer` holding ` b `, the row
maps to the text of option B; a row whose key is `Rome` maps to `Rome`. -/
theorem C30_mapCorrectValue_cases_witness :
    mapCorrectValue [("correct", ""), ("answer", " b ")] ⟨"Paris", "Rome", "Oslo", "Bern"⟩ =
      "Rome" ∧
    mapCorrectValue [("key", "Rome")] ⟨"Paris", "Rome", "Oslo", "Bern"⟩ = "Rome" ∧
    mapCorrectValue [("key", "d")] ⟨"Paris", "Rome", "Oslo", ""⟩ = "" :=
  ⟨(C30_mapCorrectValue_cases [("correct", ""), ("answer", " b ")]
      ⟨"Paris", "Rome", "Oslo", "Bern"⟩).2.2.2.1 (by decide),
   ((C30_mapCorrectValue_cases [("key", "Rome")]
      ⟨"Paris", "Rome", "Oslo", "Bern"⟩).2.2.2.2.2.2.1 (by decide) (by decide)).trans
      (by decide),
   (C30_mapCorrectValue_cases [("key", "d")] ⟨"Paris", "Rome", "Oslo", ""⟩).2.2.2.2.2.1
      (by decide)⟩

/-- A row passes the three checks of the loop exactly when it is valid. -/
theorem skipReason_none_iff (p : ParsedRow) : skipReason p = none ↔ RowValid p := by
  unfold skipReason RowValid
  by_cases h1 : (p.text = "" || p.option_a = "" || p.option_b = "" || p.option_c = "" ||
      p.option_d = "") = true
  · rw [if_pos h1]
    simp only [Bool.or_eq_true, decide_eq_true_eq] at h1
    constructor
    · intro h
      cases h
    · intro h
      tauto
  · rw [if_neg h1]
    simp only [Bool.or_eq_true, decide_eq_true_eq, not_or] at h1
    by_cases h2 : p.correct = ""
    · rw [if_pos h2]
      constructor
      · intro h
        cases h
      · intro h
        exact absurd h2 h.2.2.2.2.2.1
    · rw [if_neg h2]
      have hmem : ([p.option_a, p.option_b, p.option_c, p.option_d].contains p.correct) = true ↔
          (p.correct = p.option_a ∨ p.correct = p.option_b ∨ p.correct = p.option_c ∨
            p.correct = p.option_d) := by
        simp only [List.contains_iff_exists_mem_beq, List.mem_cons, List.mem_singleton,
          beq_iff_eq, exists_eq_or_imp, exists_eq_left, List.not_mem_nil, false_and,
          exists_false, or_false]
      by_cases h3 : ([p.option_a, p.option_b, p.option_c, p.option_d].contains p.correct) = true
      · simp only [h3, Bool.not_true, Bool.false_eq_true, if_false, true_iff]
        exact ⟨h1.1.1.1.1, h1.1.1.1.2, h1.1.1.2, h1.1.2, h1.2, h2, hmem.1 h3⟩
      · have h3f : ([p.option_a, p.option_b, p.option_c, p.option_d].contains p.correct)
            = false := by simpa using h3
        simp only [h3f, Bool.not_false, if_true]
        constructor
        · intro h
          cases h
        · intro h
          exact absurd (hmem.2 h.2.2.2.2.2.2) h3

/-- The reason recorded for a skipped row is one of the three texts of lines
805-811. -/
theorem skipReason_messages (p : ParsedRow) (e : String) (h : skipReason p = some e) :
    e ∈ ["Missing question/options", "Missing correct answer",
      "Correct answer must match one of the options"] := by
  unfold skipReason at h
  split_ifs at h <;> cases h <;> simp

/-- The import loop when no `INSERT` is rejected: it inserts the valid rows in
order, counts them, counts the others and records one error entry for each of
the others. -/
theorem importLoop_ok (env : CsvEnv) (hf : env.failAt = none) (rows : List CsvRow) :
    ∀ (i : Nat) (acc : ImportState), importLoop env i rows acc = some
        { table := insertAll acc.table
            ((rows.map parseRow).filter (fun p => decide (RowValid p)))
          inserted := acc.inserted +
            ((rows.map parseRow).filter (fun p => decide (RowValid p))).length
          skipped := acc.skipped +
            (rows.filter (fun raw => decide (¬ RowValid (parseRow raw)))).length
          errors := acc.errors ++ (rows.enumFrom (i + 1)).filterMap (fun x =>
            (skipReason (parseRow x.2)).map (fun e => { row := x.1, error := e, raw := x.2 })) }
    := by
  induction rows with
  | nil =>
    intro i acc
    simp [importLoop, insertAll]
  | cons raw rest ih =>
    intro i acc
    unfold importLoop importRow
    cases hs : skipReason (parseRow raw) with
    | some e =>
      have hv : ¬ RowValid (parseRow raw) := by
        intro h
        rw [(skipReason_none_iff _).2 h] at hs
        cases hs
      simp only [ih, List.map_cons, List.filter_cons, hv, decide_False, Bool.false_eq_true,
        if_false, not_false_eq_true, decide_True, if_true, List.length_cons, List.enumFrom_cons,
        List.filterMap_cons, hs, Option.map_some', List.append_assoc, List.singleton_append,
        Option.some.injEq, ImportState.mk.injEq, true_and, and_true]
      omega
    | none =>
      have hv : RowValid (parseRow raw) := (skipReason_none_iff _).1 hs
      have hne : ¬ ((none : Option Nat) = some i) := by simp
      simp only [hf, if_neg hne, ih, List.map_cons, List.filter_cons, hv, decide_True, if_true,
        not_true_eq_false, decide_False, Bool.false_eq_true, if_false, List.length_cons,
        List.enumFrom_cons, List.filterMap_cons, hs, Option.map_none', insertAll,
        Option.some.injEq, ImportState.mk.injEq, true_and, and_true]
      omega

/-- The import loop ends in a thrown error exactly when the row whose `INSERT`
the store rejects is there and valid. -/
theorem importLoop_none_iff (env : CsvEnv) (rows : List CsvRow) :
    ∀ (i : Nat) (acc : ImportState), importLoop env i rows acc = none ↔
        ∃ k raw, env.failAt = some (i + k) ∧ rows.get? k = some raw ∧
          RowValid (parseRow raw) := by
  induction rows with
  | nil =>
    intro i acc
    simp [importLoop]
  | cons raw rest ih =>
    intro i acc
    unfold importLoop importRow
    cases hs : skipReason (parseRow raw) with
    | some e =>
      have hv : ¬ RowValid (parseRow raw) := by
        intro h
        rw [(skipReason_none_iff _).2 h] at hs
        cases hs
      simp only [ih]
      constructor
      · rintro ⟨k, r, h1, h2, h3⟩
        exact ⟨k + 1, r, by rw [h1]; congr 1; omega, by simpa using h2, h3⟩
      · rintro ⟨k, r, h1, h2, h3⟩
        cases k with
        | zero =>
          simp only [List.get?_cons_zero, Option.some.injEq] at h2
          rw [← h2] at h3
          exact absurd h3 hv
        | succ k =>
          exact ⟨k, r, by rw [h1]; congr 1; omega, by simpa using h2, h3⟩
    | none =>
      have hv : RowValid (parseRow raw) := (skipReason_none_iff _).1 hs
      by_cases hfa : env.failAt = some i
      · simp only [hfa, if_true, true_iff]
        exact ⟨0, raw, by simp, by simp, hv⟩
      · simp only [hfa, if_false, ih]
        constructor
        · rintro ⟨k, r, h1, h2, h3⟩
          exact ⟨k + 1, r, by rw [h1]; congr 1; omega, by simpa using h2, h3⟩
        · rintro ⟨k, r, h1, h2, h3⟩
          cases k with
          | zero => exact absurd (by simpa using h1) hfa
          | succ k =>
            exact ⟨k, r, by rw [h1]; congr 1; omega, by simpa using h2, h3⟩

/-- Every id in the table is below the next `AUTO_INCREMENT` value. -/
theorem id_lt_nextQuestionId (qs : List Question) (q : Question) (h : q ∈ qs) :
    q.id < nextQuestionId qs := by
  unfold nextQuestionId
  induction qs with
  | nil => cases h
  | cons a rest ih =>
    simp only [List.map_cons, List.foldr_cons]
    rcases List.mem_cons.1 h with h1 | h1
    · rw [h1]
      omega
    · have := ih h1
      omega

/-- A table in `id` order is what `SELECT ... ORDER BY id` returns. -/
theorem selectQuestions_sorted (st : Store) (h : SortedById st.questions) :
    selectQuestions st = st.questions :=
  List.Sorted.insertionSort_eq h

/-- Appending a row under the next free id keeps the table in `id` order. -/
theorem sortedById_append_next (t : List Question) (q : Question) (h : SortedById t)
    (hq : ∀ o ∈ t, o.id < q.id) : SortedById (t ++ [q]) := by
  unfold SortedById at h ⊢
  rw [List.pairwise_append]
  refine ⟨h, List.pairwise_singleton _ _, ?_⟩
  intro a ha b hb
  rw [List.mem_singleton] at hb
  rw [hb]
  exact Nat.le_of_lt (hq a ha)

/-- Inserting rows one after the other appends them to the table in order,
each under an id above all earlier ones. -/
theorem insertAll_append (ps : List ParsedRow) :
    ∀ t : List Question, ∃ extra : List Question,
      insertAll t ps = t ++ extra ∧ extra.map rowContent = ps ∧
      (SortedById t → SortedById (t ++ extra)) := by
  induction ps with
  | nil =>
    intro t
    exact ⟨[], by simp [insertAll], rfl, by simp⟩
  | cons p rest ih =>
    intro t
    obtain ⟨extra, h1, h2, h3⟩ := ih (t ++ [questionOfParsed (nextQuestionId t) p])
    refine ⟨questionOfParsed (nextQuestionId t) p :: extra, ?_, ?_, ?_⟩
    · rw [insertAll, h1]
      simp
    · rw [List.map_cons, h2]
      rfl
    · intro hs
      have := h3 (sortedById_append_next t _ hs (fun o ho => id_lt_nextQuestionId t o ho))
      simpa using this

/-- The error entries carry the 1-based numbers of the rows that are not
valid, in order, each with its row. -/
theorem errors_rows (rows : List CsvRow) :
    ∀ n : Nat,
      ((rows.enumFrom n).filterMap (fun x =>
        (skipReason (parseRow x.2)).map
          (fun e => ({ row := x.1, error := e, raw := x.2 } : RowError)))).map
          (fun e => (e.row, e.raw)) =
        (rows.enumFrom n).filter (fun x => decide (¬ RowValid (parseRow x.2))) := by
  induction rows with
  | nil =>
    intro n
    rfl
  | cons raw rest ih =>
    intro n
    cases hs : skipReason (parseRow raw) with
    | some e =>
      have hv : ¬ RowValid (parseRow raw) := by
        intro h
        rw [(skipReason_none_iff _).2 h] at hs
        cases hs
      simp [List.enumFrom_cons, List.filterMap_cons, hs, hv, ih]
    | none =>
      have hv : RowValid (parseRow raw) := (skipReason_none_iff _).1 hs
      simp [List.enumFrom_cons, List.filterMap_cons, hs, hv, ih]

/-- Every row is either inserted or skipped. -/
theorem valid_plus_invalid (rows : List CsvRow) :
    ((rows.map parseRow).filter (fun p => decide (RowValid p))).length +
      (rows.filter (fun raw => decide (¬ RowValid (parseRow raw)))).length = rows.length := by
  induction rows with
  | nil => rfl
  | cons raw rest ih =>
    by_cases hv : RowValid (parseRow raw)
    · simp only [List.map_cons, List.filter_cons, hv, decide_True, if_true, not_true_eq_false,
        decide_False, Bool.false_eq_true, if_false, List.length_cons]
      omega
    · simp only [List.map_cons, List.filter_cons, hv, decide_False, Bool.false_eq_true,
        if_false, not_false_eq_true, decide_True, if_true, List.length_cons]
      omega

/-- The result of an import in which the store rejects nothing. -/
theorem handleCsvUploadBuffer_ok (s : Session) (st : Store) (env : CsvEnv)
    (rows : List CsvRow) (hne : rows ≠ []) (hf : env.failAt = none)
    (hc : env.commitFails = false) :
    handleCsvUploadBuffer s st env rows =
      { sess := loadQuestions s { st with questions := insertAll st.questions (validRows rows) }
          env.loadFails
        store := { st with questions := insertAll st.questions (validRows rows) }
        result := .imported rows.length (validRows rows).length
          (rows.filter (fun raw => decide (¬ RowValid (parseRow raw)))).length
          (expectedErrors rows) } := by
  have hlen : ¬ rows.length = 0 := by
    intro h
    exact hne (List.length_eq_zero.1 h)
  unfold handleCsvUploadBuffer validRows expectedErrors
  rw [if_neg hlen, importLoop_ok env hf rows 0]
  simp [hc]

/-- Filtering the numbered rows on the row keeps as many as filtering the
rows. -/
theorem filter_enumFrom_length (rows : List CsvRow) (f : CsvRow → Bool) :
    ∀ n : Nat, ((rows.enumFrom n).filter (fun x => f x.2)).length = (rows.filter f).length := by
  induction rows with
  | nil =>
    intro n
    rfl
  | cons raw rest ih =>
    intro n
    cases h : f raw <;> simp [List.enumFrom_cons, List.filter_cons, h, ih]

/-- C22: bulk import validates each row on its own. For every non-empty list
of parsed rows, with the store rejecting nothing: the table gains exactly the
valid rows (question and four options non-empty, mapped correct value
non-empty and equal to one of the options) in input order, behind the rows it
had; the result is `ok` with `parsedRows` the number of rows, `inserted` the
number of valid rows and `skipped` the number of the others, so that
`inserted + skipped = parsedRows`; `errors` has one entry for each skipped
row, in order, with the 1-based row number, the row and one of the three
reasons; every valid row is in the table whatever the other rows are; and the
catalog is reloaded from the new table. -/
theorem C22_bulk_import_validates_rows (s : Session) (st : Store) (env : CsvEnv)
    (rows : List CsvRow) (hne : rows ≠ []) (hf : env.failAt = none)
    (hc : env.commitFails = false) :
    ∃ extra : List Question,
      (handleCsvUploadBuffer s st env rows).store =
        { st with questions := st.questions ++ extra } ∧
      extra.map rowContent = validRows rows ∧
      (handleCsvUploadBuffer s st env rows).result =
        .imported rows.length (validRows rows).length
          (rows.filter (fun raw => decide (¬ RowValid (parseRow raw)))).length
          (expectedErrors rows) ∧
      (validRows rows).length +
        (rows.filter (fun raw => decide (¬ RowValid (parseRow raw)))).length = rows.length ∧
      (expectedErrors rows).length =
        (rows.filter (fun raw => decide (¬ RowValid (parseRow raw)))).length ∧
      (expectedErrors rows).map (fun e => (e.row, e.raw)) =
        (rows.enumFrom 1).filter (fun x => decide (¬ RowValid (parseRow x.2))) ∧
      (∀ e ∈ expectedErrors rows, skipReason (parseRow e.raw) = some e.error ∧
        e.error ∈ ["Missing question/options", "Missing correct answer",
          "Correct answer must match one of the options"]) ∧
      (∀ raw ∈ rows, RowValid (parseRow raw) → ∃ q ∈ extra, rowContent q = parseRow raw) ∧
      (handleCsvUploadBuffer s st env rows).sess =
        loadQuestions s (handleCsvUploadBuffer s st env rows).store env.loadFails ∧
      (SortedById st.questions → env.loadFails = false →
        (handleCsvUploadBuffer s st env rows).sess.questions = st.questions ++ extra) := by
  obtain ⟨extra, h1, h2, h3⟩ := insertAll_append (validRows rows) st.questions
  have hmap := errors_rows rows 1
  refine ⟨extra, ?_, h2, ?_, valid_plus_invalid rows, ?_, hmap, ?_, ?_, ?_, ?_⟩
  · rw [handleCsvUploadBuffer_ok s st env rows hne hf hc, h1]
  · rw [handleCsvUploadBuffer_ok s st env rows hne hf hc]
  · have hl := congrArg List.length hmap
    rw [List.length_map] at hl
    unfold expectedErrors
    rw [hl]
    exact filter_enumFrom_length rows (fun raw => decide (¬ RowValid (parseRow raw))) 1
  · intro e he
    unfold expectedErrors at he
    rw [List.mem_filterMap] at he
    obtain ⟨x, -, hx⟩ := he
    cases hs : skipReason (parseRow x.2) with
    | none =>
      rw [hs] at hx
      cases hx
    | some m =>
      rw [hs] at hx
      simp only [Option.map_some', Option.some.injEq] at hx
      rw [← hx]
      exact ⟨hs, skipReason_messages _ _ hs⟩
  · intro raw hraw hv
    have hin : parseRow raw ∈ validRows rows := by
      unfold validRows
      rw [List.mem_filter]
      exact ⟨List.mem_map_of_mem _ hraw, by simpa using hv⟩
    rw [← h2, List.mem_map] at hin
    exact hin
  · rw [handleCsvUploadBuffer_ok s st env rows hne hf hc]
  · intro hs hl
    rw [handleCsvUploadBuffer_ok s st env rows hne hf hc]
    have hsel := selectQuestions_sorted { st with questions := st.questions ++ extra } (h3 hs)
    simp only [loadQuestions, hl, Bool.false_eq_true, if_false, h1]
    exact hsel

/-- Witness of C22: of the five sample rows only the third has a correct value
that matches no option; the import inserts four rows, skips one and reports
one error, for row 3. -/
theorem C22_bulk_import_validates_rows_witness :
    (∃ extra : List Question,
      (handleCsvUploadBuffer sampleIdleSession sampleRestStore sampleCsvEnv sampleCsvRows).store =
        { sampleRestStore with questions := sampleRestStore.questions ++ extra } ∧
      extra.map rowContent = validRows sampleCsvRows) ∧
    (handleCsvUploadBuffer sampleIdleSession sampleRestStore sampleCsvEnv sampleCsvRows).result =
      .imported 5 4 1
        [{ row := 3, error := "Correct answer must match one of the options",
           raw := sampleCsvRow "H2O is?" "Water" "Salt" "Gold" "Air" "Ice" }] ∧
    (validRows sampleCsvRows).map (fun p => p.correct) = ["2", "Jupiter", "9", "Cold"] :=
  have h := C22_bulk_import_validates_rows sampleIdleSession sampleRestStore sampleCsvEnv
    sampleCsvRows (by decide) rfl rfl
  ⟨h.imp (fun _ hx => ⟨hx.1, hx.2.1⟩), by decide, by decide⟩

/-- C29: a failing `INSERT` rolls the whole import back. When the store
rejects the `INSERT` of a valid row of the file, no row of the file is in the
table afterwards (also not the valid rows before it), the result is `ok:
false` with a non-empty error text and no counts, and the catalog is not
reloaded. -/
theorem C29_failed_insert_rolls_back (s : Session) (st : Store) (env : CsvEnv)
    (rows : List CsvRow) (k : Nat) (raw : CsvRow)
    (hk : env.failAt = some k) (hraw : rows.get? k = some raw)
    (hv : RowValid (parseRow raw)) :
    (handleCsvUploadBuffer s st env rows).store = st ∧
    (handleCsvUploadBuffer s st env rows).sess = s ∧
    (handleCsvUploadBuffer s st env rows).result =
      .failed (if env.errMessage = "" then "Insert failed" else env.errMessage) ∧
    (if env.errMessage = "" then "Insert failed" else env.errMessage) ≠ "" ∧
    (∀ p i sk errs, (handleCsvUploadBuffer s st env rows).result ≠ .imported p i sk errs) := by
  have hloop : importLoop env 0 rows
      { table := st.questions, inserted := 0, skipped := 0, errors := [] } = none :=
    (importLoop_none_iff env rows 0 _).2 ⟨k, raw, by simpa using hk, hraw, hv⟩
  have hlen : ¬ rows.length = 0 := by
    intro h
    rw [List.length_eq_zero.1 h] at hraw
    cases hraw
  have hmsg : (if env.errMessage = "" then "Insert failed" else env.errMessage) ≠ "" := by
    by_cases h : env.errMessage = ""
    · rw [if_pos h]
      decide
    · rw [if_neg h]
      exact h
  unfold handleCsvUploadBuffer
  rw [if_neg hlen, hloop]
  refine ⟨rfl, rfl, rfl, hmsg, ?_⟩
  intro p i sk errs h
  cases h

/-- Witness of C29: the store rejects the `INSERT` of the fourth sample row,
after two rows were inserted; the table and the catalog stay as they were. -/
theorem C29_failed_insert_rolls_back_witness :
    (handleCsvUploadBuffer sampleIdleSession sampleRestStore sampleCsvFailEnv
      sampleCsvRows).store = sampleRestStore ∧
    (handleCsvUploadBuffer sampleIdleSession sampleRestStore sampleCsvFailEnv
      sampleCsvRows).sess = sampleIdleSession ∧
    (handleCsvUploadBuffer sampleIdleSession sampleRestStore sampleCsvFailEnv
      sampleCsvRows).result = .failed "Data too long" :=
  have h := C29_failed_insert_rolls_back sampleIdleSession sampleRestStore sampleCsvFailEnv
    sampleCsvRows 3 (sampleCsvRow "3 * 3 = ?" "6" "9" "12" "33" " b ") rfl (by decide)
    (by decide)
  ⟨h.1, h.2.1, h.2.2.1⟩

/-! ## Catalog reloads and failed advances -/

/-- The handler reads the catalog only through `questions[currentIndex]`: with
another catalog that holds the same entry under the cursor it does the same. -/
theorem submitAnswer_reloaded (s : Session) (qs : List Question) (st : Store) (env : Env)
    (sub : Submission)
    (h : questionAt qs s.currentIndex = questionAt s.questions s.currentIndex) :
    submitAnswer { s with questions := qs } st env sub =
      { sess := { (submitAnswer s st env sub).sess with questions := qs }
        store := (submitAnswer s st env sub).store
        emits := (submitAnswer s st env sub).emits } := by
  unfold submitAnswer submitCheck
  simp only [h]
  split_ifs with h1 h2
  · rfl
  · rfl
  · unfold submitResume
    cases resolveUserId st.users sub.user_id with
    | none => rfl
    | some r =>
      simp only [h]
      by_cases h0 : r = 0
      · simp only [h0, if_true]
      · simp only [h0, if_false]
        by_cases hin : s.answeredUsers.contains r = true
        · simp only [hin, if_true]
        · have hin2 : s.answeredUsers.contains r = false := by simpa using hin
          simp only [hin2, Bool.false_eq_true, if_false]
          cases questionAt s.questions s.currentIndex with
          | none => rfl
          | some q =>
            simp only
            by_cases ha : sub.answer = .str q.correct
            · simp only [ha, if_true]
              cases env.insertFails <;> cases s.firstAnswered <;> rfl
            · simp only [ha, if_false]

/-- The score upsert does not look at the `questions` table. -/
theorem upsertPerformanceScore_table (st : Store) (tbl : List Question) (u : Nat)
    (points : Int) (now : Nat) :
    upsertPerformanceScore { st with questions := tbl } u points now =
      { upsertPerformanceScore st u points now with questions := tbl } := by
  unfold upsertPerformanceScore
  cases h : st.performance.any (fun r => r.user_id == u) <;> simp [h]

/-- The leaderboard query does not look at the `questions` table. -/
theorem fetchGlobalLeaderboard_table (st : Store) (tbl : List Question) (limit : Nat) :
    fetchGlobalLeaderboard { st with questions := tbl } limit = fetchGlobalLeaderboard st limit :=
  rfl

/-- The real-time handler does not look at the `questions` table: with other
rows in it, it leaves the same session, the same events and the same store up
to that table. -/
theorem submitAnswer_table (s : Session) (st : Store) (env : Env) (sub : Submission)
    (tbl : List Question) :
    submitAnswer s { st with questions := tbl } env sub =
      { sess := (submitAnswer s st env sub).sess
        store := { (submitAnswer s st env sub).store with questions := tbl }
        emits := (submitAnswer s st env sub).emits } := by
  unfold submitAnswer
  cases submitCheck s sub.user_id with
  | some msg => rfl
  | none =>
    simp only
    unfold submitResume
    cases resolveUserId st.users sub.user_id with
    | none => rfl
    | some r =>
      simp only
      by_cases h0 : r = 0
      · simp only [h0, if_true]
      · simp only [h0, if_false]
        by_cases hin : s.answeredUsers.contains r = true
        · simp only [hin, if_true]
        · have hin2 : s.answeredUsers.contains r = false := by simpa using hin
          simp only [hin2, Bool.false_eq_true, if_false]
          cases questionAt s.questions s.currentIndex with
          | none => rfl
          | some q =>
            simp only
            by_cases ha : sub.answer = .str q.correct
            · simp only [ha, if_true, upsertPerformanceScore_table, fetchGlobalLeaderboard_table]
              cases env.insertFails <;> cases s.firstAnswered <;> rfl
            · simp only [ha, if_false]

/-- An entry of the catalog stays where it is when rows are appended. -/
theorem questionAt_append (qs extra : List Question) (i : Int) (q : Question)
    (h : questionAt qs i = some q) : questionAt (qs ++ extra) i = some q := by
  unfold questionAt at h ⊢
  by_cases hi : i < 0
  · simp [hi] at h
  · simp only [hi, if_false] at h ⊢
    rw [List.get?_eq_getElem?] at h ⊢
    have hlt : i.toNat < qs.length := by
      by_contra hlt
      rw [List.getElem?_eq_none (by omega)] at h
      cases h
    rw [List.getElem?_append_left hlt]
    exact h

/-- After `POST /questions` on an up-to-date catalog in `id` order, with the
reload query succeeding, the catalog is the old one followed by the new row (or
the old one, when nothing was inserted). -/
theorem postQuestions_catalog (s : Session) (st : Store) (env : QuestionEnv)
    (b : QuestionBody) (hs : SortedById st.questions) (hsync : s.questions = st.questions)
    (hl : env.loadFails = false) :
    ∃ extra, (postQuestions s st env b).sess = { s with questions := s.questions ++ extra } ∧
      (postQuestions s st env b).store = { st with questions := st.questions ++ extra } := by
  unfold postQuestions
  split_ifs with h1 h2 h3
  · exact ⟨[], by simp, by simp⟩
  · exact ⟨[], by simp, by simp⟩
  · exact ⟨[], by simp, by simp⟩
  · refine ⟨[questionRowOf (nextQuestionId st.questions) b], ?_, rfl⟩
    have hsorted := sortedById_append_next st.questions
      (questionRowOf (nextQuestionId st.questions) b) hs
      (fun o ho => id_lt_nextQuestionId st.questions o ho)
    have hsel := selectQuestions_sorted
      { st with questions := st.questions ++ [questionRowOf (nextQuestionId st.questions) b] }
      hsorted
    simp only [loadQuestions, hl, Bool.false_eq_true, if_false, hsync]
    rw [hsel]

/-- The table a completed import loop leaves is the table it found with rows
inserted behind it. -/
theorem importLoop_table (env : CsvEnv) (rows : List CsvRow) :
    ∀ (i : Nat) (acc acc2 : ImportState), importLoop env i rows acc = some acc2 →
      ∃ ps, acc2.table = insertAll acc.table ps := by
  induction rows with
  | nil =>
    intro i acc acc2 h
    simp only [importLoop, Option.some.injEq] at h
    exact ⟨[], by rw [← h]; rfl⟩
  | cons raw rest ih =>
    intro i acc acc2 h
    unfold importLoop importRow at h
    cases hs : skipReason (parseRow raw) with
    | some e =>
      simp only [hs] at h
      obtain ⟨ps, hps⟩ := ih (i + 1) _ acc2 h
      exact ⟨ps, hps⟩
    | none =>
      simp only [hs] at h
      by_cases hfa : env.failAt = some i
      · simp [hfa] at h
      · simp only [hfa, if_false] at h
        obtain ⟨ps, hps⟩ := ih (i + 1) _ acc2 h
        exact ⟨parseRow raw :: ps, by rw [hps]; rfl⟩

/-- After a bulk import on an up-to-date catalog in `id` order, with the reload
query succeeding, the catalog is the old one followed by the inserted rows (or
the old one, when the import was refused or rolled back). -/
theorem handleCsvUploadBuffer_catalog (s : Session) (st : Store) (env : CsvEnv)
    (rows : List CsvRow) (hs : SortedById st.questions) (hsync : s.questions = st.questions)
    (hl : env.loadFails = false) :
    ∃ extra, (handleCsvUploadBuffer s st env rows).sess =
        { s with questions := s.questions ++ extra } ∧
      (handleCsvUploadBuffer s st env rows).store =
        { st with questions := st.questions ++ extra } := by
  unfold handleCsvUploadBuffer
  by_cases h1 : rows.length = 0
  · rw [if_pos h1]
    exact ⟨[], by simp, by simp⟩
  · rw [if_neg h1]
    cases hloop : importLoop env 0 rows
        { table := st.questions, inserted := 0, skipped := 0, errors := [] } with
    | none => exact ⟨[], by simp, by simp⟩
    | some acc =>
      simp only
      by_cases h2 : env.commitFails = true
      · rw [if_pos h2]
        exact ⟨[], by simp, by simp⟩
      · rw [if_neg h2]
        obtain ⟨ps, hps⟩ := importLoop_table env rows 0 _ acc hloop
        obtain ⟨extra, he1, -, he3⟩ := insertAll_append ps st.questions
        simp only at hps
        rw [he1] at hps
        refine ⟨extra, ?_, by rw [hps]⟩
        have hsel := selectQuestions_sorted { st with questions := st.questions ++ extra }
          (he3 hs)
        simp only [loadQuestions, hl, Bool.false_eq_true, if_false, hsync, hps]
        rw [hsel]

/-- Counterexample to C24 as stated: while the first sample question is open, a
question is added and the query of the following `loadQuestions` throws. The
catalog is emptied, and the correct answer of user 2, which without the reload
is accepted with the first-correct bonus, is rejected with `No active
question.` and scores nothing. -/
theorem C24_counterexample :
    sampleFreshSession.acceptingAnswers = true ∧
    questionAt sampleFreshSession.questions sampleFreshSession.currentIndex = some sampleQ1 ∧
    (submitAnswer sampleFreshSession sampleRestStore sampleEnv sampleCorrectSub).emits.head? =
      some (.answerResult (firstCorrectMsg 15)) ∧
    scoreOf (submitAnswer sampleFreshSession sampleRestStore sampleEnv sampleCorrectSub).store 2 =
      15 ∧
    (postQuestions sampleFreshSession sampleRestStore ⟨false, true⟩ sampleBody).reply =
      .added 13 ∧
    (postQuestions sampleFreshSession sampleRestStore ⟨false, true⟩ sampleBody).sess.questions =
      [] ∧
    (submitAnswer (postQuestions sampleFreshSession sampleRestStore ⟨false, true⟩ sampleBody).sess
      (postQuestions sampleFreshSession sampleRestStore ⟨false, true⟩ sampleBody).store
      sampleEnv sampleCorrectSub).emits = [.answerResult noActiveMsg] ∧
    scoreOf (submitAnswer
      (postQuestions sampleFreshSession sampleRestStore ⟨false, true⟩ sampleBody).sess
      (postQuestions sampleFreshSession sampleRestStore ⟨false, true⟩ sampleBody).store
      sampleEnv sampleCorrectSub).store 2 = 0 := by
  decide

/-- C24 (as amended): a reload leaves the in-flight question alone when its query
succeeds and returns the same row under the cursor, and then a submission is
processed with the same events, the same scores and the same session state as
without the reload. That is the case after `POST /questions` and after a
bulk import on a catalog that is up to date with a table in `id` order: both
only append rows. A reload whose query fails empties the catalog, and every
submission after it is rejected with `No active question.` and changes
nothing. -/
theorem C24_reload_keeps_live_question_unless_query_fails (s : Session) (st : Store)
    (env : Env) (sub : Submission) (q : Question)
    (hq : questionAt s.questions s.currentIndex = some q) :
    (∀ table : Store, questionAt (selectQuestions table) s.currentIndex = some q →
      submitAnswer (loadQuestions s table false) st env sub =
        { sess := loadQuestions (submitAnswer s st env sub).sess table false
          store := (submitAnswer s st env sub).store
          emits := (submitAnswer s st env sub).emits }) ∧
    (∀ (qenv : QuestionEnv) (b : QuestionBody), SortedById st.questions →
      s.questions = st.questions → qenv.loadFails = false →
      questionAt (postQuestions s st qenv b).sess.questions s.currentIndex = some q ∧
      submitAnswer (postQuestions s st qenv b).sess (postQuestions s st qenv b).store env sub =
        { sess := { (submitAnswer s st env sub).sess with
                    questions := (postQuestions s st qenv b).sess.questions }
          store := { (submitAnswer s st env sub).store with
                     questions := (postQuestions s st qenv b).store.questions }
          emits := (submitAnswer s st env sub).emits }) ∧
    (∀ (cenv : CsvEnv) (rows : List CsvRow), SortedById st.questions →
      s.questions = st.questions → cenv.loadFails = false →
      questionAt (handleCsvUploadBuffer s st cenv rows).sess.questions s.currentIndex =
        some q ∧
      submitAnswer (handleCsvUploadBuffer s st cenv rows).sess
          (handleCsvUploadBuffer s st cenv rows).store env sub =
        { sess := { (submitAnswer s st env sub).sess with
                    questions := (handleCsvUploadBuffer s st cenv rows).sess.questions }
          store := { (submitAnswer s st env sub).store with
                     questions := (handleCsvUploadBuffer s st cenv rows).store.questions }
          emits := (submitAnswer s st env sub).emits }) ∧
    (∀ table : Store,
      submitAnswer (loadQuestions s table true) st env sub =
        { sess := loadQuestions s table true, store := st,
          emits := [.answerResult noActiveMsg] }) := by
  have happ : ∀ extra : List Question,
      submitAnswer { s with questions := s.questions ++ extra }
          { st with questions := st.questions ++ extra } env sub =
        { sess := { (submitAnswer s st env sub).sess with questions := s.questions ++ extra }
          store := { (submitAnswer s st env sub).store with
                     questions := st.questions ++ extra }
          emits := (submitAnswer s st env sub).emits } := by
    intro extra
    rw [submitAnswer_table, submitAnswer_reloaded s (s.questions ++ extra) st env sub
      (by rw [questionAt_append s.questions extra s.currentIndex q hq, hq])]
  refine ⟨?_, ?_, ?_, ?_⟩
  · intro table hsame
    have h := submitAnswer_reloaded s (selectQuestions table) st env sub (by rw [hsame, hq])
    simp only [loadQuestions, Bool.false_eq_true, if_false]
    exact h
  · intro qenv b hs hsync hl
    obtain ⟨extra, h1, h2⟩ := postQuestions_catalog s st qenv b hs hsync hl
    rw [h1, h2]
    exact ⟨questionAt_append s.questions extra s.currentIndex q hq, happ extra⟩
  · intro cenv rows hs hsync hl
    obtain ⟨extra, h1, h2⟩ := handleCsvUploadBuffer_catalog s st cenv rows hs hsync hl
    rw [h1, h2]
    exact ⟨questionAt_append s.questions extra s.currentIndex q hq, happ extra⟩
  · intro table
    exact submitAnswer_noActive (loadQuestions s table true) st env sub
      (Or.inr (by simp [loadQuestions, questionAt]))

/-- Witness of C24: a question is added while the first sample question is
open and the reload succeeds; the correct answer of user 2 is processed as
without the reload. -/
theorem C24_reload_keeps_live_question_unless_query_fails_witness :
    questionAt (postQuestions sampleFreshSession sampleRestStore sampleQuestionEnv
      sampleBody).sess.questions sampleFreshSession.currentIndex = some sampleQ1 ∧
    (submitAnswer
      (postQuestions sampleFreshSession sampleRestStore sampleQuestionEnv sampleBody).sess
      (postQuestions sampleFreshSession sampleRestStore sampleQuestionEnv sampleBody).store
      sampleEnv sampleCorrectSub).emits =
      (submitAnswer sampleFreshSession sampleRestStore sampleEnv sampleCorrectSub).emits :=
  have h := (C24_reload_keeps_live_question_unless_query_fails sampleFreshSession sampleRestStore
    sampleEnv sampleCorrectSub sampleQ1 (by decide)).2.1 sampleQuestionEnv sampleBody
    (by decide) (by decide) (by decide)
  ⟨h.1, by rw [h.2]⟩

/-- The call `nextQuestion` throws exactly when the incremented cursor is
negative. -/
theorem nextQuestion_threw_iff (s : Session) :
    (nextQuestion s).threw = true ↔ s.currentIndex + 1 < 0 := by
  rcases nextQuestion_cases s with h | ⟨h, q, hq⟩ | ⟨h, hq⟩
  · rw [nextQuestion_gameOver s h]
    simp only [Bool.false_eq_true, false_iff, not_lt]
    have : (0 : Int) ≤ (s.questions.length : Int) := Int.natCast_nonneg _
    omega
  · rw [nextQuestion_live s q h hq]
    simp only [Bool.false_eq_true, false_iff, not_lt]
    by_contra hneg
    have hlt : s.currentIndex + 1 < 0 := by omega
    simp [questionAt, hlt] at hq
  · rw [nextQuestion_throw s h hq]
    simp only [true_iff]
    by_contra hneg
    obtain ⟨q, hq2⟩ := questionAt_isSome s.questions (s.currentIndex + 1) (by omega) h
    rw [hq] at hq2
    cases hq2

/-- With no timer pending, timer events change nothing. -/
theorem runEvents_timer_off (sys : Sys) (h : sys.timer = .off) (n : Nat) :
    runEvents sys (List.replicate n Event.timer) = sys := by
  induction n with
  | zero => rfl
  | succ n ih =>
    rw [List.replicate_succ', runEvents_concat, ih]
    simp [step, fireTimer, h]

/-- A timer callback whose `nextQuestion` throws leaves no timer pending and
broadcasts nothing. -/
theorem fireTimer_threw (sys : Sys) (hthrow : (nextQuestion sys.sess).threw = true) :
    (fireTimer sys).timer = .off ∧ (fireTimer sys).out = sys.out := by
  have hneg := (nextQuestion_threw_iff sys.sess).1 hthrow
  have hlen : (0 : Int) ≤ (sys.sess.questions.length : Int) := Int.natCast_nonneg _
  have key : ∀ s2 : Sys, s2.sess.currentIndex = sys.sess.currentIndex →
      s2.sess.questions = sys.sess.questions →
      (runAdvance s2).timer = .off ∧ (runAdvance s2).out = s2.out := by
    intro s2 h1 h2
    have hlt : s2.sess.currentIndex + 1 < (s2.sess.questions.length : Int) := by
      rw [h1, h2]; omega
    have hq : questionAt s2.sess.questions (s2.sess.currentIndex + 1) = none := by
      have : s2.sess.currentIndex + 1 < 0 := by rw [h1]; exact hneg
      simp [questionAt, this]
    unfold runAdvance
    rw [nextQuestion_throw s2.sess hlt hq]
    simp
  unfold fireTimer
  cases ht : sys.timer with
  | off => exact ⟨ht, rfl⟩
  | startup => exact key sys rfl rfl
  | windowClose =>
    exact key { sys with sess := { sys.sess with acceptingAnswers := false } } rfl rfl

/-- In every state reached from `server.listen` by timers, catalog reloads and
submissions, a call of `nextQuestion` does not throw: it either broadcasts a
question and sets the window-close timer, or broadcasts `gameOver` and sets
none. -/
theorem nextQuestion_returns_on_reachable (catalog : List Question) (st : Store)
    (evs : List Event) :
    (nextQuestion (runEvents (initSys catalog st) evs).sess).threw = false ∧
    ((∃ q, (nextQuestion (runEvents (initSys catalog st) evs).sess).emits =
          [.newQuestion (newQuestionPayload q)] ∧
        (nextQuestion (runEvents (initSys catalog st) evs).sess).timerScheduled = true) ∨
      ((nextQuestion (runEvents (initSys catalog st) evs).sess).emits =
          [.gameOver gameOverMessage] ∧
        (nextQuestion (runEvents (initSys catalog st) evs).sess).timerScheduled = false)) := by
  have hinv := seqInv_run evs (initSys catalog st) (seqInv_init catalog st)
  have hidx := hinv.1
  rcases nextQuestion_cases (runEvents (initSys catalog st) evs).sess with h | ⟨h, q, hq⟩ | ⟨h, hq⟩
  · rw [nextQuestion_gameOver _ h]
    exact ⟨rfl, Or.inr ⟨rfl, rfl⟩⟩
  · rw [nextQuestion_live _ q h hq]
    exact ⟨rfl, Or.inl ⟨q, rfl, rfl⟩⟩
  · exfalso
    obtain ⟨q, hq2⟩ := questionAt_isSome _ _ (by omega) h
    rw [hq] at hq2
    cases hq2

end WisdomWarfare
